import Mathlib

/-!
# RTP forward error correction: encoder accumulator and decoder window

A shallow embedding of `fecenc.c` and `fecdec.c`.

* Machine integers are natural numbers; every place where the C code computes in
  `guint`/`guint32` is reduced modulo `2^32` (`u32`), `guint16` modulo `2^16`
  and `guint8` modulo `2^8`.
* A `GQueue` is a list whose head is the queue head (`g_queue_push_tail` appends).
* A `GHashTable` used as a set of keys is a list of keys.
* A failed `assert`, a dereferenced `NULL` and a store outside an allocated table
  give `none`.
* The erasure coding engine (OpenFEC) is a parameter, `Codec`.
-/

namespace RtpFec

/-! ## Machine arithmetic -/

/-- Reduction of a value to the range of `guint` / `guint32`. -/
def u32 (x : Nat) : Nat := x % 4294967296

/-- Subtraction in `guint32`: `a - b` wraps around below zero. -/
def u32_sub (a b : Nat) : Nat := (u32 a + 4294967296 - u32 b) % 4294967296

/-- Read of `p[i]` through a `guint8 *`; bytes that are not there read as `0`. -/
def byte_at (p : List Nat) (i : Nat) : Nat := p.getD i 0 % 256

/-- The C macro `MAX`. -/
def MAX (a b : Nat) : Nat := if a > b then a else b

/-- Value of `1ul << n` (the shift is defined only while `n` is below the width of
`unsigned long`). -/
def shl1 (n : Nat) : Nat := 1 <<< n

/-! ## Packets -/

/-- An RTP packet held in a `GstBuffer`: the header fields the RTP accessors read,
the length of the RTP header, and the raw bytes of the whole buffer. -/
structure GstBuffer where
  seq : Nat
  ssrc : Nat
  timestamp : Nat
  payload_type : Nat
  header_len : Nat
  data : List Nat
deriving DecidableEq, Repr

/-- Result of `gst_rtp_buffer_get_seq` (a `guint16`). -/
def gst_rtp_buffer_get_seq (b : GstBuffer) : Nat := b.seq % 65536

/-- Result of `gst_rtp_buffer_get_ssrc` (a `guint32`). -/
def gst_rtp_buffer_get_ssrc (b : GstBuffer) : Nat := u32 b.ssrc

/-- Result of `gst_rtp_buffer_get_timestamp` (a `guint32`). -/
def gst_rtp_buffer_get_timestamp (b : GstBuffer) : Nat := u32 b.timestamp

/-- Result of `gst_rtp_buffer_get_header_len`. -/
def gst_rtp_buffer_get_header_len (b : GstBuffer) : Nat := b.header_len

/-- The macro `GST_BUFFER_SIZE`. -/
def GST_BUFFER_SIZE (b : GstBuffer) : Nat := b.data.length

/-- The macro `GST_BUFFER_DATA`. -/
def GST_BUFFER_DATA (b : GstBuffer) : List Nat := b.data

/-- The pointer `GST_BUFFER_DATA(packet) + gst_rtp_buffer_get_header_len(packet)`. -/
def fec_data_of (packet : GstBuffer) : List Nat :=
  (GST_BUFFER_DATA packet).drop (gst_rtp_buffer_get_header_len packet)

/-! ## Key sets -/

/-- The call `g_hash_table_lookup_extended(set, key, NULL, NULL)`. -/
def g_hash_table_lookup_extended (set : List Nat) (key : Nat) : Bool := decide (key ∈ set)

/-- The helper `custom_hash_table_add`. -/
def custom_hash_table_add (set : List Nat) (key : Nat) : List Nat :=
  if key ∈ set then set else set ++ [key]

/-- The call `g_hash_table_remove(set, key)`. -/
def g_hash_table_remove (set : List Nat) (key : Nat) : List Nat :=
  set.filter (fun k => decide (k ≠ key))

/-! ## The erasure coding engine -/

/-- The erasure coding engine, a black box.

`encode k r len src i` is the repair symbol with index `i` that
`of_build_repair_symbol` computes from the `k` source symbols `src`.

`decode k r len tab` is what a decoding session does when it is fed the entries of
the symbol table `tab` that are present: the contents of the buffers it asked the
source packet callback for, in the order of the calls. -/
structure Codec where
  encode : Nat → Nat → Nat → List (List Nat) → Nat → List Nat
  decode : Nat → Nat → Nat → List (Option (List Nat)) → List (List Nat)

/-- The `len` bytes that `of_build_repair_symbol` leaves in the payload of repair
packet `i`. -/
def of_build_repair_symbol (c : Codec) (k r len : Nat) (src : List (List Nat)) (i : Nat) :
    List Nat :=
  (c.encode k r len src i ++ List.replicate len 0).take len

/-! ## The decoder -/

/-- The C `struct fec_dec_s`, without the buffer factory. A recovered packet is
represented by the bytes of its buffer. -/
structure fec_dec where
  num_media_packets : Nat
  num_fec_packets : Nat
  max_packet_size : Nat
  cur_snbase : Nat
  blacklisted_snbase : Nat
  has_snbase : Bool
  media_packets : List GstBuffer
  fec_packets : List GstBuffer
  recovered_packets : List (List Nat)
  media_packet_set : List Nat
  fec_packet_set : List Nat
  received_media_packet_mask : Nat
  num_received_media_packets : Nat
  num_received_fec_packets : Nat
deriving DecidableEq, Repr

/-- The function `fec_dec_create`. -/
def fec_dec_create (num_media_packets num_fec_packets : Nat) : fec_dec :=
  { num_media_packets := num_media_packets
    num_fec_packets := num_fec_packets
    max_packet_size := 0
    cur_snbase := 0
    blacklisted_snbase := 0
    has_snbase := false
    media_packets := []
    fec_packets := []
    recovered_packets := []
    media_packet_set := []
    fec_packet_set := []
    received_media_packet_mask := 0
    num_received_media_packets := 0
    num_received_fec_packets := 0 }

/-- The function `fec_dec_cleanup`. -/
def fec_dec_cleanup (dec : fec_dec) : fec_dec :=
  { dec with
    blacklisted_snbase := dec.cur_snbase
    has_snbase := false
    received_media_packet_mask := 0
    num_received_media_packets := 0
    num_received_fec_packets := 0
    max_packet_size := 0
    media_packets := []
    fec_packets := []
    media_packet_set := []
    fec_packet_set := [] }

/-- The function `fec_dec_all_media_packets_present`. -/
def fec_dec_all_media_packets_present (dec : fec_dec) : Bool :=
  decide (dec.received_media_packet_mask = shl1 dec.num_media_packets - 1)

/-- The function `fec_dec_can_recover_packets`. -/
def fec_dec_can_recover_packets (dec : fec_dec) : Bool :=
  decide (dec.num_received_media_packets > 0) &&
    decide (u32 (dec.num_received_media_packets + dec.num_received_fec_packets)
      ≥ dec.num_media_packets)

/-- The callback `fec_dec_source_packet_cb`: the new buffer goes to the tail of the
recovered queue. -/
def fec_dec_source_packet_cb (dec : fec_dec) (packet : List Nat) : fec_dec :=
  { dec with recovered_packets := dec.recovered_packets ++ [packet] }

/-- The function `fec_dec_correct_seqnum`. -/
def fec_dec_correct_seqnum (dec : fec_dec) (seqnum : Nat) : Nat :=
  let corrected_seqnum := seqnum % 65536
  let snbase := u32 dec.cur_snbase
  let snend := u32 (snbase + dec.num_media_packets)
  if snend > 65536 then
    if corrected_seqnum < snbase then u32 (corrected_seqnum + 65536) else corrected_seqnum
  else corrected_seqnum

/-- A store `tab[i] = v` into a table; `none` when `i` is outside the table. -/
def tab_store (tab : List (Option (List Nat))) (i : Nat) (v : List Nat) :
    Option (List (Option (List Nat))) :=
  if i < tab.length then some (tab.set i (some v)) else none

/-- First loop of `fec_dec_recover_packets`: the media packets go to the table. -/
def fec_dec_tab_media (dec : fec_dec) :
    List GstBuffer → List (Option (List Nat)) → Option (List (Option (List Nat)))
  | [], tab => some tab
  | media_packet :: rest, tab =>
    let seqnum := fec_dec_correct_seqnum dec (gst_rtp_buffer_get_seq media_packet)
    match tab_store tab (u32_sub seqnum dec.cur_snbase) (GST_BUFFER_DATA media_packet) with
    | none => none
    | some tab1 => fec_dec_tab_media dec rest tab1

/-- Second loop of `fec_dec_recover_packets`: the repair packets go to the table. -/
def fec_dec_tab_fec (dec : fec_dec) :
    List GstBuffer → List (Option (List Nat)) → Option (List (Option (List Nat)))
  | [], tab => some tab
  | packet :: rest, tab =>
    let fec_data := fec_data_of packet
    let esi := byte_at fec_data 12
    match tab_store tab (u32 (esi + dec.num_media_packets)) (fec_data.drop 13) with
    | none => none
    | some tab1 => fec_dec_tab_fec dec rest tab1

/-- The function `fec_dec_recover_packets`. -/
def fec_dec_recover_packets (c : Codec) (dec : fec_dec) : Option fec_dec :=
  if dec.has_snbase = true ∧ dec.max_packet_size > 0 then
    let encoding_symbol_tab : List (Option (List Nat)) :=
      List.replicate (u32 (dec.num_media_packets + dec.num_fec_packets)) none
    match fec_dec_tab_media dec dec.media_packets encoding_symbol_tab with
    | none => none
    | some tab1 =>
      match fec_dec_tab_fec dec dec.fec_packets tab1 with
      | none => none
      | some tab2 =>
        some ((c.decode dec.num_media_packets dec.num_fec_packets dec.max_packet_size
          tab2).foldl fec_dec_source_packet_cb dec)
  else none

/-- The function `fec_dec_check_state`. -/
def fec_dec_check_state (c : Codec) (dec : fec_dec) : Option fec_dec :=
  if fec_dec_all_media_packets_present dec then some (fec_dec_cleanup dec)
  else if fec_dec_can_recover_packets dec then
    match fec_dec_recover_packets c dec with
    | none => none
    | some dec1 => some (fec_dec_cleanup dec1)
  else some dec

/-- Body of the eviction loop of `fec_dec_push_media_packet`, run `n` times: the head
of the media queue is popped and the key of `packet` (the packet being pushed) is
removed from the key set. -/
def fec_dec_evict (packet : GstBuffer) : Nat → fec_dec → fec_dec
  | 0, dec => dec
  | n + 1, dec =>
    fec_dec_evict packet n
      { dec with
        media_packets := dec.media_packets.tail
        media_packet_set :=
          g_hash_table_remove dec.media_packet_set (gst_rtp_buffer_get_seq packet) }

/-- Tail of `fec_dec_push_media_packet`: the overflow check. -/
def fec_dec_overflow (packet : GstBuffer) (dec : fec_dec) : fec_dec :=
  if dec.num_received_media_packets > dec.num_media_packets then
    { fec_dec_evict packet (dec.num_received_media_packets - dec.num_media_packets) dec with
      num_received_media_packets := dec.num_media_packets }
  else dec

/-- The three statements that put a media packet into the queue and the key set and
count it. -/
def fec_dec_buffer_media (dec : fec_dec) (packet : GstBuffer) : fec_dec :=
  { dec with
    media_packets := dec.media_packets ++ [packet]
    media_packet_set := custom_hash_table_add dec.media_packet_set (gst_rtp_buffer_get_seq packet)
    num_received_media_packets := u32 (dec.num_received_media_packets + 1) }

/-- The function `fec_dec_push_media_packet`. -/
def fec_dec_push_media_packet (c : Codec) (dec : fec_dec) (packet : GstBuffer) :
    Option fec_dec :=
  let original_seqnum := gst_rtp_buffer_get_seq packet
  if g_hash_table_lookup_extended dec.media_packet_set original_seqnum then some dec
  else
    let pushed : Option fec_dec :=
      if dec.has_snbase then
        let corrected_seqnum := fec_dec_correct_seqnum dec original_seqnum
        if u32_sub corrected_seqnum dec.cur_snbase ≥ dec.num_media_packets then
          some (fec_dec_buffer_media
            { dec with
              has_snbase := false
              blacklisted_snbase := dec.cur_snbase
              fec_packets := []
              fec_packet_set := []
              num_received_fec_packets := 0 } packet)
        else if corrected_seqnum ≥ u32 dec.cur_snbase ∧
            corrected_seqnum ≤ u32_sub (u32 dec.cur_snbase + u32 dec.num_media_packets) 1 then
          let dec1 := fec_dec_buffer_media dec packet
          fec_dec_check_state c
            { dec1 with
              received_media_packet_mask :=
                u32 (dec1.received_media_packet_mask |||
                  shl1 (u32_sub corrected_seqnum dec1.cur_snbase))
              max_packet_size := MAX dec1.max_packet_size (GST_BUFFER_SIZE packet) }
        else some dec
      else some (fec_dec_buffer_media dec packet)
    match pushed with
    | none => none
    | some dec2 => some (fec_dec_overflow packet dec2)

/-- Loop of `fec_dec_push_fec_packet` over the media queue. `i` is the position in the
queue of the link under inspection and the list is the rest of the queue from that
link on. -/
def fec_dec_rescan (snbase : Nat) : List GstBuffer → Nat → fec_dec → fec_dec
  | [], _, dec => dec
  | media_packet :: rest, i, dec =>
    let seqnum := gst_rtp_buffer_get_seq media_packet
    let corrected_seqnum := fec_dec_correct_seqnum dec seqnum
    if corrected_seqnum < snbase ∨
        corrected_seqnum > u32_sub (u32 (snbase + dec.num_media_packets)) 1 then
      fec_dec_rescan snbase rest i
        { dec with
          media_packet_set := g_hash_table_remove dec.media_packet_set seqnum
          media_packets := dec.media_packets.eraseIdx i }
    else
      fec_dec_rescan snbase rest (i + 1)
        { dec with
          max_packet_size := MAX dec.max_packet_size (GST_BUFFER_SIZE media_packet)
          received_media_packet_mask :=
            u32 (dec.received_media_packet_mask |||
              shl1 (u32_sub corrected_seqnum dec.cur_snbase))
          num_received_media_packets := u32 (dec.num_received_media_packets + 1) }

/-- The SN base field read by `fec_dec_push_fec_packet`. -/
def fec_packet_snbase (packet : GstBuffer) : Nat :=
  let fec_data := fec_data_of packet
  ((byte_at fec_data 0) <<< 8) ||| ((byte_at fec_data 1) <<< 0)

/-- The function `fec_dec_push_fec_packet`. -/
def fec_dec_push_fec_packet (c : Codec) (dec : fec_dec) (packet : GstBuffer) :
    Option fec_dec :=
  let snbase := fec_packet_snbase packet
  let seqnum := gst_rtp_buffer_get_seq packet
  if snbase = dec.blacklisted_snbase then some dec
  else if g_hash_table_lookup_extended dec.fec_packet_set seqnum then some dec
  else
    let dec1 : fec_dec :=
      if dec.cur_snbase ≠ snbase then
        { dec with fec_packets := [], fec_packet_set := [], num_received_fec_packets := 0 }
      else dec
    let dec2 : fec_dec :=
      { dec1 with
        cur_snbase := snbase
        has_snbase := true
        received_media_packet_mask := 0
        num_received_media_packets := 0
        max_packet_size := 0
        fec_packets := dec1.fec_packets ++ [packet]
        fec_packet_set := custom_hash_table_add dec1.fec_packet_set seqnum
        num_received_fec_packets := u32 (dec1.num_received_fec_packets + 1) }
    fec_dec_check_state c (fec_dec_rescan snbase dec2.media_packets 0 dec2)

/-- The function `fec_dec_has_recovered_packets`. -/
def fec_dec_has_recovered_packets (dec : fec_dec) : Bool := !dec.recovered_packets.isEmpty

/-- The function `fec_dec_pop_recovered_packet`: `g_queue_pop_tail` on the recovered
queue. The first component is the returned buffer (`none` for `NULL`). -/
def fec_dec_pop_recovered_packet (dec : fec_dec) : Option (List Nat) × fec_dec :=
  (dec.recovered_packets.getLast?, { dec with recovered_packets := dec.recovered_packets.dropLast })

/-- The function `fec_dec_flush_recovered_packets`. -/
def fec_dec_flush_recovered_packets (dec : fec_dec) : fec_dec :=
  { dec with recovered_packets := [] }

/-- The function `fec_dec_reset`. -/
def fec_dec_reset (dec : fec_dec) : fec_dec :=
  fec_dec_flush_recovered_packets (fec_dec_cleanup dec)

/-- The function `fec_dec_set_num_media_packets`. -/
def fec_dec_set_num_media_packets (dec : fec_dec) (num_media_packets : Nat) : fec_dec :=
  { fec_dec_reset dec with num_media_packets := num_media_packets }

/-- The function `fec_dec_set_num_fec_packets`. -/
def fec_dec_set_num_fec_packets (dec : fec_dec) (num_fec_packets : Nat) : fec_dec :=
  { fec_dec_reset dec with num_fec_packets := num_fec_packets }

/-! ## The encoder -/

/-- The C `struct fec_enc_s`. -/
structure fec_enc where
  num_media_packets : Nat
  num_fec_packets : Nat
  payload_type : Nat
  seqnum_offset : Nat
  current_fec_seqnum : Nat
  max_packet_size : Nat
  cur_num_media_packets : Nat
  media_packets : List GstBuffer
  fec_packets : List GstBuffer
deriving DecidableEq, Repr

/-- The function `fec_enc_create`. -/
def fec_enc_create (num_media_packets num_fec_packets payload_type seqnum_offset : Nat) :
    fec_enc :=
  { num_media_packets := num_media_packets
    num_fec_packets := num_fec_packets
    payload_type := payload_type
    seqnum_offset := seqnum_offset
    current_fec_seqnum := seqnum_offset
    media_packets := []
    fec_packets := []
    max_packet_size := 0
    cur_num_media_packets := 0 }

/-- The function `fec_enc_is_media_packet_list_full`. -/
def fec_enc_is_media_packet_list_full (enc : fec_enc) : Bool :=
  decide (enc.cur_num_media_packets ≥ enc.num_media_packets)

/-- The function `fec_enc_has_fec_packets`. -/
def fec_enc_has_fec_packets (enc : fec_enc) : Bool := !enc.fec_packets.isEmpty

/-- The function `fec_enc_reset`. -/
def fec_enc_reset (enc : fec_enc) : fec_enc :=
  { enc with media_packets := [], fec_packets := [], max_packet_size := 0,
             cur_num_media_packets := 0 }

/-- The function `fec_enc_set_payload_type`. -/
def fec_enc_set_payload_type (enc : fec_enc) (payload_type : Nat) : fec_enc :=
  { enc with payload_type := payload_type }

/-- The function `fec_enc_set_num_media_packets`. -/
def fec_enc_set_num_media_packets (enc : fec_enc) (num_media_packets : Nat) : fec_enc :=
  { fec_enc_reset enc with num_media_packets := num_media_packets }

/-- The function `fec_enc_set_num_fec_packets`. -/
def fec_enc_set_num_fec_packets (enc : fec_enc) (num_fec_packets : Nat) : fec_enc :=
  { fec_enc_reset enc with num_fec_packets := num_fec_packets }

/-- The function `fec_enc_pop_fec_packet`: `g_queue_pop_head` on the repair queue. The
first component is the returned buffer (`none` for `NULL`). -/
def fec_enc_pop_fec_packet (enc : fec_enc) : Option GstBuffer × fec_enc :=
  (enc.fec_packets.head?, { enc with fec_packets := enc.fec_packets.tail })

/-- The twelve header bytes of a packet from `gst_rtp_buffer_new_allocate(_, 0, 0)`
after the setters of `fec_enc_calculate_fec_packets` have run (RFC 3550 layout,
version 2, no padding, no extension, no CSRC, no marker). -/
def rtp_header (ssrc seq timestamp payload_type : Nat) : List Nat :=
  [128, payload_type % 128, (seq >>> 8) % 256, seq % 256,
   (timestamp >>> 24) % 256, (timestamp >>> 16) % 256, (timestamp >>> 8) % 256,
   timestamp % 256,
   (ssrc >>> 24) % 256, (ssrc >>> 16) % 256, (ssrc >>> 8) % 256, ssrc % 256]

/-- The thirteen stores `fec_data[0] = ...` to `fec_data[12] = i` of
`fec_enc_calculate_fec_packets`, each converted to `guint8`. -/
def fec_header (snbase max_packet_size payload_type mask timestamp i : Nat) : List Nat :=
  [((snbase >>> 8) &&& 255) % 256,
   ((snbase >>> 0) &&& 255) % 256,
   ((max_packet_size >>> 8) &&& 255) % 256,
   ((max_packet_size >>> 0) &&& 255) % 256,
   (payload_type &&& 127) % 256,
   ((mask >>> 16) &&& 255) % 256,
   ((mask >>> 8) &&& 255) % 256,
   ((mask >>> 0) &&& 255) % 256,
   ((timestamp >>> 24) &&& 255) % 256,
   ((timestamp >>> 16) &&& 255) % 256,
   ((timestamp >>> 8) &&& 255) % 256,
   ((timestamp >>> 0) &&& 255) % 256,
   i % 256]

/-- The repair packet that iteration `i` of the loop of `fec_enc_calculate_fec_packets`
allocates, stamps and queues, together with the repair symbol that the second loop
has the engine write behind the FEC header. The first five numbers are the fields
`num_media_packets`, `num_fec_packets`, `max_packet_size`, `payload_type` and
`current_fec_seqnum` of the encoder at that iteration. `gst_rtp_buffer_set_seq` takes
a `guint16`; `gst_rtp_buffer_set_payload_type` takes a `guint8` and stores it only
when it is below `0x80`. The buffer is taken to have the `12 + 1 + max_packet_size`
payload bytes that were asked for. -/
def fec_enc_new_fec_packet (c : Codec)
    (num_media_packets num_fec_packets max_packet_size payload_type current_fec_seqnum : Nat)
    (ssrc timestamp snbase mask : Nat) (src : List (List Nat)) (i : Nat) : GstBuffer :=
  { seq := current_fec_seqnum % 65536
    ssrc := ssrc
    timestamp := timestamp
    payload_type := if payload_type % 256 < 128 then payload_type % 256 else 0
    header_len := 12
    data :=
      rtp_header ssrc (current_fec_seqnum % 65536) timestamp
          (if payload_type % 256 < 128 then payload_type % 256 else 0) ++
        fec_header snbase max_packet_size payload_type mask timestamp i ++
        of_build_repair_symbol c num_media_packets num_fec_packets max_packet_size src i }

/-- The loop `for (i = 0; i < enc->num_fec_packets; ++i)` that creates the repair
packets: `n` iterations are left and the loop variable is `i`. -/
def fec_enc_fec_loop (c : Codec) (ssrc timestamp snbase mask : Nat) (src : List (List Nat)) :
    Nat → Nat → fec_enc → fec_enc
  | 0, _, enc => enc
  | n + 1, i, enc =>
    fec_enc_fec_loop c ssrc timestamp snbase mask src n (i + 1)
      { enc with
        current_fec_seqnum := u32 (enc.current_fec_seqnum + 1)
        fec_packets :=
          enc.fec_packets ++
            [fec_enc_new_fec_packet c enc.num_media_packets enc.num_fec_packets
              enc.max_packet_size enc.payload_type enc.current_fec_seqnum
              ssrc timestamp snbase mask src i] }

/-- The function `fec_enc_calculate_fec_packets`. -/
def fec_enc_calculate_fec_packets (c : Codec) (enc : fec_enc) : Option fec_enc :=
  if enc.num_media_packets = enc.cur_num_media_packets then
    let mask := u32 (shl1 enc.num_media_packets - 1)
    match enc.media_packets with
    | [] => none
    | first_packet :: _ =>
      let ssrc := gst_rtp_buffer_get_ssrc first_packet
      let timestamp := gst_rtp_buffer_get_timestamp first_packet
      let snbase := gst_rtp_buffer_get_seq first_packet
      some (fec_enc_fec_loop c ssrc timestamp snbase mask
        (enc.media_packets.map GST_BUFFER_DATA) enc.num_fec_packets 0 enc)
  else none

/-- The function `fec_enc_push_media_packet`. -/
def fec_enc_push_media_packet (c : Codec) (enc : fec_enc) (packet : GstBuffer) :
    Option fec_enc :=
  if fec_enc_has_fec_packets enc then some enc
  else
    let enc1 : fec_enc :=
      if !fec_enc_is_media_packet_list_full enc then
        { enc with
          media_packets := enc.media_packets ++ [packet]
          max_packet_size := MAX enc.max_packet_size (GST_BUFFER_SIZE packet)
          cur_num_media_packets := u32 (enc.cur_num_media_packets + 1) }
      else enc
    if fec_enc_is_media_packet_list_full enc1 then
      match fec_enc_calculate_fec_packets c enc1 with
      | none => none
      | some enc2 =>
        some { enc2 with max_packet_size := 0, media_packets := [], cur_num_media_packets := 0 }
    else some enc1

/-! ## Auxiliary definitions for the statements -/

/-- Value of the counter `current_fec_seqnum` after `k` executions of
`enc->current_fec_seqnum++`. -/
def seq_after (cur : Nat) : Nat → Nat
  | 0 => cur
  | k + 1 => u32 (seq_after cur k + 1)

/-- The `n` repair packets that the creation loop appends to the repair queue when it
starts with loop variable `i` in an encoder whose fields `num_media_packets`,
`num_fec_packets`, `max_packet_size`, `payload_type` and `current_fec_seqnum` are
`nm`, `nf`, `len`, `pt` and `cur`. -/
def fec_enc_block_packets (c : Codec) (nm nf len pt cur : Nat)
    (ssrc timestamp snbase mask : Nat) (src : List (List Nat)) (i n : Nat) : List GstBuffer :=
  (List.range n).map (fun k =>
    fec_enc_new_fec_packet c nm nf len pt (seq_after cur k) ssrc timestamp snbase mask src
      (i + k))

/-- The buffer returned by call number `i` (counted from `0`) of
`fec_enc_pop_fec_packet` in a row. -/
def fec_enc_nth_pop (enc : fec_enc) (i : Nat) : Option GstBuffer :=
  (fec_enc_pop_fec_packet (Nat.iterate (fun e => (fec_enc_pop_fec_packet e).2) i enc)).1

/-- The FEC index byte `fec_data[12]` of a repair packet. -/
def fec_packet_index (packet : GstBuffer) : Nat := byte_at (fec_data_of packet) 12

/-- The public operations on an encoder. -/
inductive fec_enc_op where
  | push_media_packet (packet : GstBuffer)
  | pop_fec_packet
  | reset
  | set_num_media_packets (n : Nat)
  | set_num_fec_packets (n : Nat)
  | set_payload_type (pt : Nat)
deriving DecidableEq, Repr

/-- One public operation applied to an encoder. -/
def fec_enc_apply (c : Codec) (enc : fec_enc) : fec_enc_op → Option fec_enc
  | .push_media_packet packet => fec_enc_push_media_packet c enc packet
  | .pop_fec_packet => some (fec_enc_pop_fec_packet enc).2
  | .reset => some (fec_enc_reset enc)
  | .set_num_media_packets n => some (fec_enc_set_num_media_packets enc n)
  | .set_num_fec_packets n => some (fec_enc_set_num_fec_packets enc n)
  | .set_payload_type pt => some (fec_enc_set_payload_type enc pt)

/-- The repair packets that one operation creates, each paired with the first media
packet of its block, where `enc` is the encoder before the operation and `enc1` the
encoder after it. Only a push that is not rejected can create packets; it then finds
the repair queue empty, so the packets it creates are the whole queue afterwards, and
the first media packet of the block is the head of the media queue once the pushed
packet has been appended. -/
def fec_enc_created (enc : fec_enc) (op : fec_enc_op) (enc1 : fec_enc) :
    List (GstBuffer × GstBuffer) :=
  match op with
  | .push_media_packet packet =>
    if fec_enc_has_fec_packets enc then []
    else
      match (if !fec_enc_is_media_packet_list_full enc then enc.media_packets ++ [packet]
             else enc.media_packets).head? with
      | none => []
      | some first_packet => enc1.fec_packets.map (fun q => (q, first_packet))
  | _ => []

/-- All repair packets created while a list of operations runs on an encoder, in the
order of creation, each paired with the first media packet of its block. The run
ends at the first operation that does not return. -/
def fec_enc_trace (c : Codec) : fec_enc → List fec_enc_op → List (GstBuffer × GstBuffer)
  | _, [] => []
  | enc, op :: ops =>
    match fec_enc_apply c enc op with
    | none => []
    | some enc1 => fec_enc_created enc op enc1 ++ fec_enc_trace c enc1 ops

/-- The public operations on a decoder. -/
inductive fec_dec_op where
  | push_media_packet (packet : GstBuffer)
  | push_fec_packet (packet : GstBuffer)
  | pop_recovered_packet
  | flush_recovered_packets
  | reset
  | set_num_media_packets (n : Nat)
  | set_num_fec_packets (n : Nat)
deriving DecidableEq, Repr

/-- One public operation applied to a decoder. -/
def fec_dec_apply (c : Codec) (dec : fec_dec) : fec_dec_op → Option fec_dec
  | .push_media_packet packet => fec_dec_push_media_packet c dec packet
  | .push_fec_packet packet => fec_dec_push_fec_packet c dec packet
  | .pop_recovered_packet => some (fec_dec_pop_recovered_packet dec).2
  | .flush_recovered_packets => some (fec_dec_flush_recovered_packets dec)
  | .reset => some (fec_dec_reset dec)
  | .set_num_media_packets n => some (fec_dec_set_num_media_packets dec n)
  | .set_num_fec_packets n => some (fec_dec_set_num_fec_packets dec n)

/-- A list of public operations applied to a decoder, one after the other. -/
def fec_dec_run (c : Codec) (dec : fec_dec) (ops : List fec_dec_op) : Option fec_dec :=
  ops.foldlM (fec_dec_apply c) dec

/-- The test of the loop of `fec_dec_push_fec_packet` that keeps a media packet: its
corrected sequence number is neither below `snbase` nor above
`snbase + num_media_packets - 1`. -/
def fec_dec_in_window (dec : fec_dec) (snbase : Nat) (media_packet : GstBuffer) : Bool :=
  !(decide (fec_dec_correct_seqnum dec (gst_rtp_buffer_get_seq media_packet) < snbase) ||
    decide (fec_dec_correct_seqnum dec (gst_rtp_buffer_get_seq media_packet)
      > u32_sub (u32 (snbase + dec.num_media_packets)) 1))

/-- The index `corrected_seqnum - dec->cur_snbase` of a media packet, as the reception
bitmask and the symbol table use it. -/
def fec_dec_position (dec : fec_dec) (media_packet : GstBuffer) : Nat :=
  u32_sub (fec_dec_correct_seqnum dec (gst_rtp_buffer_get_seq media_packet)) dec.cur_snbase

/-- A fresh decoder after the media packets `ms` have been queued without a window. -/
def fec_dec_with_media (N K : Nat) (ms : List GstBuffer) : fec_dec :=
  { fec_dec_create N K with
    media_packets := ms
    media_packet_set := ms.map gst_rtp_buffer_get_seq
    num_received_media_packets := ms.length }

/-- The symbol table of a block of `N` source symbols `src` of which symbol `j` is
missing, with repair symbol `0` the only repair symbol there: entry `i < N` is source
symbol `i`, entry `N` is the repair symbol that `of_build_repair_symbol` writes for
index `0`, all other entries are `NULL`. -/
def single_loss_table (c : Codec) (N K len : Nat) (src : List (List Nat)) (j : Nat) :
    List (Option (List Nat)) :=
  (List.range (N + K)).map (fun i =>
    if i < N then (if i = j then none else src[i]?)
    else if i = N then some (of_build_repair_symbol c N K len src 0) else none)

/-- The single loss scenario: the block `pre ++ dropped :: post` is encoded by a fresh
encoder, then the packets `pre ++ post` and the repair packets, in creation order, are
pushed into a fresh decoder. The result is the recovered queue at the end, `none` if
a push does not return. -/
def single_loss_scenario (c : Codec) (N K pt off : Nat) (pre post : List GstBuffer)
    (dropped : GstBuffer) : Option (List (List Nat)) :=
  match (pre ++ dropped :: post).foldlM (fec_enc_push_media_packet c)
      (fec_enc_create N K pt off) with
  | none => none
  | some enc =>
    match fec_dec_run c (fec_dec_create N K)
        ((pre ++ post).map fec_dec_op.push_media_packet
          ++ enc.fec_packets.map fec_dec_op.push_fec_packet) with
    | none => none
    | some dec => some dec.recovered_packets

/-! ## A concrete engine -/

/-- Bytewise exclusive or of two symbols. -/
def xor_sym (a b : List Nat) : List Nat := List.zipWith (fun x y => x ^^^ y) a b

/-- A concrete erasure coding engine, used to run the scenarios: a single parity
code. Every repair symbol is the exclusive or of the `k` source symbols; decoding
rebuilds a source symbol when exactly one is missing and a repair symbol is there. -/
def xor_codec : Codec where
  encode := fun _ _ len src _ =>
    src.foldl (fun acc s => xor_sym acc (s.take len)) (List.replicate len 0)
  decode := fun k _ len tab =>
    if (tab.take k).count none = 1 then
      match (tab.drop k).filterMap id with
      | [] => []
      | rsym :: _ =>
        [((tab.take k).filterMap id).foldl (fun acc s => xor_sym acc (s.take len))
          (rsym.take len)]
    else []

/-! ## Scenarios -/

/-- A media packet for the scenarios: sequence number `seq`, payload bytes `body`
behind a twelve byte RTP header. -/
def media_packet (seq : Nat) (body : List Nat) : GstBuffer :=
  { seq := seq, ssrc := 5, timestamp := 90000, payload_type := 96, header_len := 12,
    data := rtp_header 5 seq 90000 96 ++ body }

/-- A repair packet for the scenarios, laid out as the encoder does for blocks of four
media packets of fourteen bytes: RTP sequence number `seq`, SN base `snbase`, FEC
index `i`, and a repair symbol of fourteen zero bytes. -/
def repair_packet (seq snbase i : Nat) : GstBuffer :=
  fec_enc_new_fec_packet xor_codec 4 2 14 99 seq 5 90000 snbase 15 [] i

/-- The decoder window of the wraparound scenario: `N = 4`, `snbase = 65534`. -/
def wrap_window : fec_dec := { fec_dec_create 4 3 with cur_snbase := 65534, has_snbase := true }

/-- The media packets of the wraparound block `65534, 65535, 0, 1`, out of order. -/
def wrap_block : List GstBuffer :=
  [media_packet 0 [3, 3], media_packet 65535 [2, 2], media_packet 1 [4, 4],
   media_packet 65534 [1, 1]]

/-- Two repair packets with SN base `65534`. -/
def wrap_repair : List GstBuffer := [repair_packet 100 65534 0, repair_packet 101 65534 1]

/-- An encoder with repair packets still in its queue. -/
def busy_encoder : fec_enc :=
  { fec_enc_create 2 1 99 7 with
    fec_packets := [{ seq := 7, ssrc := 1, timestamp := 2, payload_type := 99, header_len := 12,
                      data := [] }] }

/-- An encoder whose accumulator holds a whole block of two packets, at the moment
`fec_enc_calculate_fec_packets` is entered. -/
def full_encoder : fec_enc :=
  { fec_enc_create 2 3 99 7 with
    media_packets := [media_packet 1000 [1, 2], media_packet 1001 [3, 4]]
    max_packet_size := 14
    cur_num_media_packets := 2 }

/-- A run of an encoder with `N = 2`, `K = 3`: two blocks, with a drain, a reset and
two changes of the packet counts in between. -/
def two_block_ops : List fec_enc_op :=
  [.push_media_packet (media_packet 1000 [1, 2]),
   .push_media_packet (media_packet 1001 [3, 4]),
   .pop_fec_packet, .pop_fec_packet, .pop_fec_packet,
   .push_media_packet (media_packet 1002 [5, 6]),
   .reset, .set_num_fec_packets 2, .set_num_media_packets 2,
   .push_media_packet (media_packet 2000 [7, 8]),
   .push_media_packet (media_packet 2001 [9, 10])]

/-- The decoder with `N = 4` after the repair packet with SN base `10` has opened the
window `[10, 14)`. -/
def open_window : fec_dec :=
  { fec_dec_create 4 2 with
    cur_snbase := 10
    has_snbase := true
    fec_packets := [repair_packet 100 10 0]
    fec_packet_set := [100]
    num_received_fec_packets := 1 }

/-- The decoder with `N = 4` after the media packets `1, 2, 3, 4, 5` and then a repair
packet with SN base `5`: the push of `5` has evicted packet `1` and removed the key
`5`, the repair packet has opened the window `[5, 9)` and evicted `2, 3, 4`. -/
def evicted_window : fec_dec :=
  { fec_dec_create 4 2 with
    cur_snbase := 5
    has_snbase := true
    max_packet_size := 14
    media_packets := [media_packet 5 [1, 1]]
    media_packet_set := [1]
    fec_packets := [repair_packet 100 5 0]
    fec_packet_set := [100]
    received_media_packet_mask := 1
    num_received_media_packets := 1
    num_received_fec_packets := 1 }

/-- The first eight media packets of the block `1000 .. 1008`. -/
def block_1000 : List GstBuffer :=
  (List.range 8).map (fun i => media_packet (1000 + i) [i, 7])

/-- The last media packet of the block `1000 .. 1008`. -/
def packet_1008 : GstBuffer := media_packet 1008 [8, 7]

/-! ## Auxiliary definitions for the decoder contract -/

/-- The decoder in `fec_dec_push_fec_packet` once the packet `packet`, which has passed
the blacklist test and the duplicate test, is queued and the window is set, at the
entry of the loop over the media packets. -/
def fec_dec_fec_before_rescan (dec : fec_dec) (packet : GstBuffer) : fec_dec :=
  let snbase := fec_packet_snbase packet
  let seqnum := gst_rtp_buffer_get_seq packet
  let dec1 : fec_dec :=
    if dec.cur_snbase ≠ snbase then
      { dec with fec_packets := [], fec_packet_set := [], num_received_fec_packets := 0 }
    else dec
  { dec1 with
    cur_snbase := snbase
    has_snbase := true
    received_media_packet_mask := 0
    num_received_media_packets := 0
    max_packet_size := 0
    fec_packets := dec1.fec_packets ++ [packet]
    fec_packet_set := custom_hash_table_add dec1.fec_packet_set seqnum
    num_received_fec_packets := u32 (dec1.num_received_fec_packets + 1) }

/-- The decoder in `fec_dec_push_fec_packet` at the call of `fec_dec_check_state`, for a
packet that has passed the blacklist test and the duplicate test. -/
def fec_dec_fec_before_check (dec : fec_dec) (packet : GstBuffer) : fec_dec :=
  fec_dec_rescan (fec_packet_snbase packet) (fec_dec_fec_before_rescan dec packet).media_packets 0
    (fec_dec_fec_before_rescan dec packet)

/-- The decoder in `fec_dec_push_media_packet` at the call of `fec_dec_check_state`, for
a packet that is not a duplicate and lies in the window. -/
def fec_dec_media_before_check (dec : fec_dec) (packet : GstBuffer) : fec_dec :=
  let corrected_seqnum := fec_dec_correct_seqnum dec (gst_rtp_buffer_get_seq packet)
  let dec1 := fec_dec_buffer_media dec packet
  { dec1 with
    received_media_packet_mask :=
      u32 (dec1.received_media_packet_mask ||| shl1 (u32_sub corrected_seqnum dec1.cur_snbase))
    max_packet_size := MAX dec1.max_packet_size (GST_BUFFER_SIZE packet) }

/-- The test of `fec_dec_push_media_packet` that sends a packet to
`fec_dec_check_state`: a window is there, and the corrected sequence number is neither
behind the window, nor before it, nor after it. -/
def fec_dec_media_checked (dec : fec_dec) (packet : GstBuffer) : Bool :=
  let corrected_seqnum := fec_dec_correct_seqnum dec (gst_rtp_buffer_get_seq packet)
  dec.has_snbase &&
    !decide (u32_sub corrected_seqnum dec.cur_snbase ≥ dec.num_media_packets) &&
    decide (corrected_seqnum ≥ u32 dec.cur_snbase) &&
    decide (corrected_seqnum ≤ u32_sub (u32 dec.cur_snbase + u32 dec.num_media_packets) 1)

/-- The state that `fec_dec_cleanup` leaves for the window `snbase`: no window, `snbase`
on the blacklist, both queues and both key sets empty, mask, counts and maximum size
zero. -/
def fec_dec_resolved (dec : fec_dec) (snbase : Nat) : Prop :=
  dec.has_snbase = false ∧ dec.blacklisted_snbase = snbase ∧
  dec.fec_packets = [] ∧ dec.media_packets = [] ∧
  dec.fec_packet_set = [] ∧ dec.media_packet_set = [] ∧
  dec.received_media_packet_mask = 0 ∧ dec.num_received_media_packets = 0 ∧
  dec.num_received_fec_packets = 0 ∧ dec.max_packet_size = 0

/-- The decoder at the call of `fec_dec_check_state` in a public operation, `none` when
the operation returns without that call. -/
def fec_dec_checked_state (dec : fec_dec) : fec_dec_op → Option fec_dec
  | .push_media_packet packet =>
    if gst_rtp_buffer_get_seq packet ∉ dec.media_packet_set ∧
        fec_dec_media_checked dec packet = true then
      some (fec_dec_media_before_check dec packet)
    else none
  | .push_fec_packet packet =>
    if fec_packet_snbase packet ≠ dec.blacklisted_snbase ∧
        gst_rtp_buffer_get_seq packet ∉ dec.fec_packet_set then
      some (fec_dec_fec_before_check dec packet)
    else none
  | _ => none

/-- The corrected sequence number of a media packet for the window that starts at
`snbase`. -/
def fec_dec_corrected_in (dec : fec_dec) (snbase : Nat) (media_packet : GstBuffer) : Nat :=
  fec_dec_correct_seqnum { dec with cur_snbase := snbase } (gst_rtp_buffer_get_seq media_packet)

/-- A decoder whose window `[10, 14)` has been resolved, with one recovered packet not
yet popped and one media packet of the next block queued. -/
def resolved_window : fec_dec :=
  { fec_dec_create 4 2 with
    cur_snbase := 10
    blacklisted_snbase := 10
    media_packets := [media_packet 14 [1, 1]]
    media_packet_set := [14]
    num_received_media_packets := 1
    recovered_packets := [[1, 2]] }

/-- The media packets of the queue whose corrected sequence number lies in
`[snbase, snbase + N)`, in queue order: the re-scan in the words of the specification. -/
def fec_dec_window_survivors (dec : fec_dec) (snbase : Nat) : List GstBuffer :=
  dec.media_packets.filter (fun mp =>
    decide (snbase ≤ fec_dec_corrected_in dec snbase mp ∧
      fec_dec_corrected_in dec snbase mp < snbase + dec.num_media_packets))

/-- The bitwise or of the bits `1 << (corrected - snbase)` of the packets `l`. -/
def fec_dec_window_bits (dec : fec_dec) (snbase : Nat) (l : List GstBuffer) : Nat :=
  l.foldl (fun m mp => m ||| 1 <<< (fec_dec_corrected_in dec snbase mp - snbase)) 0

/-- A decoder with `N = 33` that has queued the media packet `42` without a window. -/
def wide_window : fec_dec := fec_dec_with_media 33 2 [media_packet 42 [1, 1]]

/-- A decoder with `N = 4` that has queued the media packets `9, 10, 12, 14` without a
window, of sixteen, fourteen, thirteen and twelve bytes. -/
def unbound_queue : fec_dec :=
  fec_dec_with_media 4 2
    [media_packet 9 [1, 1, 1, 1], media_packet 10 [2, 2], media_packet 12 [3],
     media_packet 14 []]

/-- The window `[10, 14)` with one repair packet and the media packets `10` and `11`. -/
def partial_window : fec_dec :=
  { open_window with
    max_packet_size := 14
    media_packets := [media_packet 10 [1, 1], media_packet 11 [2, 2]]
    media_packet_set := [10, 11]
    received_media_packet_mask := 3
    num_received_media_packets := 2 }

/-- The invariant of the decoder states between two public operations, apart from the
bound on the count of an open window. The count is the length of the media queue and at
most `N`; the media key set holds sixteen bit keys, each once, and at least as many as
the media queue holds packets; the repair count is the length of the repair queue,
whose key set holds the sequence numbers of the queue, each once; the snbase fits
sixteen bits; and while a window is bound, for `1 ≤ N ≤ 32`,
every queued media packet has its corrected sequence number in the window and the mask
has bit `i` set exactly when a queued packet has the corrected sequence number
`snbase + i`. -/
structure fec_dec_inv (dec : fec_dec) : Prop where
  count_eq : dec.num_received_media_packets = dec.media_packets.length
  count_le : dec.num_received_media_packets ≤ dec.num_media_packets
  keys_nodup : dec.media_packet_set.Nodup
  keys_lt : ∀ k ∈ dec.media_packet_set, k < 65536
  keys_len : dec.media_packets.length ≤ dec.media_packet_set.length
  fec_count : dec.num_received_fec_packets = dec.fec_packets.length
  fec_keys : dec.fec_packet_set = dec.fec_packets.map gst_rtp_buffer_get_seq
  fec_nodup : dec.fec_packet_set.Nodup
  snbase_lt : dec.cur_snbase < 65536
  in_window : dec.has_snbase = true → 1 ≤ dec.num_media_packets →
    dec.num_media_packets ≤ 32 → ∀ mp ∈ dec.media_packets,
      dec.cur_snbase ≤ fec_dec_correct_seqnum dec (gst_rtp_buffer_get_seq mp) ∧
      fec_dec_correct_seqnum dec (gst_rtp_buffer_get_seq mp)
        < dec.cur_snbase + dec.num_media_packets
  mask_bits : dec.has_snbase = true → 1 ≤ dec.num_media_packets →
    dec.num_media_packets ≤ 32 → ∀ i,
      dec.received_media_packet_mask.testBit i = true ↔
        ∃ mp ∈ dec.media_packets,
          fec_dec_correct_seqnum dec (gst_rtp_buffer_get_seq mp) = dec.cur_snbase + i

/-- The bound on the count of an open window: while a window is bound and `N ≥ 1`,
fewer than `N` media packets are queued. -/
def fec_dec_open_inv (dec : fec_dec) : Prop :=
  dec.has_snbase = true → 1 ≤ dec.num_media_packets →
    dec.num_received_media_packets < dec.num_media_packets

/-- Three media packets and then the third once more, for a decoder with `N = 2`. -/
def repeated_push_ops : List fec_dec_op :=
  [.push_media_packet (media_packet 1 [1, 1]), .push_media_packet (media_packet 2 [2, 2]),
   .push_media_packet (media_packet 3 [3, 3]), .push_media_packet (media_packet 3 [3, 3])]

/-- A repair packet with SN base `10`, then the media packets `10` and `12`, for a
decoder with `N = 4`. -/
def open_then_media_ops : List fec_dec_op :=
  [.push_fec_packet (repair_packet 100 10 0), .push_media_packet (media_packet 10 [1, 1]),
   .push_media_packet (media_packet 12 [3, 3])]

/-- The window `[10, 14)` with one repair packet and the media packets `10` and `12`. -/
def two_of_four : fec_dec :=
  { open_window with
    max_packet_size := 14
    media_packets := [media_packet 10 [1, 1], media_packet 12 [3, 3]]
    media_packet_set := [10, 12]
    received_media_packet_mask := 5
    num_received_media_packets := 2 }

/-! ## Auxiliary definitions for the invariants and the branches of the pushes -/

/-- The relation between the bound flag and the blacklist: a window is bound exactly
when the current snbase differs from the blacklisted snbase. -/
def fec_dec_bound_inv (dec : fec_dec) : Prop :=
  dec.has_snbase = true ↔ dec.cur_snbase ≠ dec.blacklisted_snbase

/-- The running maximum of an open window: while a window is bound, `max_packet_size`
is the result of the macro `MAX` folded over the sizes of the queued media packets,
starting at `0`. -/
def fec_dec_max_inv (dec : fec_dec) : Prop :=
  dec.has_snbase = true →
    dec.max_packet_size
      = dec.media_packets.foldl (fun m mp => MAX m (GST_BUFFER_SIZE mp)) 0

/-- The decoder after the lines of `fec_dec_push_media_packet` that give up the window:
`has_snbase = FALSE`, the current snbase on the blacklist, the repair queue and its key
set cleared, the repair count zero. -/
def fec_dec_abandon_window (dec : fec_dec) : fec_dec :=
  { dec with
    has_snbase := false
    blacklisted_snbase := dec.cur_snbase
    fec_packets := []
    fec_packet_set := []
    num_received_fec_packets := 0 }

/-- The test that leads `fec_dec_push_media_packet` into its last `else` branch, which
only writes a debug message: a window is bound, the distance test fails and the bounds
test fails. -/
def fec_dec_media_dropped (dec : fec_dec) (packet : GstBuffer) : Bool :=
  let corrected_seqnum := fec_dec_correct_seqnum dec (gst_rtp_buffer_get_seq packet)
  dec.has_snbase &&
    !decide (u32_sub corrected_seqnum dec.cur_snbase ≥ dec.num_media_packets) &&
    !(decide (corrected_seqnum ≥ u32 dec.cur_snbase) &&
      decide (corrected_seqnum ≤ u32_sub (u32 dec.cur_snbase + u32 dec.num_media_packets) 1))

/-- The table `encoding_symbol_tab` of `fec_dec_recover_packets` after its two loops,
`none` if a store falls outside the table. -/
def fec_dec_symbol_table (dec : fec_dec) : Option (List (Option (List Nat))) :=
  match fec_dec_tab_media dec dec.media_packets
      (List.replicate (u32 (dec.num_media_packets + dec.num_fec_packets)) none) with
  | none => none
  | some tab1 => fec_dec_tab_fec dec dec.fec_packets tab1

/-- A list of public operations applied to an encoder, one after the other. -/
def fec_enc_run (c : Codec) (enc : fec_enc) (ops : List fec_enc_op) : Option fec_enc :=
  ops.foldlM (fec_enc_apply c) enc

/-- The encoder at the call of `fec_enc_calculate_fec_packets` in
`fec_enc_push_media_packet`, `none` when the push returns without that call. -/
def fec_enc_calculate_entry (enc : fec_enc) (packet : GstBuffer) : Option fec_enc :=
  if fec_enc_has_fec_packets enc then none
  else
    let enc1 : fec_enc :=
      if !fec_enc_is_media_packet_list_full enc then
        { enc with
          media_packets := enc.media_packets ++ [packet]
          max_packet_size := MAX enc.max_packet_size (GST_BUFFER_SIZE packet)
          cur_num_media_packets := u32 (enc.cur_num_media_packets + 1) }
      else enc
    if fec_enc_is_media_packet_list_full enc1 then some enc1 else none

/-- A repair packet whose payload has two bytes, the SN base `10`, in place of the
thirteen bytes of the FEC header and the repair symbol. -/
def short_repair_packet : GstBuffer :=
  { seq := 101, ssrc := 5, timestamp := 90000, payload_type := 99, header_len := 12,
    data := rtp_header 5 101 90000 99 ++ [0, 10] }

/-- A repair packet with FEC index `7`, then the media packets `10, 11, 12`, for a
decoder with `N = 4` and `K = 2`. -/
def bad_index_ops : List fec_dec_op :=
  [.push_fec_packet (repair_packet 100 10 7), .push_media_packet (media_packet 10 [1, 1]),
   .push_media_packet (media_packet 11 [2, 2]), .push_media_packet (media_packet 12 [3, 3])]

/-- A block of two media packets for an encoder with `N = 2`, with a change of the
payload type to `100` between the two. -/
def payload_type_ops : List fec_enc_op :=
  [.push_media_packet (media_packet 1000 [1, 2]), .set_payload_type 100,
   .push_media_packet (media_packet 1001 [3, 4])]

/-- A list of stores `encoding_symbol_tab[i] = v`, one after the other; `none` if one
of them falls outside the table. -/
def tab_store_all :
    List (Nat × List Nat) → List (Option (List Nat)) → Option (List (Option (List Nat)))
  | [], tab => some tab
  | (i, v) :: rest, tab =>
    match tab_store tab i v with
    | none => none
    | some tab1 => tab_store_all rest tab1

/-- A repair packet with SN base `10`, then the media packets `10` and `11`, for a
decoder with `N = 4`. -/
def open_then_two_ops : List fec_dec_op :=
  [.push_fec_packet (repair_packet 100 10 0), .push_media_packet (media_packet 10 [1, 1]),
   .push_media_packet (media_packet 11 [2, 2])]

/-- The media packets `100, 1, 2, 3, 4` and then a repair packet with SN base `3`, for a
decoder with `N = 4`. -/
def stale_key_ops : List fec_dec_op :=
  [.push_media_packet (media_packet 100 [9, 9]), .push_media_packet (media_packet 1 [1, 1]),
   .push_media_packet (media_packet 2 [2, 2]), .push_media_packet (media_packet 3 [3, 3]),
   .push_media_packet (media_packet 4 [4, 4]), .push_fec_packet (repair_packet 101 3 0)]

/-- The decoder after `stale_key_ops`: the push of `4` has evicted packet `100` and
removed the key `4`, the repair packet has opened the window `[3, 7)` and evicted the
packets `1` and `2` with their keys. The queue holds `3` and `4`, the key set `100`
and `3`. -/
def stale_key_window : fec_dec :=
  { fec_dec_create 4 2 with
    cur_snbase := 3
    has_snbase := true
    max_packet_size := 14
    media_packets := [media_packet 3 [3, 3], media_packet 4 [4, 4]]
    media_packet_set := [100, 3]
    fec_packets := [repair_packet 101 3 0]
    fec_packet_set := [101]
    received_media_packet_mask := 3
    num_received_media_packets := 2
    num_received_fec_packets := 1 }

/-- The media packets `5, 1, 2, 3, 4` and then a repair packet with SN base `3`, for a
decoder with `N = 4`. -/
def stale_inside_ops : List fec_dec_op :=
  [.push_media_packet (media_packet 5 [9, 9]), .push_media_packet (media_packet 1 [1, 1]),
   .push_media_packet (media_packet 2 [2, 2]), .push_media_packet (media_packet 3 [3, 3]),
   .push_media_packet (media_packet 4 [4, 4]), .push_fec_packet (repair_packet 101 3 0)]

/-- The decoder after `stale_inside_ops`: the window `[3, 7)` is open, the queue holds
the packets `3` and `4`, the key set holds `5` and `3`. -/
def stale_inside_window : fec_dec :=
  { stale_key_window with media_packet_set := [5, 3] }

/-! # Theorems -/

/-! ## Sequence number correction -/

/-- C5. For a window of `N` positions (`1 ≤ N ≤ 65536`) based at `snbase < 65536`, the
corrected value of a raw sequence number `s < 65536` lies in `[snbase, snbase + N)`
exactly when `(s - snbase) mod 65536 < N`, and then its window position
`corrected - snbase` is `(s - snbase) mod 65536`. -/
theorem correct_seqnum_window_position (dec : fec_dec) (N snbase s : Nat)
    (hN1 : 1 ≤ N) (hN2 : N ≤ 65536) (hb : snbase < 65536) (hs : s < 65536)
    (hdN : dec.num_media_packets = N) (hdb : dec.cur_snbase = snbase) :
    ((snbase ≤ fec_dec_correct_seqnum dec s ∧ fec_dec_correct_seqnum dec s < snbase + N) ↔
        ((s : Int) - (snbase : Int)) % 65536 < (N : Int)) ∧
      ((snbase ≤ fec_dec_correct_seqnum dec s ∧ fec_dec_correct_seqnum dec s < snbase + N) →
        ((fec_dec_correct_seqnum dec s : Int) - (snbase : Int)
          = ((s : Int) - (snbase : Int)) % 65536)) := by
  unfold fec_dec_correct_seqnum u32
  simp only [hdN, hdb]
  split_ifs <;> omega

/-- C5, witness: with `N = 4` and `snbase = 65534` the raw sequence numbers
`65534, 65535, 0, 1` take the window positions `0, 1, 2, 3`. -/
theorem correct_seqnum_window_position_witness :
    (((65534 ≤ fec_dec_correct_seqnum wrap_window 1 ∧
          fec_dec_correct_seqnum wrap_window 1 < 65534 + 4) ↔
        (((1 : Nat) : Int) - ((65534 : Nat) : Int)) % 65536 < ((4 : Nat) : Int)) ∧
      ((65534 ≤ fec_dec_correct_seqnum wrap_window 1 ∧
          fec_dec_correct_seqnum wrap_window 1 < 65534 + 4) →
        ((fec_dec_correct_seqnum wrap_window 1 : Int) - ((65534 : Nat) : Int)
          = (((1 : Nat) : Int) - ((65534 : Nat) : Int)) % 65536))) ∧
    fec_dec_correct_seqnum wrap_window 65534 - 65534 = 0 ∧
    fec_dec_correct_seqnum wrap_window 65535 - 65534 = 1 ∧
    fec_dec_correct_seqnum wrap_window 0 - 65534 = 2 ∧
    fec_dec_correct_seqnum wrap_window 1 - 65534 = 3 :=
  ⟨correct_seqnum_window_position wrap_window 4 65534 1 (by decide) (by decide) (by decide)
      (by decide) rfl rfl,
    by decide, by decide, by decide, by decide⟩

/-! ## Encoder -/

theorem seq_after_mod (cur k : Nat) : seq_after cur k % 65536 = (cur + k) % 65536 := by
  induction k with
  | zero => simp [seq_after]
  | succ k ih =>
    simp only [seq_after, u32]
    omega

theorem seq_after_add (cur k : Nat) : seq_after (u32 (cur + 1)) k = seq_after cur (k + 1) := by
  induction k with
  | zero => simp [seq_after]
  | succ k ih => simp only [seq_after] at ih ⊢; rw [ih]

theorem fec_enc_fec_loop_eq (c : Codec) (ssrc timestamp snbase mask : Nat)
    (src : List (List Nat)) (n i : Nat) (enc : fec_enc) :
    fec_enc_fec_loop c ssrc timestamp snbase mask src n i enc =
      { enc with
        current_fec_seqnum := seq_after enc.current_fec_seqnum n
        fec_packets := enc.fec_packets ++
          fec_enc_block_packets c enc.num_media_packets enc.num_fec_packets
            enc.max_packet_size enc.payload_type enc.current_fec_seqnum
            ssrc timestamp snbase mask src i n } := by
  induction n generalizing i enc with
  | zero => simp [fec_enc_fec_loop, fec_enc_block_packets, seq_after]
  | succ n ih =>
    rw [fec_enc_fec_loop, ih]
    simp only [fec_enc_block_packets, List.range_succ_eq_map, List.map_cons, List.map_map,
      seq_after_add, List.append_assoc, List.singleton_append]
    congr 3
    apply List.map_congr_left
    intro k _
    simp only [Function.comp, seq_after, Nat.succ_eq_add_one]
    congr 1
    omega

theorem fec_enc_block_packets_length (c : Codec) (nm nf len pt cur : Nat)
    (ssrc timestamp snbase mask : Nat) (src : List (List Nat)) (i n : Nat) :
    (fec_enc_block_packets c nm nf len pt cur ssrc timestamp snbase mask src i n).length = n := by
  simp [fec_enc_block_packets]

theorem fec_enc_block_packets_get (c : Codec) (nm nf len pt cur : Nat)
    (ssrc timestamp snbase mask : Nat) (src : List (List Nat)) (i n k : Nat) (hk : k < n) :
    (fec_enc_block_packets c nm nf len pt cur ssrc timestamp snbase mask src i n)[k]? =
      some (fec_enc_new_fec_packet c nm nf len pt (seq_after cur k)
        ssrc timestamp snbase mask src (i + k)) := by
  simp [fec_enc_block_packets, List.getElem?_map, List.getElem?_range hk]

theorem fec_enc_push_accumulate (c : Codec) (ps : List GstBuffer) (enc : fec_enc)
    (hq : enc.fec_packets = []) (hN32 : enc.num_media_packets < 4294967296)
    (h : enc.cur_num_media_packets + ps.length < enc.num_media_packets) :
    ps.foldlM (fec_enc_push_media_packet c) enc =
      some { enc with
        media_packets := enc.media_packets ++ ps
        max_packet_size := ps.foldl (fun m p => MAX m (GST_BUFFER_SIZE p)) enc.max_packet_size
        cur_num_media_packets := enc.cur_num_media_packets + ps.length } := by
  induction ps generalizing enc with
  | nil => simp
  | cons p ps ih =>
    simp only [List.length_cons] at h
    have hstep : fec_enc_push_media_packet c enc p =
        some { enc with
          media_packets := enc.media_packets ++ [p]
          max_packet_size := MAX enc.max_packet_size (GST_BUFFER_SIZE p)
          cur_num_media_packets := enc.cur_num_media_packets + 1 } := by
      have h1 : ¬ (enc.num_media_packets ≤ enc.cur_num_media_packets) := by omega
      have h2 : (enc.cur_num_media_packets + 1) % 4294967296 = enc.cur_num_media_packets + 1 := by
        omega
      have h3 : ¬ (enc.num_media_packets ≤ enc.cur_num_media_packets + 1) := by omega
      simp [fec_enc_push_media_packet, fec_enc_has_fec_packets, hq,
        fec_enc_is_media_packet_list_full, h1, u32, h2, h3]
    rw [List.foldlM_cons, hstep]
    simp only [Option.bind_eq_bind, Option.some_bind]
    rw [ih]
    · simp [Nat.add_assoc, Nat.add_comm 1]
    · exact hq
    · exact hN32
    · show enc.cur_num_media_packets + 1 + ps.length < enc.num_media_packets
      omega

theorem and_255 (x : Nat) : x &&& 255 = x % 256 := by
  have h := Nat.and_pow_two_sub_one_eq_mod x 8
  simpa using h

theorem and_127 (x : Nat) : x &&& 127 = x % 128 := by
  have h := Nat.and_pow_two_sub_one_eq_mod x 7
  simpa using h

theorem shl8_or (a b : Nat) (hb : b < 256) : (a <<< 8) ||| b = a * 256 + b := by
  have h := Nat.mul_add_lt_is_or (i := 8) (b := b) (by simpa using hb) a
  rw [Nat.shiftLeft_eq]
  simp only [Nat.reducePow] at h ⊢
  rw [Nat.mul_comm a 256, ← h]

theorem rtp_header_length (a b c d : Nat) : (rtp_header a b c d).length = 12 := rfl

theorem fec_header_length (a b c d e f : Nat) : (fec_header a b c d e f).length = 13 := rfl

theorem of_build_repair_symbol_length (c : Codec) (k r len : Nat) (src : List (List Nat))
    (i : Nat) : (of_build_repair_symbol c k r len src i).length = len := by
  simp [of_build_repair_symbol]

theorem new_fec_packet_fec_data (c : Codec) (nm nf len pt cur ssrc ts snbase mask : Nat)
    (src : List (List Nat)) (i : Nat) :
    fec_data_of (fec_enc_new_fec_packet c nm nf len pt cur ssrc ts snbase mask src i) =
      fec_header snbase len pt mask ts i ++ of_build_repair_symbol c nm nf len src i := by
  simp [fec_data_of, fec_enc_new_fec_packet, GST_BUFFER_DATA, gst_rtp_buffer_get_header_len,
    rtp_header]

theorem new_fec_packet_index (c : Codec) (nm nf len pt cur ssrc ts snbase mask : Nat)
    (src : List (List Nat)) (i : Nat) :
    fec_packet_index (fec_enc_new_fec_packet c nm nf len pt cur ssrc ts snbase mask src i) =
      i % 256 := by
  rw [fec_packet_index, new_fec_packet_fec_data]
  simp [fec_header, byte_at]

theorem new_fec_packet_snbase (c : Codec) (nm nf len pt cur ssrc ts snbase mask : Nat)
    (src : List (List Nat)) (i : Nat) :
    fec_packet_snbase (fec_enc_new_fec_packet c nm nf len pt cur ssrc ts snbase mask src i) =
      snbase % 65536 := by
  rw [fec_packet_snbase, new_fec_packet_fec_data]
  simp only [fec_header, byte_at, List.cons_append, List.getD_cons_zero, List.getD_cons_succ,
    and_255, Nat.shiftRight_zero, Nat.shiftLeft_zero, Nat.mod_mod]
  rw [shl8_or _ _ (Nat.mod_lt _ (by decide)), Nat.shiftRight_eq_div_pow]
  omega

theorem new_fec_packet_seq (c : Codec) (nm nf len pt cur ssrc ts snbase mask : Nat)
    (src : List (List Nat)) (i : Nat) :
    gst_rtp_buffer_get_seq (fec_enc_new_fec_packet c nm nf len pt cur ssrc ts snbase mask src i) =
      cur % 65536 := by
  simp [gst_rtp_buffer_get_seq, fec_enc_new_fec_packet]

theorem fec_enc_nth_pop_eq (enc : fec_enc) (i : Nat) :
    fec_enc_nth_pop enc i = enc.fec_packets[i]? := by
  have h : ∀ (n : Nat) (e : fec_enc),
      (Nat.iterate (fun e => (fec_enc_pop_fec_packet e).2) n e).fec_packets
        = e.fec_packets.drop n := by
    intro n
    induction n with
    | zero => intro e; simp
    | succ n ih =>
      intro e
      rw [Function.iterate_succ, Function.comp, ih]
      simp [fec_enc_pop_fec_packet, List.drop_succ_cons, List.tail_drop]
  unfold fec_enc_nth_pop
  rw [fec_enc_pop_fec_packet, h]
  simp [List.head?_drop]

theorem fec_enc_push_completes (c : Codec) (enc : fec_enc) (p first : GstBuffer)
    (rest : List GstBuffer) (hq : enc.fec_packets = [])
    (hN32 : enc.num_media_packets < 4294967296)
    (hcur : enc.cur_num_media_packets + 1 = enc.num_media_packets)
    (hmp : enc.media_packets ++ [p] = first :: rest) :
    fec_enc_push_media_packet c enc p =
      some { enc with
        media_packets := []
        max_packet_size := 0
        cur_num_media_packets := 0
        current_fec_seqnum := seq_after enc.current_fec_seqnum enc.num_fec_packets
        fec_packets :=
          fec_enc_block_packets c enc.num_media_packets enc.num_fec_packets
            (MAX enc.max_packet_size (GST_BUFFER_SIZE p)) enc.payload_type
            enc.current_fec_seqnum (gst_rtp_buffer_get_ssrc first)
            (gst_rtp_buffer_get_timestamp first) (gst_rtp_buffer_get_seq first)
            (u32 (shl1 enc.num_media_packets - 1)) ((first :: rest).map GST_BUFFER_DATA) 0
            enc.num_fec_packets } := by
  have h1 : ¬ (enc.num_media_packets ≤ enc.cur_num_media_packets) := by omega
  have h2 : (enc.cur_num_media_packets + 1) % 4294967296 = enc.num_media_packets := by omega
  simp [fec_enc_push_media_packet, fec_enc_has_fec_packets, hq,
    fec_enc_is_media_packet_list_full, h1, u32, h2, fec_enc_calculate_fec_packets, hmp,
    fec_enc_fec_loop_eq]

/-- C8. Backpressure: while the repair queue is not empty `fec_enc_push_media_packet`
returns the encoder exactly as it was (accumulator, fill count, running maximum,
repair queue and repair sequence counter included). -/
theorem fec_enc_push_backpressure (c : Codec) (enc : fec_enc) (packet : GstBuffer)
    (h : enc.fec_packets ≠ []) :
    fec_enc_push_media_packet c enc packet = some enc := by
  unfold fec_enc_push_media_packet fec_enc_has_fec_packets
  cases hq : enc.fec_packets with
  | nil => exact absurd hq h
  | cons a l => simp

/-- C8, witness: a push into an encoder that still holds one repair packet. -/
theorem fec_enc_push_backpressure_witness :
    fec_enc_push_media_packet xor_codec busy_encoder (media_packet 1000 [1, 2, 3])
      = some busy_encoder :=
  fec_enc_push_backpressure xor_codec busy_encoder (media_packet 1000 [1, 2, 3]) (by decide)

/-- C7. An encoder with `N ≥ 1` media packets and `K ≤ 256` repair packets per block,
an empty accumulator and an empty repair queue, into which exactly `N` media packets
`first :: rest` are pushed: all pushes return, the repair queue then holds exactly `K`
packets, and pop number `i` (`i = 0 .. K-1`) returns a packet whose FEC index byte is
`i` and whose SN base field is the sequence number of `first`. -/
theorem fec_enc_block_repair_packets (c : Codec) (enc : fec_enc) (first : GstBuffer)
    (rest : List GstBuffer)
    (hN32 : enc.num_media_packets < 4294967296) (hK : enc.num_fec_packets ≤ 256)
    (hacc : enc.media_packets = []) (hcnt : enc.cur_num_media_packets = 0)
    (hq : enc.fec_packets = [])
    (hlen : (first :: rest).length = enc.num_media_packets) :
    1 ≤ enc.num_media_packets ∧
    ∃ enc', (first :: rest).foldlM (fec_enc_push_media_packet c) enc = some enc' ∧
      enc'.fec_packets.length = enc.num_fec_packets ∧
      ∀ i, i < enc.num_fec_packets →
        ∃ p, fec_enc_nth_pop enc' i = some p ∧ fec_packet_index p = i ∧
          fec_packet_snbase p = gst_rtp_buffer_get_seq first := by
  refine ⟨by simp only [List.length_cons] at hlen; omega, ?_⟩
  have hsplit : first :: rest = (first :: rest).dropLast ++
      [(first :: rest).getLast (List.cons_ne_nil _ _)] :=
    (List.dropLast_append_getLast (List.cons_ne_nil _ _)).symm
  generalize hinit : (first :: rest).dropLast = init at hsplit
  generalize hlast : (first :: rest).getLast (List.cons_ne_nil _ _) = last at hsplit
  have hilen : init.length + 1 = enc.num_media_packets := by
    rw [← hlen, hsplit]; simp
  rw [hsplit, List.foldlM_append,
    fec_enc_push_accumulate c init enc hq hN32 (by omega)]
  simp only [Option.bind_eq_bind, Option.some_bind, List.foldlM_cons, List.foldlM_nil]
  rw [fec_enc_push_completes c _ last first rest]
  · simp only [Option.some_bind, Option.pure_def]
    refine Exists.intro _ (And.intro rfl (And.intro ?_ ?_))
    · simp [fec_enc_block_packets_length]
    · intro i hi
      simp only [fec_enc_nth_pop_eq]
      rw [fec_enc_block_packets_get c _ _ _ _ _ _ _ _ _ _ 0 _ i hi]
      refine Exists.intro _ (And.intro rfl (And.intro ?_ ?_))
      · rw [new_fec_packet_index]; omega
      · rw [new_fec_packet_snbase]
        simp [gst_rtp_buffer_get_seq]
  · exact hq
  · exact hN32
  · show enc.cur_num_media_packets + init.length + 1 = enc.num_media_packets
    omega
  · show enc.media_packets ++ init ++ [last] = first :: rest
    rw [hacc, List.nil_append]; exact hsplit.symm

/-- C7, witness: two media packets pushed into a fresh encoder with `N = 2`, `K = 3`. -/
theorem fec_enc_block_repair_packets_witness :
    1 ≤ (fec_enc_create 2 3 99 7).num_media_packets ∧
    ∃ enc', [media_packet 1000 [1, 2], media_packet 1001 [3, 4]].foldlM
        (fec_enc_push_media_packet xor_codec) (fec_enc_create 2 3 99 7) = some enc' ∧
      enc'.fec_packets.length = (fec_enc_create 2 3 99 7).num_fec_packets ∧
      ∀ i, i < (fec_enc_create 2 3 99 7).num_fec_packets →
        ∃ p, fec_enc_nth_pop enc' i = some p ∧ fec_packet_index p = i ∧
          fec_packet_snbase p = gst_rtp_buffer_get_seq (media_packet 1000 [1, 2]) :=
  fec_enc_block_repair_packets xor_codec (fec_enc_create 2 3 99 7) (media_packet 1000 [1, 2])
    [media_packet 1001 [3, 4]] (by decide) (by decide) rfl rfl rfl rfl

theorem shl1_mask (N : Nat) (hN : N ≤ 24) : u32 (shl1 N - 1) = 2 ^ N - 1 ∧ 2 ^ N ≤ 16777216 := by
  have h : 2 ^ N ≤ 2 ^ 24 := Nat.pow_le_pow_right (by decide) hN
  have h0 : 0 < 2 ^ N := Nat.two_pow_pos N
  simp only [Nat.reducePow] at h
  refine ⟨?_, h⟩
  simp only [shl1, Nat.one_shiftLeft, u32]
  omega

/-- C9. When a block completes with `1 ≤ N ≤ 24` and running maximum packet size
`L < 65536`, the bytes behind the RTP header of repair packet `i` (`i < K`, `i < 256`)
start with these thirteen: the sequence number of the first media packet, big endian;
`L`, big endian; the low seven bits of the configured payload type; `2^N - 1` as
three bytes, big endian; the timestamp of the first media packet, big endian; the
index `i`. The payload has `13 + L` bytes. -/
theorem fec_enc_header_wire_format (c : Codec) (enc : fec_enc) (first : GstBuffer)
    (rest : List GstBuffer) (i : Nat)
    (hN24 : enc.num_media_packets ≤ 24)
    (hfull : enc.cur_num_media_packets = enc.num_media_packets)
    (hmp : enc.media_packets = first :: rest)
    (hL : enc.max_packet_size < 65536) (hi : i < enc.num_fec_packets) (hi256 : i < 256) :
    ∃ enc' p, fec_enc_calculate_fec_packets c enc = some enc' ∧
      enc'.fec_packets[enc.fec_packets.length + i]? = some p ∧
      (fec_data_of p).take 13 =
        [gst_rtp_buffer_get_seq first / 256, gst_rtp_buffer_get_seq first % 256,
         enc.max_packet_size / 256, enc.max_packet_size % 256,
         enc.payload_type % 128,
         (2 ^ enc.num_media_packets - 1) / 65536,
         (2 ^ enc.num_media_packets - 1) / 256 % 256,
         (2 ^ enc.num_media_packets - 1) % 256,
         gst_rtp_buffer_get_timestamp first / 16777216,
         gst_rtp_buffer_get_timestamp first / 65536 % 256,
         gst_rtp_buffer_get_timestamp first / 256 % 256,
         gst_rtp_buffer_get_timestamp first % 256,
         i] ∧
      (fec_data_of p).length = 13 + enc.max_packet_size := by
  obtain ⟨hmask, hpow⟩ := shl1_mask enc.num_media_packets hN24
  have hseq : gst_rtp_buffer_get_seq first < 65536 := Nat.mod_lt _ (by decide)
  have hts : gst_rtp_buffer_get_timestamp first < 4294967296 := Nat.mod_lt _ (by decide)
  have hcalc : fec_enc_calculate_fec_packets c enc =
      some (fec_enc_fec_loop c (gst_rtp_buffer_get_ssrc first)
        (gst_rtp_buffer_get_timestamp first) (gst_rtp_buffer_get_seq first)
        (u32 (shl1 enc.num_media_packets - 1)) ((first :: rest).map GST_BUFFER_DATA)
        enc.num_fec_packets 0 enc) := by
    simp [fec_enc_calculate_fec_packets, hfull, hmp]
  rw [fec_enc_fec_loop_eq] at hcalc
  refine ⟨_, fec_enc_new_fec_packet c enc.num_media_packets enc.num_fec_packets
    enc.max_packet_size enc.payload_type (seq_after enc.current_fec_seqnum i)
    (gst_rtp_buffer_get_ssrc first) (gst_rtp_buffer_get_timestamp first)
    (gst_rtp_buffer_get_seq first) (u32 (shl1 enc.num_media_packets - 1))
    ((first :: rest).map GST_BUFFER_DATA) (0 + i), hcalc, ?_, ?_, ?_⟩
  · simp only [List.getElem?_append_right (Nat.le_add_right _ _), Nat.add_sub_cancel_left]
    exact fec_enc_block_packets_get c _ _ _ _ _ _ _ _ _ _ 0 _ i hi
  · rw [new_fec_packet_fec_data, List.take_left' (fec_header_length _ _ _ _ _ _), hmask]
    simp only [fec_header, and_255, and_127, Nat.shiftRight_eq_div_pow, Nat.mod_mod,
      Nat.reducePow, Nat.pow_zero, Nat.div_one, Nat.zero_add]
    generalize gst_rtp_buffer_get_seq first = s at hseq ⊢
    generalize gst_rtp_buffer_get_timestamp first = t at hts ⊢
    have hm : 2 ^ enc.num_media_packets - 1 < 16777216 := by omega
    generalize 2 ^ enc.num_media_packets - 1 = m at hm ⊢
    have e0 : s / 256 % 256 = s / 256 := by omega
    have e2 : enc.max_packet_size / 256 % 256 = enc.max_packet_size / 256 := by omega
    have e4 : enc.payload_type % 128 % 256 = enc.payload_type % 128 := by omega
    have e5 : m / 65536 % 256 = m / 65536 := by omega
    have e8 : t / 16777216 % 256 = t / 16777216 := by omega
    have e12 : i % 256 = i := by omega
    rw [e0, e2, e4, e5, e8, e12]
  · rw [new_fec_packet_fec_data]
    simp [fec_header_length, of_build_repair_symbol_length]

/-- C9, witness: repair packet `1` of a completed block of two packets. -/
theorem fec_enc_header_wire_format_witness :
    ∃ enc' p, fec_enc_calculate_fec_packets xor_codec full_encoder = some enc' ∧
      enc'.fec_packets[full_encoder.fec_packets.length + 1]? = some p ∧
      (fec_data_of p).take 13 =
        [gst_rtp_buffer_get_seq (media_packet 1000 [1, 2]) / 256,
         gst_rtp_buffer_get_seq (media_packet 1000 [1, 2]) % 256,
         full_encoder.max_packet_size / 256, full_encoder.max_packet_size % 256,
         full_encoder.payload_type % 128,
         (2 ^ full_encoder.num_media_packets - 1) / 65536,
         (2 ^ full_encoder.num_media_packets - 1) / 256 % 256,
         (2 ^ full_encoder.num_media_packets - 1) % 256,
         gst_rtp_buffer_get_timestamp (media_packet 1000 [1, 2]) / 16777216,
         gst_rtp_buffer_get_timestamp (media_packet 1000 [1, 2]) / 65536 % 256,
         gst_rtp_buffer_get_timestamp (media_packet 1000 [1, 2]) / 256 % 256,
         gst_rtp_buffer_get_timestamp (media_packet 1000 [1, 2]) % 256,
         1] ∧
      (fec_data_of p).length = 13 + full_encoder.max_packet_size :=
  fec_enc_header_wire_format xor_codec full_encoder (media_packet 1000 [1, 2])
    [media_packet 1001 [3, 4]] 1 (by decide) rfl rfl (by decide) (by decide) (by decide)

theorem fec_enc_created_spec (c : Codec) (enc enc1 : fec_enc) (op : fec_enc_op)
    (h : fec_enc_apply c enc op = some enc1) :
    enc1.current_fec_seqnum % 65536 =
        (enc.current_fec_seqnum + (fec_enc_created enc op enc1).length) % 65536 ∧
      ∀ (j : Nat) (e : GstBuffer × GstBuffer), (fec_enc_created enc op enc1)[j]? = some e →
        gst_rtp_buffer_get_seq e.1 = (enc.current_fec_seqnum + j) % 65536 ∧
        gst_rtp_buffer_get_ssrc e.1 = gst_rtp_buffer_get_ssrc e.2 ∧
        gst_rtp_buffer_get_timestamp e.1 = gst_rtp_buffer_get_timestamp e.2 := by
  cases op with
  | push_media_packet packet =>
    simp only [fec_enc_apply] at h
    simp only [fec_enc_created]
    by_cases hq : fec_enc_has_fec_packets enc = true
    · simp only [fec_enc_push_media_packet, hq, if_true, Option.some.injEq] at h
      subst h
      simp [hq]
    · simp only [fec_enc_push_media_packet, hq, Bool.false_eq_true, if_false] at h
      simp only [hq, Bool.false_eq_true, if_false]
      have hqe : enc.fec_packets = [] := by
        simpa [fec_enc_has_fec_packets] using hq
      generalize hmid :
        (if (!fec_enc_is_media_packet_list_full enc) = true then
          ({ enc with
            media_packets := enc.media_packets ++ [packet]
            max_packet_size := MAX enc.max_packet_size (GST_BUFFER_SIZE packet)
            cur_num_media_packets := u32 (enc.cur_num_media_packets + 1) } : fec_enc)
        else enc) = mid at h
      have hmq : mid.fec_packets = [] := by
        rw [← hmid]; split_ifs <;> simp [hqe]
      have hmc : mid.current_fec_seqnum = enc.current_fec_seqnum := by
        rw [← hmid]; split_ifs <;> rfl
      have hmm : (if (!fec_enc_is_media_packet_list_full enc) = true then
          enc.media_packets ++ [packet] else enc.media_packets) = mid.media_packets := by
        rw [← hmid]; split_ifs <;> rfl
      rw [hmm]
      by_cases hfull : fec_enc_is_media_packet_list_full mid = true
      · simp only [hfull, if_true] at h
        by_cases hassert : mid.num_media_packets = mid.cur_num_media_packets
        · cases hmp : mid.media_packets with
          | nil => simp [fec_enc_calculate_fec_packets, hassert, hmp] at h
          | cons first rest =>
            simp only [fec_enc_calculate_fec_packets, hassert, if_true, hmp,
              fec_enc_fec_loop_eq, Option.some.injEq] at h
            subst h
            simp only [List.head?_cons, hmq, List.nil_append, List.length_map,
              fec_enc_block_packets_length, hmc, seq_after_mod, true_and]
            intro j e hj
            rw [List.getElem?_map] at hj
            by_cases hjK : j < mid.num_fec_packets
            · rw [fec_enc_block_packets_get _ _ _ _ _ _ _ _ _ _ _ _ _ _ hjK] at hj
              simp only [Option.map_some', Option.some.injEq] at hj
              subst hj
              refine ⟨?_, ?_, ?_⟩
              · rw [new_fec_packet_seq, seq_after_mod]
              · simp [gst_rtp_buffer_get_ssrc, fec_enc_new_fec_packet, u32]
              · simp [gst_rtp_buffer_get_timestamp, fec_enc_new_fec_packet, u32]
            · rw [List.getElem?_eq_none (by simp [fec_enc_block_packets_length]; omega)] at hj
              simp at hj
        · simp [fec_enc_calculate_fec_packets, hassert] at h
      · simp only [hfull, Bool.false_eq_true, if_false, Option.some.injEq] at h
        subst h
        simp only [hmq, List.map_nil, hmc]
        cases mid.media_packets.head? <;> simp
  | pop_fec_packet =>
    simp only [fec_enc_apply, Option.some.injEq] at h; subst h
    simp [fec_enc_created, fec_enc_pop_fec_packet]
  | reset =>
    simp only [fec_enc_apply, Option.some.injEq] at h; subst h
    simp [fec_enc_created, fec_enc_reset]
  | set_num_media_packets n =>
    simp only [fec_enc_apply, Option.some.injEq] at h; subst h
    simp [fec_enc_created, fec_enc_set_num_media_packets, fec_enc_reset]
  | set_num_fec_packets n =>
    simp only [fec_enc_apply, Option.some.injEq] at h; subst h
    simp [fec_enc_created, fec_enc_set_num_fec_packets, fec_enc_reset]
  | set_payload_type pt =>
    simp only [fec_enc_apply, Option.some.injEq] at h; subst h
    simp [fec_enc_created, fec_enc_set_payload_type]

theorem fec_enc_trace_spec (c : Codec) (ops : List fec_enc_op) (enc : fec_enc)
    (j : Nat) (e : GstBuffer × GstBuffer) (hj : (fec_enc_trace c enc ops)[j]? = some e) :
    gst_rtp_buffer_get_seq e.1 = (enc.current_fec_seqnum + j) % 65536 ∧
      gst_rtp_buffer_get_ssrc e.1 = gst_rtp_buffer_get_ssrc e.2 ∧
      gst_rtp_buffer_get_timestamp e.1 = gst_rtp_buffer_get_timestamp e.2 := by
  induction ops generalizing enc j with
  | nil => simp [fec_enc_trace] at hj
  | cons op ops ih =>
    simp only [fec_enc_trace] at hj
    cases happ : fec_enc_apply c enc op with
    | none => simp [happ] at hj
    | some enc1 =>
      simp only [happ] at hj
      obtain ⟨hcur, hcr⟩ := fec_enc_created_spec c enc enc1 op happ
      by_cases hlt : j < (fec_enc_created enc op enc1).length
      · rw [List.getElem?_append_left hlt] at hj
        exact hcr j e hj
      · rw [List.getElem?_append_right (by omega)] at hj
        obtain ⟨h1, h2, h3⟩ := ih enc1 _ hj
        refine ⟨?_, h2, h3⟩
        rw [h1]
        omega

/-- C10. The repair packet number `j` (`j = 0, 1, 2, ...`) created by an encoder since
`fec_enc_create`, over any list of public operations (pushes, pops, resets, changes
of the packet counts and of the payload type), carries the RTP sequence number
`(seqnum_offset + j) mod 65536` and the SSRC and timestamp of the first media packet
of its block. -/
theorem fec_enc_repair_seqnum_monotone (c : Codec) (N K pt seqnum_offset : Nat)
    (ops : List fec_enc_op) (j : Nat)
    (hj : j < (fec_enc_trace c (fec_enc_create N K pt seqnum_offset) ops).length) :
    gst_rtp_buffer_get_seq
        ((fec_enc_trace c (fec_enc_create N K pt seqnum_offset) ops).get ⟨j, hj⟩).1
      = (seqnum_offset + j) % 65536 ∧
    gst_rtp_buffer_get_ssrc
        ((fec_enc_trace c (fec_enc_create N K pt seqnum_offset) ops).get ⟨j, hj⟩).1
      = gst_rtp_buffer_get_ssrc
        ((fec_enc_trace c (fec_enc_create N K pt seqnum_offset) ops).get ⟨j, hj⟩).2 ∧
    gst_rtp_buffer_get_timestamp
        ((fec_enc_trace c (fec_enc_create N K pt seqnum_offset) ops).get ⟨j, hj⟩).1
      = gst_rtp_buffer_get_timestamp
        ((fec_enc_trace c (fec_enc_create N K pt seqnum_offset) ops).get ⟨j, hj⟩).2 :=
  fec_enc_trace_spec c ops (fec_enc_create N K pt seqnum_offset) j _
    (by rw [List.getElem?_eq_getElem hj]; rfl)

/-- C10, witness: the fifth repair packet of a run with two blocks, a reset and two
changes of the packet counts; the counter started at `65534` and has wrapped. -/
theorem fec_enc_repair_seqnum_monotone_witness :
    ∃ hj : 4 < (fec_enc_trace xor_codec (fec_enc_create 2 3 99 65534) two_block_ops).length,
      gst_rtp_buffer_get_seq
          ((fec_enc_trace xor_codec (fec_enc_create 2 3 99 65534) two_block_ops).get ⟨4, hj⟩).1
        = (65534 + 4) % 65536 ∧
      gst_rtp_buffer_get_ssrc
          ((fec_enc_trace xor_codec (fec_enc_create 2 3 99 65534) two_block_ops).get ⟨4, hj⟩).1
        = gst_rtp_buffer_get_ssrc
          ((fec_enc_trace xor_codec (fec_enc_create 2 3 99 65534) two_block_ops).get ⟨4, hj⟩).2 ∧
      gst_rtp_buffer_get_timestamp
          ((fec_enc_trace xor_codec (fec_enc_create 2 3 99 65534) two_block_ops).get ⟨4, hj⟩).1
        = gst_rtp_buffer_get_timestamp
          ((fec_enc_trace xor_codec (fec_enc_create 2 3 99 65534) two_block_ops).get ⟨4, hj⟩).2 :=
  ⟨by decide,
    fec_enc_repair_seqnum_monotone xor_codec 2 3 99 65534 two_block_ops 4 (by decide)⟩

/-! ## Recovered packet queue -/

/-- C4, the code at the failing input: after the recovery callback has put `[1]` and
then `[2]` on the empty recovered queue, the first `fec_dec_pop_recovered_packet`
returns `[2]` and the second returns `[1]`. -/
theorem fec_dec_pop_recovered_packet_order :
    (fec_dec_pop_recovered_packet
        (fec_dec_source_packet_cb (fec_dec_source_packet_cb (fec_dec_create 3 2) [1]) [2])).1
      = some [2] ∧
    (fec_dec_pop_recovered_packet
        (fec_dec_pop_recovered_packet
          (fec_dec_source_packet_cb (fec_dec_source_packet_cb (fec_dec_create 3 2) [1])
            [2])).2).1
      = some [1] := by
  decide

/-! ## Decoder: media packets outside the window, duplicates -/

theorem fec_dec_correct_seqnum_lt (dec : fec_dec) (s : Nat) :
    fec_dec_correct_seqnum dec s < 4294967296 := by
  unfold fec_dec_correct_seqnum u32
  simp only []
  split_ifs <;> omega

theorem fec_dec_evict_fields (packet : GstBuffer) (n : Nat) (dec : fec_dec) :
    (fec_dec_evict packet n dec).received_media_packet_mask = dec.received_media_packet_mask ∧
    (fec_dec_evict packet n dec).num_received_fec_packets = dec.num_received_fec_packets ∧
    (fec_dec_evict packet n dec).has_snbase = dec.has_snbase ∧
    (fec_dec_evict packet n dec).blacklisted_snbase = dec.blacklisted_snbase ∧
    (fec_dec_evict packet n dec).cur_snbase = dec.cur_snbase ∧
    (fec_dec_evict packet n dec).fec_packets = dec.fec_packets ∧
    (fec_dec_evict packet n dec).fec_packet_set = dec.fec_packet_set ∧
    (fec_dec_evict packet n dec).recovered_packets = dec.recovered_packets ∧
    (fec_dec_evict packet n dec).num_media_packets = dec.num_media_packets ∧
    (fec_dec_evict packet n dec).media_packets = dec.media_packets.drop n := by
  induction n generalizing dec with
  | zero => simp [fec_dec_evict]
  | succ n ih =>
    rw [fec_dec_evict]
    obtain ⟨h1, h2, h3, h4, h5, h6, h7, h8, h9, h10⟩ := ih
      { dec with
        media_packets := dec.media_packets.tail
        media_packet_set :=
          g_hash_table_remove dec.media_packet_set (gst_rtp_buffer_get_seq packet) }
    refine ⟨h1, h2, h3, h4, h5, h6, h7, h8, h9, ?_⟩
    rw [h10]
    simp [List.drop_succ_cons, List.tail_drop]

theorem fec_dec_overflow_fields (packet : GstBuffer) (dec : fec_dec) :
    (fec_dec_overflow packet dec).received_media_packet_mask = dec.received_media_packet_mask ∧
    (fec_dec_overflow packet dec).num_received_fec_packets = dec.num_received_fec_packets ∧
    (fec_dec_overflow packet dec).has_snbase = dec.has_snbase ∧
    (fec_dec_overflow packet dec).blacklisted_snbase = dec.blacklisted_snbase ∧
    (fec_dec_overflow packet dec).cur_snbase = dec.cur_snbase ∧
    (fec_dec_overflow packet dec).fec_packets = dec.fec_packets ∧
    (fec_dec_overflow packet dec).fec_packet_set = dec.fec_packet_set ∧
    (fec_dec_overflow packet dec).recovered_packets = dec.recovered_packets ∧
    (fec_dec_overflow packet dec).num_media_packets = dec.num_media_packets ∧
    (fec_dec_overflow packet dec).media_packets =
      dec.media_packets.drop (dec.num_received_media_packets - dec.num_media_packets) ∧
    (fec_dec_overflow packet dec).num_received_media_packets =
      min dec.num_received_media_packets dec.num_media_packets := by
  unfold fec_dec_overflow
  split_ifs with hov
  · obtain ⟨h1, h2, h3, h4, h5, h6, h7, h8, h9, h10⟩ := fec_dec_evict_fields packet
      (dec.num_received_media_packets - dec.num_media_packets) dec
    refine ⟨h1, h2, h3, h4, h5, h6, h7, h8, h9, h10, ?_⟩
    show dec.num_media_packets = min dec.num_received_media_packets dec.num_media_packets
    omega
  · have h0 : dec.num_received_media_packets - dec.num_media_packets = 0 := by omega
    refine ⟨rfl, rfl, rfl, rfl, rfl, rfl, rfl, rfl, rfl, ?_, ?_⟩
    · rw [h0, List.drop_zero]
    · omega

/-- C3, the code at the failing input. A fresh decoder with `N = 4` receives the media
packets `1, 2, 3, 4, 5` and a repair packet with SN base `5`. Packet `5` is then held
in the media queue, with received media count `1`. Pushing packet `5` again is not
recognised as a duplicate: the packet is queued a second time and the received media
count becomes `2`. -/
theorem fec_dec_duplicate_media_after_eviction :
    fec_dec_run xor_codec (fec_dec_create 4 2)
        [.push_media_packet (media_packet 1 [1, 1]), .push_media_packet (media_packet 2 [1, 1]),
         .push_media_packet (media_packet 3 [1, 1]), .push_media_packet (media_packet 4 [1, 1]),
         .push_media_packet (media_packet 5 [1, 1]), .push_fec_packet (repair_packet 100 5 0)]
      = some evicted_window ∧
    media_packet 5 [1, 1] ∈ evicted_window.media_packets ∧
    evicted_window.num_received_media_packets = 1 ∧
    ∃ dec', fec_dec_push_media_packet xor_codec evicted_window (media_packet 5 [1, 1])
        = some dec' ∧
      dec'.num_received_media_packets = 2 ∧
      dec'.media_packets = [media_packet 5 [1, 1], media_packet 5 [1, 1]] := by
  refine ⟨by decide, by decide, by decide, _, rfl, by decide, by decide⟩

/-! ## Decoder: pushes into a fresh decoder -/

theorem fec_dec_push_media_unbound (c : Codec) (ms : List GstBuffer) (dec : fec_dec)
    (hu : dec.has_snbase = false)
    (hnd : (ms.map gst_rtp_buffer_get_seq).Nodup)
    (hdisj : ∀ m ∈ ms, gst_rtp_buffer_get_seq m ∉ dec.media_packet_set)
    (hcnt : dec.num_received_media_packets + ms.length ≤ dec.num_media_packets)
    (hN32 : dec.num_media_packets < 4294967296) :
    ms.foldlM (fec_dec_push_media_packet c) dec =
      some { dec with
        media_packets := dec.media_packets ++ ms
        media_packet_set := dec.media_packet_set ++ ms.map gst_rtp_buffer_get_seq
        num_received_media_packets := dec.num_received_media_packets + ms.length } := by
  induction ms generalizing dec with
  | nil => simp
  | cons p ps ih =>
    simp only [List.length_cons] at hcnt
    have hp : gst_rtp_buffer_get_seq p ∉ dec.media_packet_set := hdisj p (List.mem_cons_self _ _)
    have hstep : fec_dec_push_media_packet c dec p =
        some { dec with
          media_packets := dec.media_packets ++ [p]
          media_packet_set := dec.media_packet_set ++ [gst_rtp_buffer_get_seq p]
          num_received_media_packets := dec.num_received_media_packets + 1 } := by
      have h2 : (dec.num_received_media_packets + 1) % 4294967296
          = dec.num_received_media_packets + 1 := by omega
      have h3 : ¬ (dec.num_received_media_packets + 1 > dec.num_media_packets) := by omega
      simp [fec_dec_push_media_packet, g_hash_table_lookup_extended, hp, hu,
        fec_dec_buffer_media, custom_hash_table_add, u32, h2, fec_dec_overflow, h3]
    rw [List.foldlM_cons, hstep]
    simp only [Option.bind_eq_bind, Option.some_bind]
    simp only [List.map_cons, List.nodup_cons] at hnd
    rw [ih]
    · simp [Nat.add_assoc, Nat.add_comm 1]
    · exact hu
    · exact hnd.2
    · intro m hm
      show gst_rtp_buffer_get_seq m ∉ dec.media_packet_set ++ [gst_rtp_buffer_get_seq p]
      simp only [List.mem_append, List.mem_singleton, not_or]
      refine ⟨hdisj m (List.mem_cons_of_mem _ hm), ?_⟩
      intro heq
      exact hnd.1 (heq ▸ List.mem_map_of_mem _ hm)
    · show dec.num_received_media_packets + 1 + ps.length ≤ dec.num_media_packets
      omega
    · exact hN32

theorem fec_dec_push_fec_blacklisted (c : Codec) (fs : List GstBuffer) (dec : fec_dec)
    (h : ∀ f ∈ fs, fec_packet_snbase f = dec.blacklisted_snbase) :
    fs.foldlM (fec_dec_push_fec_packet c) dec = some dec := by
  induction fs with
  | nil => simp
  | cons f fs ih =>
    have hf : fec_dec_push_fec_packet c dec f = some dec := by
      simp [fec_dec_push_fec_packet, h f (List.mem_cons_self _ _)]
    rw [List.foldlM_cons, hf]
    simp only [Option.bind_eq_bind, Option.some_bind]
    exact ih (fun f hf => h f (List.mem_cons_of_mem _ hf))

theorem fec_dec_correct_seqnum_congr (d1 d2 : fec_dec) (h1 : d1.cur_snbase = d2.cur_snbase)
    (h2 : d1.num_media_packets = d2.num_media_packets) (s : Nat) :
    fec_dec_correct_seqnum d1 s = fec_dec_correct_seqnum d2 s := by
  simp [fec_dec_correct_seqnum, h1, h2]

theorem fec_dec_in_window_congr (d1 d2 : fec_dec) (h1 : d1.cur_snbase = d2.cur_snbase)
    (h2 : d1.num_media_packets = d2.num_media_packets) (b : Nat) (mp : GstBuffer) :
    fec_dec_in_window d1 b mp = fec_dec_in_window d2 b mp := by
  simp [fec_dec_in_window, fec_dec_correct_seqnum_congr d1 d2 h1 h2, h2]

theorem fec_dec_position_congr (d1 d2 : fec_dec) (h1 : d1.cur_snbase = d2.cur_snbase)
    (h2 : d1.num_media_packets = d2.num_media_packets) (mp : GstBuffer) :
    fec_dec_position d1 mp = fec_dec_position d2 mp := by
  simp [fec_dec_position, fec_dec_correct_seqnum_congr d1 d2 h1 h2, h1]

theorem fec_dec_rescan_all_in_window (snbase : Nat) (l : List GstBuffer) (i : Nat)
    (dec : fec_dec) (h : ∀ mp ∈ l, fec_dec_in_window dec snbase mp = true) :
    fec_dec_rescan snbase l i dec =
      { dec with
        max_packet_size := l.foldl (fun m mp => MAX m (GST_BUFFER_SIZE mp)) dec.max_packet_size
        received_media_packet_mask :=
          l.foldl (fun m mp => u32 (m ||| shl1 (fec_dec_position dec mp)))
            dec.received_media_packet_mask
        num_received_media_packets :=
          l.foldl (fun n _ => u32 (n + 1)) dec.num_received_media_packets } := by
  induction l generalizing i dec with
  | nil => simp [fec_dec_rescan]
  | cons mp rest ih =>
    have hmp := h mp (List.mem_cons_self _ _)
    simp only [fec_dec_in_window, Bool.not_eq_true', Bool.or_eq_false_iff,
      decide_eq_false_iff_not] at hmp
    rw [fec_dec_rescan]
    simp only [hmp.1, hmp.2, or_self, if_false]
    rw [ih]
    · simp only [List.foldl_cons, fec_dec_position]
      congr 1
    · intro mp' hmp'
      exact (fec_dec_in_window_congr _ dec rfl rfl snbase mp').trans
        (h mp' (List.mem_cons_of_mem _ hmp'))

theorem mask_fold_testBit (l : List Nat) (m0 : Nat) (hm : m0 < 4294967296)
    (hl : ∀ d ∈ l, d < 32) (i : Nat) :
    (l.foldl (fun m d => u32 (m ||| shl1 d)) m0).testBit i
      = (m0.testBit i || decide (i ∈ l)) := by
  induction l generalizing m0 with
  | nil => simp
  | cons d rest ih =>
    have hd : d < 32 := hl d (List.mem_cons_self _ _)
    have hlt : u32 (m0 ||| shl1 d) < 4294967296 := Nat.mod_lt _ (by decide)
    rw [List.foldl_cons, ih _ hlt (fun x hx => hl x (List.mem_cons_of_mem _ hx))]
    have h1 : (u32 (m0 ||| shl1 d)).testBit i = (m0.testBit i || decide (d = i)) := by
      have h32 : (4294967296 : Nat) = 2 ^ 32 := by norm_num
      rw [u32, h32, Nat.testBit_mod_two_pow, Nat.testBit_or, shl1, Nat.one_shiftLeft,
        Nat.testBit_two_pow]
      by_cases hi : i < 32
      · simp [hi]
      · have hm0 : m0.testBit i = false := by
          apply Nat.testBit_lt_two_pow
          calc m0 < 2 ^ 32 := by omega
            _ ≤ 2 ^ i := Nat.pow_le_pow_right (by decide) (by omega)
        have hdi : ¬ d = i := by omega
        simp [hi, hm0, hdi]
    rw [h1]
    by_cases hdi : d = i
    · subst hdi; simp
    · have hid : ¬ i = d := fun h => hdi h.symm
      simp [hdi, hid]

theorem fec_dec_window_position (dec : fec_dec) (b i : Nat) (mp : GstBuffer)
    (hb : dec.cur_snbase = b) (hb16 : b < 65536) (hN : dec.num_media_packets ≤ 65536)
    (hi : i < dec.num_media_packets)
    (hs : gst_rtp_buffer_get_seq mp = (b + i) % 65536) :
    fec_dec_position dec mp = i ∧ fec_dec_in_window dec b mp = true := by
  unfold fec_dec_position fec_dec_in_window fec_dec_correct_seqnum u32_sub u32
  simp only [hs, hb, Bool.not_eq_true', Bool.or_eq_false_iff, decide_eq_false_iff_not]
  split_ifs <;> omega

theorem fec_dec_push_fec_new_window (c : Codec) (dec : fec_dec) (f : GstBuffer) (b : Nat)
    (hb : fec_packet_snbase f = b) (hbl : dec.blacklisted_snbase ≠ b)
    (hdup : gst_rtp_buffer_get_seq f ∉ dec.fec_packet_set) (hnew : dec.cur_snbase ≠ b)
    (hwin : ∀ mp ∈ dec.media_packets,
      fec_dec_in_window { dec with cur_snbase := b } b mp = true) :
    fec_dec_push_fec_packet c dec f =
      fec_dec_check_state c
        { dec with
          cur_snbase := b
          has_snbase := true
          fec_packets := [f]
          fec_packet_set := [gst_rtp_buffer_get_seq f]
          num_received_fec_packets := 1
          max_packet_size :=
            dec.media_packets.foldl (fun m mp => MAX m (GST_BUFFER_SIZE mp)) 0
          received_media_packet_mask :=
            dec.media_packets.foldl
              (fun m mp => u32 (m ||| shl1 (fec_dec_position { dec with cur_snbase := b } mp))) 0
          num_received_media_packets :=
            dec.media_packets.foldl (fun n _ => u32 (n + 1)) 0 } := by
  have hbl' : ¬ (b = dec.blacklisted_snbase) := fun h => hbl h.symm
  simp only [fec_dec_push_fec_packet, hb, hbl', if_false, g_hash_table_lookup_extended, hdup,
    decide_False, Bool.false_eq_true, ne_eq, hnew, not_false_eq_true, if_true]
  rw [fec_dec_rescan_all_in_window]
  · simp only [custom_hash_table_add, List.not_mem_nil, if_false, List.nil_append, u32]
    congr 2
  · intro mp hmp
    exact (fec_dec_in_window_congr _ { dec with cur_snbase := b } rfl rfl b mp).trans (hwin mp hmp)

theorem count_fold (l : List GstBuffer) (n : Nat) (h : n + l.length < 4294967296) :
    l.foldl (fun n _ => u32 (n + 1)) n = n + l.length := by
  induction l generalizing n with
  | nil => simp
  | cons a l ih =>
    simp only [List.length_cons] at h
    have h1 : u32 (n + 1) = n + 1 := by unfold u32; omega
    rw [List.foldl_cons, h1, ih (n + 1) (by omega)]
    simp only [List.length_cons]; omega

theorem window_seqs_nodup (N b : Nat) (hN : N ≤ 65536) :
    ((List.range N).map (fun i => (b + i) % 65536)).Nodup := by
  apply (List.nodup_range N).map_on
  intro x hx y hy hxy
  simp only [List.mem_range] at hx hy
  omega

/-- C6. All `N` media packets of a block (`1 ≤ N ≤ 24`, sequence numbers
`snbase .. snbase + N - 1` modulo `65536`, in any order of arrival) are pushed into a
fresh decoder, then any number of repair packets of that block. Every push returns,
the final state is the same for every erasure coding engine, and its recovered queue
is empty: the engine is never called. -/
theorem fec_dec_all_media_first_no_recovery (N K snbase : Nat) (ms fs : List GstBuffer)
    (hN1 : 1 ≤ N) (hN24 : N ≤ 24) (hb : snbase < 65536)
    (hms : List.Perm (ms.map gst_rtp_buffer_get_seq)
      ((List.range N).map (fun i => (snbase + i) % 65536)))
    (hfs : ∀ f ∈ fs, fec_packet_snbase f = snbase) :
    ∃ dec2 : fec_dec,
      (∀ c : Codec, fec_dec_run c (fec_dec_create N K)
        (ms.map fec_dec_op.push_media_packet ++ fs.map fec_dec_op.push_fec_packet) = some dec2) ∧
      dec2.recovered_packets = [] := by
  have hnd : (ms.map gst_rtp_buffer_get_seq).Nodup :=
    hms.nodup_iff.mpr (window_seqs_nodup N snbase (by omega))
  have hlen : ms.length = N := by
    have := hms.length_eq
    simpa using this
  have hpos : ∀ mp ∈ ms, ∃ i, i < N ∧ gst_rtp_buffer_get_seq mp = (snbase + i) % 65536 := by
    intro mp hmp
    have h1 : gst_rtp_buffer_get_seq mp ∈ (List.range N).map (fun i => (snbase + i) % 65536) :=
      hms.mem_iff.mp (List.mem_map_of_mem _ hmp)
    simp only [List.mem_map, List.mem_range] at h1
    obtain ⟨i, hi, he⟩ := h1
    exact ⟨i, hi, he.symm⟩
  have hmedia : ∀ c : Codec, ms.foldlM (fec_dec_push_media_packet c) (fec_dec_create N K) =
      some (fec_dec_with_media N K ms) := by
    intro c
    rw [fec_dec_push_media_unbound c ms (fec_dec_create N K) rfl hnd (by simp [fec_dec_create])
      (by simp [fec_dec_create]; omega) (by simp [fec_dec_create]; omega)]
    simp [fec_dec_create, fec_dec_with_media]
  have hrun : ∀ (c : Codec) (d : fec_dec), fec_dec_run c (fec_dec_create N K)
      (ms.map fec_dec_op.push_media_packet ++ fs.map fec_dec_op.push_fec_packet) = some d ↔
      fs.foldlM (fec_dec_push_fec_packet c) (fec_dec_with_media N K ms) = some d := by
    intro c d
    have h1 : ∀ (l : List GstBuffer) (d0 : fec_dec),
        (l.map fec_dec_op.push_media_packet).foldlM (fec_dec_apply c) d0
          = l.foldlM (fec_dec_push_media_packet c) d0 := by
      intro l d0; rw [List.foldlM_map]; rfl
    have h2 : ∀ (l : List GstBuffer) (d0 : fec_dec),
        (l.map fec_dec_op.push_fec_packet).foldlM (fec_dec_apply c) d0
          = l.foldlM (fec_dec_push_fec_packet c) d0 := by
      intro l d0; rw [List.foldlM_map]; rfl
    rw [fec_dec_run, List.foldlM_append, h1, hmedia c]
    simp only [Option.bind_eq_bind, Option.some_bind, h2]
  cases fs with
  | nil =>
    exact ⟨fec_dec_with_media N K ms, fun c => (hrun c _).mpr rfl, rfl⟩
  | cons f fs =>
    by_cases hb0 : snbase = 0
    · refine ⟨fec_dec_with_media N K ms, fun c => (hrun c _).mpr ?_, rfl⟩
      apply fec_dec_push_fec_blacklisted
      intro g hg
      rw [hfs g hg, hb0]
      rfl
    · have hf : fec_packet_snbase f = snbase := hfs f (List.mem_cons_self _ _)
      have hwp : ∀ mp ∈ ms,
          fec_dec_position { fec_dec_with_media N K ms with cur_snbase := snbase } mp < N ∧
          fec_dec_in_window { fec_dec_with_media N K ms with cur_snbase := snbase } snbase mp
            = true := by
        intro mp hmp
        obtain ⟨i, hi, he⟩ := hpos mp hmp
        obtain ⟨h1, h2⟩ := fec_dec_window_position
          { fec_dec_with_media N K ms with cur_snbase := snbase } snbase i mp rfl hb
          (by show N ≤ 65536; omega) (by show i < N; exact hi) he
        exact ⟨by rw [h1]; exact hi, h2⟩
      have hmask : ms.foldl (fun m mp => u32 (m ||| shl1
          (fec_dec_position { fec_dec_with_media N K ms with cur_snbase := snbase } mp))) 0
          = shl1 N - 1 := by
        rw [← List.foldl_map (fec_dec_position
          { fec_dec_with_media N K ms with cur_snbase := snbase })
          (fun m d => u32 (m ||| shl1 d)) ms 0]
        apply Nat.eq_of_testBit_eq
        intro i
        rw [mask_fold_testBit _ 0 (by decide), shl1, Nat.one_shiftLeft,
          Nat.testBit_two_pow_sub_one]
        · simp only [Nat.zero_testBit, Bool.false_or, List.mem_map]
          congr 1
          apply propext
          constructor
          · rintro ⟨mp, hmp, rfl⟩
            exact (hwp mp hmp).1
          · intro hi
            have h1 : (snbase + i) % 65536 ∈ ms.map gst_rtp_buffer_get_seq :=
              hms.mem_iff.mpr (List.mem_map.mpr ⟨i, List.mem_range.mpr hi, rfl⟩)
            obtain ⟨mp, hmp, he⟩ := List.mem_map.mp h1
            exact ⟨mp, hmp, (fec_dec_window_position
              { fec_dec_with_media N K ms with cur_snbase := snbase } snbase i mp rfl hb
              (by show N ≤ 65536; omega) (by show i < N; exact hi) he).1⟩
        · intro d hd
          obtain ⟨mp, hmp, rfl⟩ := List.mem_map.mp hd
          have := (hwp mp hmp).1
          omega
      have hfirst : ∀ c : Codec,
          fec_dec_push_fec_packet c (fec_dec_with_media N K ms) f =
            some { fec_dec_cleanup (fec_dec_with_media N K ms) with
              cur_snbase := snbase, blacklisted_snbase := snbase } := by
        intro c
        rw [fec_dec_push_fec_new_window c (fec_dec_with_media N K ms) f snbase hf
          (fun h => hb0 h.symm) (by simp [fec_dec_with_media, fec_dec_create])
          (fun h => hb0 h.symm) (fun mp hmp => (hwp mp hmp).2)]
        have hmask' : (fec_dec_with_media N K ms).media_packets.foldl (fun m mp => u32 (m ||| shl1
          (fec_dec_position { fec_dec_with_media N K ms with cur_snbase := snbase } mp))) 0
          = shl1 N - 1 := hmask
        simp only [fec_dec_check_state, fec_dec_all_media_packets_present, hmask']
        simp [fec_dec_with_media, fec_dec_create, fec_dec_cleanup]
      refine ⟨{ fec_dec_cleanup (fec_dec_with_media N K ms) with
              cur_snbase := snbase, blacklisted_snbase := snbase },
        fun c => (hrun c _).mpr ?_, rfl⟩
      rw [List.foldlM_cons, hfirst c]
      simp only [Option.bind_eq_bind, Option.some_bind]
      apply fec_dec_push_fec_blacklisted
      intro g hg
      exact hfs g (List.mem_cons_of_mem _ hg)

/-- C6, witness: the block `65534, 65535, 0, 1` (`N = 4`) arrives out of order, then
two of its repair packets. -/
theorem fec_dec_all_media_first_no_recovery_witness :
    ∃ dec2 : fec_dec,
      (∀ c : Codec, fec_dec_run c (fec_dec_create 4 2)
        (wrap_block.map fec_dec_op.push_media_packet
          ++ wrap_repair.map fec_dec_op.push_fec_packet) = some dec2) ∧
      dec2.recovered_packets = [] :=
  fec_dec_all_media_first_no_recovery 4 2 65534 wrap_block wrap_repair (by decide) (by decide)
    (by decide) (by decide) (by decide)

/-! ## Single loss recovery -/

theorem fec_enc_push_block (c : Codec) (N K pt off : Nat) (first : GstBuffer)
    (rest : List GstBuffer) (hN32 : N < 4294967296) (hlen : (first :: rest).length = N) :
    (first :: rest).foldlM (fec_enc_push_media_packet c) (fec_enc_create N K pt off) =
      some { fec_enc_create N K pt off with
        current_fec_seqnum := seq_after off K
        fec_packets :=
          fec_enc_block_packets c N K
            ((first :: rest).foldl (fun m p => MAX m (GST_BUFFER_SIZE p)) 0) pt off
            (gst_rtp_buffer_get_ssrc first) (gst_rtp_buffer_get_timestamp first)
            (gst_rtp_buffer_get_seq first) (u32 (shl1 N - 1))
            ((first :: rest).map GST_BUFFER_DATA) 0 K } := by
  have hsplit : first :: rest = (first :: rest).dropLast ++
      [(first :: rest).getLast (List.cons_ne_nil _ _)] :=
    (List.dropLast_append_getLast (List.cons_ne_nil _ _)).symm
  generalize (first :: rest).dropLast = init at hsplit
  generalize (first :: rest).getLast (List.cons_ne_nil _ _) = last at hsplit
  have hilen : init.length + 1 = N := by
    rw [← hlen, hsplit]; simp
  have hfold : (first :: rest).foldl (fun m p => MAX m (GST_BUFFER_SIZE p)) 0
      = MAX (init.foldl (fun m p => MAX m (GST_BUFFER_SIZE p)) 0) (GST_BUFFER_SIZE last) := by
    rw [hsplit, List.foldl_append]; rfl
  rw [hfold]
  conv_lhs =>
    rw [hsplit, List.foldlM_append,
      fec_enc_push_accumulate c init (fec_enc_create N K pt off) rfl hN32
        (by simp only [fec_enc_create]; omega)]
  simp only [Option.bind_eq_bind, Option.some_bind, List.foldlM_cons, List.foldlM_nil]
  rw [fec_enc_push_completes c _ last first rest]
  · simp [fec_enc_create]
  · rfl
  · exact hN32
  · show 0 + init.length + 1 = N
    omega
  · show [] ++ init ++ [last] = first :: rest
    rw [List.nil_append]; exact hsplit.symm

theorem max_fold_const (l : List GstBuffer) (L m0 : Nat) (hl : l ≠ [])
    (hm : m0 ≤ L) (h : ∀ m ∈ l, GST_BUFFER_SIZE m = L) :
    l.foldl (fun m p => MAX m (GST_BUFFER_SIZE p)) m0 = L := by
  induction l generalizing m0 with
  | nil => exact absurd rfl hl
  | cons a l ih =>
    have ha : GST_BUFFER_SIZE a = L := h a (List.mem_cons_self _ _)
    have hM : MAX m0 (GST_BUFFER_SIZE a) = L := by
      unfold MAX; rw [ha]; split_ifs <;> omega
    rw [List.foldl_cons, hM]
    cases l with
    | nil => rfl
    | cons b l =>
      exact ih L (List.cons_ne_nil _ _) (Nat.le_refl _)
        (fun m hm => h m (List.mem_cons_of_mem _ hm))

theorem fec_dec_tab_media_spec (dec : fec_dec) (l : List GstBuffer)
    (tab : List (Option (List Nat)))
    (hlt : ∀ mp ∈ l, fec_dec_position dec mp < tab.length)
    (hnd : (l.map (fec_dec_position dec)).Nodup) :
    ∃ tab1, fec_dec_tab_media dec l tab = some tab1 ∧ tab1.length = tab.length ∧
      (∀ mp ∈ l, tab1[fec_dec_position dec mp]? = some (some (GST_BUFFER_DATA mp))) ∧
      (∀ i, i ∉ l.map (fec_dec_position dec) → tab1[i]? = tab[i]?) := by
  induction l generalizing tab with
  | nil => exact ⟨tab, rfl, rfl, by simp, fun _ _ => rfl⟩
  | cons mp rest ih =>
    have hmp : fec_dec_position dec mp < tab.length := hlt mp (List.mem_cons_self _ _)
    simp only [List.map_cons, List.nodup_cons] at hnd
    obtain ⟨tab1, h1, h2, h3, h4⟩ := ih (tab.set (fec_dec_position dec mp)
      (some (GST_BUFFER_DATA mp)))
      (fun m hm => by rw [List.length_set]; exact hlt m (List.mem_cons_of_mem _ hm)) hnd.2
    refine ⟨tab1, ?_, ?_, ?_, ?_⟩
    · rw [fec_dec_tab_media]
      have hpos : u32_sub (fec_dec_correct_seqnum dec (gst_rtp_buffer_get_seq mp))
          dec.cur_snbase = fec_dec_position dec mp := rfl
      simp only [hpos, tab_store, hmp, if_true]
      exact h1
    · rw [h2, List.length_set]
    · intro m hm
      rcases List.mem_cons.mp hm with rfl | hm'
      · rw [h4 _ hnd.1, List.getElem?_set_self hmp]
      · exact h3 m hm'
    · intro i hi
      simp only [List.map_cons, List.mem_cons, not_or] at hi
      rw [h4 i hi.2, List.getElem?_set_ne (fun h => hi.1 h.symm)]

theorem fec_dec_recover_single_loss (c : Codec) (dec : fec_dec) (f0 : GstBuffer)
    (N K L j : Nat) (src : List (List Nat)) (x : List Nat)
    (hopen : dec.has_snbase = true) (hmax : dec.max_packet_size = L) (hL : 0 < L)
    (hN : dec.num_media_packets = N) (hK : dec.num_fec_packets = K)
    (hfp : dec.fec_packets = [f0]) (hNK : N + K < 4294967296) (hK1 : 1 ≤ K)
    (hsrc : src.length = N)
    (hpos : ∀ mp ∈ dec.media_packets, fec_dec_position dec mp < N ∧
      fec_dec_position dec mp ≠ j ∧
      src[fec_dec_position dec mp]? = some (GST_BUFFER_DATA mp))
    (hall : ∀ t, t < N → t ≠ j → t ∈ dec.media_packets.map (fec_dec_position dec))
    (hnd : (dec.media_packets.map (fec_dec_position dec)).Nodup)
    (hidx : byte_at (fec_data_of f0) 12 = 0)
    (hsym : (fec_data_of f0).drop 13 = of_build_repair_symbol c N K L src 0)
    (hcodec : c.decode N K L (single_loss_table c N K L src j) = [x]) :
    fec_dec_recover_packets c dec =
      some { dec with recovered_packets := dec.recovered_packets ++ [x] } := by
  have hu : u32 (N + K) = N + K := by unfold u32; omega
  obtain ⟨tab1, h1, h2, h3, h4⟩ := fec_dec_tab_media_spec dec dec.media_packets
    (List.replicate (N + K) none)
    (fun mp hmp => by rw [List.length_replicate]; have := (hpos mp hmp).1; omega) hnd
  rw [List.length_replicate] at h2
  have hNu : u32 (0 + N) = N := by unfold u32; omega
  have htab : tab1.set N (some (of_build_repair_symbol c N K L src 0))
      = single_loss_table c N K L src j := by
    apply List.ext_getElem?
    intro i
    unfold single_loss_table
    rw [List.getElem?_map]
    by_cases hiN : i = N
    · subst hiN
      rw [List.getElem?_set_self (by omega), List.getElem?_range (by omega)]
      simp
    · rw [List.getElem?_set_ne (fun h => hiN h.symm)]
      by_cases hi : i ∈ dec.media_packets.map (fec_dec_position dec)
      · obtain ⟨mp, hmp, rfl⟩ := List.mem_map.mp hi
        obtain ⟨p1, p2, p3⟩ := hpos mp hmp
        rw [h3 mp hmp, List.getElem?_range (by omega)]
        simp [p1, p2, p3]
      · rw [h4 i hi]
        by_cases hlt : i < N + K
        · rw [List.getElem?_range hlt, List.getElem?_replicate]
          simp only [hlt, if_true, Option.map_some']
          by_cases hiN' : i < N
          · have hij : i = j := by
              by_contra hne
              exact hi (hall i hiN' hne)
            subst hij
            simp [hiN']
          · simp [hiN', hiN]
        · rw [List.getElem?_eq_none (by simp; omega), List.getElem?_eq_none (by simp; omega)]
          rfl
  unfold fec_dec_recover_packets
  simp only [hopen, hmax, hL, hN, hK, hu, and_self, if_true, h1, hfp, fec_dec_tab_fec, hidx,
    hNu, tab_store, h2, hsym]
  have hlt : N < N + K := by omega
  simp only [hlt, if_true, htab, hcodec, List.foldl_cons, List.foldl_nil,
    fec_dec_source_packet_cb]
  simp only [hN, hK, hmax, hopen, hfp]

theorem mem_of_getElem?_ne_dropped (pre post : List GstBuffer) (dropped mp : GstBuffer)
    (t : Nat) (ht : t ≠ pre.length) (h : (pre ++ dropped :: post)[t]? = some mp) :
    mp ∈ pre ++ post := by
  by_cases hlt : t < pre.length
  · rw [List.getElem?_append_left hlt] at h
    exact List.mem_append_left _ (List.getElem?_mem h)
  · rw [List.getElem?_append_right (by omega)] at h
    obtain ⟨k, hk⟩ : ∃ k, t - pre.length = k + 1 := ⟨t - pre.length - 1, by omega⟩
    rw [hk, List.getElem?_cons_succ] at h
    exact List.mem_append_right _ (List.getElem?_mem h)

theorem getElem?_of_mem_received (pre post : List GstBuffer) (dropped mp : GstBuffer)
    (h : mp ∈ pre ++ post) :
    ∃ t, t ≠ pre.length ∧ (pre ++ dropped :: post)[t]? = some mp := by
  rcases List.mem_append.mp h with h1 | h1
  · obtain ⟨t, ht⟩ := List.mem_iff_getElem?.mp h1
    have hlt : t < pre.length := by
      by_contra hge
      rw [List.getElem?_eq_none (by omega)] at ht
      exact absurd ht (by simp)
    exact ⟨t, by omega, by rw [List.getElem?_append_left hlt]; exact ht⟩
  · obtain ⟨t, ht⟩ := List.mem_iff_getElem?.mp h1
    refine ⟨pre.length + (t + 1), by omega, ?_⟩
    rw [List.getElem?_append_right (by omega)]
    have : pre.length + (t + 1) - pre.length = t + 1 := by omega
    rw [this, List.getElem?_cons_succ]
    exact ht

theorem fec_dec_run_media_then_fec (c : Codec) (d0 d1 : fec_dec) (ms fs : List GstBuffer)
    (h : ms.foldlM (fec_dec_push_media_packet c) d0 = some d1) :
    fec_dec_run c d0
        (ms.map fec_dec_op.push_media_packet ++ fs.map fec_dec_op.push_fec_packet)
      = fs.foldlM (fec_dec_push_fec_packet c) d1 := by
  have h1 : (ms.map fec_dec_op.push_media_packet).foldlM (fec_dec_apply c) d0
      = ms.foldlM (fec_dec_push_media_packet c) d0 := by
    rw [List.foldlM_map]; rfl
  have h2 : (fs.map fec_dec_op.push_fec_packet).foldlM (fec_dec_apply c) d1
      = fs.foldlM (fec_dec_push_fec_packet c) d1 := by
    rw [List.foldlM_map]; rfl
  rw [fec_dec_run, List.foldlM_append, h1, h]
  simp only [Option.bind_eq_bind, Option.some_bind, h2]

theorem block_seq_at (N b : Nat) (ms : List GstBuffer)
    (hseq : ms.map gst_rtp_buffer_get_seq = (List.range N).map (fun i => (b + i) % 65536))
    (t : Nat) (mp : GstBuffer) (h : ms[t]? = some mp) :
    t < N ∧ gst_rtp_buffer_get_seq mp = (b + t) % 65536 := by
  have h1 : (ms.map gst_rtp_buffer_get_seq)[t]? = some (gst_rtp_buffer_get_seq mp) := by
    rw [List.getElem?_map, h]; rfl
  rw [hseq, List.getElem?_map] at h1
  by_cases ht : t < N
  · rw [List.getElem?_range ht] at h1
    simp only [Option.map_some', Option.some.injEq] at h1
    exact ⟨ht, h1.symm⟩
  · rw [List.getElem?_eq_none (by simp; omega)] at h1
    simp at h1

theorem fec_dec_check_state_single_loss (c : Codec) (dec : fec_dec) (f0 : GstBuffer)
    (N K L j : Nat) (src : List (List Nat)) (x : List Nat)
    (hopen : dec.has_snbase = true) (hmax : dec.max_packet_size = L) (hL : 0 < L)
    (hN : dec.num_media_packets = N) (hK : dec.num_fec_packets = K)
    (hfp : dec.fec_packets = [f0]) (hNK : N + K < 4294967296) (hK1 : 1 ≤ K)
    (hsrc : src.length = N)
    (hpos : ∀ mp ∈ dec.media_packets, fec_dec_position dec mp < N ∧
      fec_dec_position dec mp ≠ j ∧
      src[fec_dec_position dec mp]? = some (GST_BUFFER_DATA mp))
    (hall : ∀ t, t < N → t ≠ j → t ∈ dec.media_packets.map (fec_dec_position dec))
    (hnd : (dec.media_packets.map (fec_dec_position dec)).Nodup)
    (hidx : byte_at (fec_data_of f0) 12 = 0)
    (hsym : (fec_data_of f0).drop 13 = of_build_repair_symbol c N K L src 0)
    (hcodec : c.decode N K L (single_loss_table c N K L src j) = [x])
    (hj : j < N) (hmask : dec.received_media_packet_mask.testBit j = false)
    (hcnt : dec.num_received_media_packets + 1 = N) (hN2 : 2 ≤ N)
    (hfec : dec.num_received_fec_packets = 1) :
    fec_dec_check_state c dec =
      some (fec_dec_cleanup { dec with recovered_packets := dec.recovered_packets ++ [x] }) := by
  have hnot : fec_dec_all_media_packets_present dec = false := by
    simp only [fec_dec_all_media_packets_present, decide_eq_false_iff_not, hN]
    intro heq
    rw [heq, shl1, Nat.one_shiftLeft, Nat.testBit_two_pow_sub_one] at hmask
    simp [hj] at hmask
  have hcan : fec_dec_can_recover_packets dec = true := by
    simp only [fec_dec_can_recover_packets, hfec, hN, hcnt, u32, Bool.and_eq_true,
      decide_eq_true_eq]
    omega
  rw [fec_dec_check_state, hnot, hcan,
    fec_dec_recover_single_loss c dec f0 N K L j src x hopen hmax hL hN hK hfp hNK hK1 hsrc
      hpos hall hnd hidx hsym hcodec]
  simp

theorem fec_dec_first_repair_recovers (c : Codec) (N K L snbase : Nat)
    (pre post recv : List GstBuffer) (dropped f0 : GstBuffer)
    (hperm : List.Perm recv (pre ++ post))
    (hN2 : 2 ≤ N) (hN24 : N ≤ 24) (hK1 : 1 ≤ K) (hK24 : K ≤ 24)
    (hb0 : snbase ≠ 0) (hb : snbase < 65536)
    (hseq : (pre ++ dropped :: post).map gst_rtp_buffer_get_seq
      = (List.range N).map (fun i => (snbase + i) % 65536))
    (hL : 0 < L) (hsize : ∀ m ∈ pre ++ dropped :: post, GST_BUFFER_SIZE m = L)
    (hf : fec_packet_snbase f0 = snbase)
    (hidx : byte_at (fec_data_of f0) 12 = 0)
    (hsym : (fec_data_of f0).drop 13
      = of_build_repair_symbol c N K L ((pre ++ dropped :: post).map GST_BUFFER_DATA) 0)
    (hcodec : c.decode N K L
        (single_loss_table c N K L ((pre ++ dropped :: post).map GST_BUFFER_DATA) pre.length)
      = [GST_BUFFER_DATA dropped]) :
    fec_dec_push_fec_packet c (fec_dec_with_media N K recv) f0 =
      some { fec_dec_cleanup (fec_dec_with_media N K recv) with
        cur_snbase := snbase
        blacklisted_snbase := snbase
        recovered_packets := [GST_BUFFER_DATA dropped] } := by
  have hlen : (pre ++ dropped :: post).length = N := by
    have := congrArg List.length hseq
    simpa using this
  have hrlen : recv.length + 1 = N := by
    rw [← hlen, hperm.length_eq]; simp; omega
  -- every received packet sits at its own index of the block, which is not the dropped one
  have hrecv : ∀ mp ∈ recv, ∃ t, t < N ∧ t ≠ pre.length ∧
      gst_rtp_buffer_get_seq mp = (snbase + t) % 65536 ∧
      ((pre ++ dropped :: post).map GST_BUFFER_DATA)[t]? = some (GST_BUFFER_DATA mp) := by
    intro mp hmp
    obtain ⟨t, ht, hget⟩ := getElem?_of_mem_received pre post dropped mp (hperm.mem_iff.mp hmp)
    obtain ⟨h1, h2⟩ := block_seq_at N snbase _ hseq t mp hget
    exact ⟨t, h1, ht, h2, by rw [List.getElem?_map, hget]; rfl⟩
  -- positions in any decoder whose window is `[snbase, snbase + N)`
  have hposd : ∀ d : fec_dec, d.cur_snbase = snbase → d.num_media_packets = N →
      ∀ mp ∈ recv, fec_dec_position d mp < N ∧ fec_dec_position d mp ≠ pre.length ∧
        ((pre ++ dropped :: post).map GST_BUFFER_DATA)[fec_dec_position d mp]?
          = some (GST_BUFFER_DATA mp) ∧
        fec_dec_in_window d snbase mp = true := by
    intro d hd1 hd2 mp hmp
    obtain ⟨t, h1, h2, h3, h4⟩ := hrecv mp hmp
    obtain ⟨p1, p2⟩ := fec_dec_window_position d snbase t mp hd1 hb (by omega) (by omega) h3
    rw [p1]
    exact ⟨h1, h2, h4, p2⟩
  have hall : ∀ d : fec_dec, d.cur_snbase = snbase → d.num_media_packets = N →
      ∀ t, t < N → t ≠ pre.length → t ∈ recv.map (fec_dec_position d) := by
    intro d hd1 hd2 t ht hne
    obtain ⟨mp, hmp⟩ : ∃ mp, (pre ++ dropped :: post)[t]? = some mp := by
      rw [List.getElem?_eq_getElem (by omega)]; exact ⟨_, rfl⟩
    have hmem := hperm.mem_iff.mpr (mem_of_getElem?_ne_dropped pre post dropped mp t hne hmp)
    obtain ⟨_, h2⟩ := block_seq_at N snbase _ hseq t mp hmp
    exact List.mem_map.mpr ⟨mp, hmem,
      (fec_dec_window_position d snbase t mp hd1 hb (by omega) (by omega) h2).1⟩
  have hsnd : (recv.map gst_rtp_buffer_get_seq).Nodup := by
    have h1 : ((pre ++ dropped :: post).map gst_rtp_buffer_get_seq).Nodup := by
      rw [hseq]; exact window_seqs_nodup N snbase (by omega)
    exact (hperm.map _).nodup_iff.mpr
      (h1.sublist (((List.sublist_cons_self dropped post).append_left pre).map _))
  have hnd : ∀ d : fec_dec, d.cur_snbase = snbase → d.num_media_packets = N →
      (recv.map (fec_dec_position d)).Nodup := by
    intro d hd1 hd2
    have hmm : recv.map (fec_dec_position d) =
        (recv.map gst_rtp_buffer_get_seq).map
          (fun s => u32_sub (fec_dec_correct_seqnum d s) d.cur_snbase) := by
      rw [List.map_map]; rfl
    rw [hmm]
    apply hsnd.map_on
    intro s1 hs1 s2 hs2 heq
    obtain ⟨m1, hm1, rfl⟩ := List.mem_map.mp hs1
    obtain ⟨m2, hm2, rfl⟩ := List.mem_map.mp hs2
    obtain ⟨t1, a1, _, a3, _⟩ := hrecv m1 hm1
    obtain ⟨t2, b1, _, b3, _⟩ := hrecv m2 hm2
    have e1 := (fec_dec_window_position d snbase t1 m1 hd1 hb (by omega) (by omega) a3).1
    have e2 := (fec_dec_window_position d snbase t2 m2 hd1 hb (by omega) (by omega) b3).1
    have : t1 = t2 := by
      rw [← e1, ← e2]; exact heq
    rw [a3, b3, this]
  rw [fec_dec_push_fec_new_window c (fec_dec_with_media N K recv) f0 snbase hf
    (fun h => hb0 h.symm) (by simp [fec_dec_with_media, fec_dec_create])
    (fun h => hb0 h.symm)
    (fun mp hmp => (hposd _ rfl rfl mp hmp).2.2.2)]
  have hcount : recv.foldl (fun n _ => u32 (n + 1)) 0 = recv.length := by
    rw [count_fold _ 0 (by omega)]; omega
  have hmaxr : recv.foldl (fun m mp => MAX m (GST_BUFFER_SIZE mp)) 0 = L := by
    apply max_fold_const _ L 0 _ (by omega)
    · intro m hm
      obtain ⟨t, _, hget⟩ := getElem?_of_mem_received pre post dropped m (hperm.mem_iff.mp hm)
      exact hsize m (List.getElem?_mem hget)
    · intro h
      rw [h] at hrlen
      simp at hrlen
      omega
  have hmaskj : (recv.foldl (fun m mp => u32 (m ||| shl1
      (fec_dec_position { fec_dec_with_media N K recv with cur_snbase := snbase } mp)))
      0).testBit pre.length = false := by
    rw [← List.foldl_map (fec_dec_position
      { fec_dec_with_media N K recv with cur_snbase := snbase })
      (fun m d => u32 (m ||| shl1 d)) recv 0]
    rw [mask_fold_testBit _ 0 (by decide)]
    · simp only [Nat.zero_testBit, Bool.false_or, decide_eq_false_iff_not, List.mem_map,
        not_exists, not_and]
      intro mp hmp heq
      exact (hposd _ rfl rfl mp hmp).2.1 heq
    · intro d hd
      obtain ⟨mp, hmp, rfl⟩ := List.mem_map.mp hd
      have := (hposd { fec_dec_with_media N K recv with cur_snbase := snbase }
        rfl rfl mp hmp).1
      omega
  rw [fec_dec_check_state_single_loss c _ f0 N K L pre.length
    ((pre ++ dropped :: post).map GST_BUFFER_DATA) (GST_BUFFER_DATA dropped)
    rfl hmaxr hL rfl rfl rfl (by omega) hK1 (by simpa using hlen)
    (fun mp hmp => ⟨(hposd _ rfl rfl mp hmp).1, (hposd _ rfl rfl mp hmp).2.1,
      (hposd _ rfl rfl mp hmp).2.2.1⟩)
    (hall _ rfl rfl) (hnd _ rfl rfl) hidx hsym hcodec
    (by rw [← hlen]; simp) hmaskj (by
      show recv.foldl (fun n _ => u32 (n + 1)) 0 + 1 = N
      rw [hcount]; exact hrlen) hN2 rfl]
  simp [fec_dec_cleanup, fec_dec_with_media, fec_dec_create]

/-- C1, amended. A block of `N` media packets (`2 ≤ N ≤ 24`) of one non-zero size `L`
with consecutive sequence numbers starting at `snbase ≠ 0` is pushed into a fresh
encoder (`1 ≤ K ≤ 24`); one packet, `dropped`, is left out and the others, in any order
`recv`, then the `K` repair packets in creation order, are pushed into a fresh decoder.
Provided the erasure coding engine rebuilds the missing source symbol from the symbol
table that holds the other `N - 1` source symbols and repair symbol `0`, every push
returns, the recovered queue then holds exactly one packet, whose bytes are those of
`dropped`; one pop returns it and leaves the queue empty. -/
theorem fec_single_loss_round_trip (c : Codec) (N K pt off snbase L : Nat)
    (pre post recv : List GstBuffer) (dropped : GstBuffer)
    (hperm : List.Perm recv (pre ++ post))
    (hN2 : 2 ≤ N) (hN24 : N ≤ 24) (hK1 : 1 ≤ K) (hK24 : K ≤ 24)
    (hb0 : snbase ≠ 0) (hb : snbase < 65536)
    (hseq : (pre ++ dropped :: post).map gst_rtp_buffer_get_seq
      = (List.range N).map (fun i => (snbase + i) % 65536))
    (hL : 0 < L) (hsize : ∀ m ∈ pre ++ dropped :: post, GST_BUFFER_SIZE m = L)
    (hcodec : c.decode N K L
        (single_loss_table c N K L ((pre ++ dropped :: post).map GST_BUFFER_DATA) pre.length)
      = [GST_BUFFER_DATA dropped]) :
    ∃ enc dec,
      (pre ++ dropped :: post).foldlM (fec_enc_push_media_packet c) (fec_enc_create N K pt off)
        = some enc ∧
      enc.fec_packets.length = K ∧
      fec_dec_run c (fec_dec_create N K)
          (recv.map fec_dec_op.push_media_packet
            ++ enc.fec_packets.map fec_dec_op.push_fec_packet)
        = some dec ∧
      dec.recovered_packets = [GST_BUFFER_DATA dropped] ∧
      (fec_dec_pop_recovered_packet dec).1 = some (GST_BUFFER_DATA dropped) ∧
      fec_dec_has_recovered_packets (fec_dec_pop_recovered_packet dec).2 = false := by
  have hlen : (pre ++ dropped :: post).length = N := by
    have := congrArg List.length hseq
    simpa using this
  have hne : pre ++ dropped :: post ≠ [] := by simp
  obtain ⟨first, rest, hms⟩ : ∃ first rest, pre ++ dropped :: post = first :: rest := by
    cases pre with
    | nil => exact ⟨dropped, post, rfl⟩
    | cons p pre' => exact ⟨p, pre' ++ dropped :: post, rfl⟩
  have hfseq : gst_rtp_buffer_get_seq first = snbase := by
    have h0 := (block_seq_at N snbase _ hseq 0 first (by rw [hms]; simp)).2
    rw [h0]; simp only [Nat.add_zero]; omega
  have henc := fec_enc_push_block c N K pt off first rest (by omega) (by rw [← hms]; exact hlen)
  rw [← hms, max_fold_const _ L 0 hne (Nat.zero_le _) hsize, hfseq] at henc
  obtain ⟨K', rfl⟩ : ∃ K', K = K' + 1 := ⟨K - 1, by omega⟩
  have hsn : ∀ f ∈ fec_enc_block_packets c N (K' + 1) L pt off (gst_rtp_buffer_get_ssrc first)
      (gst_rtp_buffer_get_timestamp first) snbase (u32 (shl1 N - 1))
      ((pre ++ dropped :: post).map GST_BUFFER_DATA) 0 (K' + 1),
      fec_packet_snbase f = snbase := by
    intro f hf
    simp only [fec_enc_block_packets, List.mem_map] at hf
    obtain ⟨k, _, rfl⟩ := hf
    rw [new_fec_packet_snbase]; omega
  have hsplit : fec_enc_block_packets c N (K' + 1) L pt off (gst_rtp_buffer_get_ssrc first)
      (gst_rtp_buffer_get_timestamp first) snbase (u32 (shl1 N - 1))
      ((pre ++ dropped :: post).map GST_BUFFER_DATA) 0 (K' + 1) =
      fec_enc_new_fec_packet c N (K' + 1) L pt off (gst_rtp_buffer_get_ssrc first)
        (gst_rtp_buffer_get_timestamp first) snbase (u32 (shl1 N - 1))
        ((pre ++ dropped :: post).map GST_BUFFER_DATA) 0 ::
      (fec_enc_block_packets c N (K' + 1) L pt off (gst_rtp_buffer_get_ssrc first)
        (gst_rtp_buffer_get_timestamp first) snbase (u32 (shl1 N - 1))
        ((pre ++ dropped :: post).map GST_BUFFER_DATA) 0 (K' + 1)).tail := by
    simp [fec_enc_block_packets, List.range_succ_eq_map, seq_after]
  have hsnd : (recv.map gst_rtp_buffer_get_seq).Nodup := by
    have h1 : ((pre ++ dropped :: post).map gst_rtp_buffer_get_seq).Nodup := by
      rw [hseq]; exact window_seqs_nodup N snbase (by omega)
    exact (hperm.map _).nodup_iff.mpr
      (h1.sublist (((List.sublist_cons_self dropped post).append_left pre).map _))
  have hrlen : recv.length + 1 = N := by
    rw [← hlen, hperm.length_eq]; simp; omega
  have hmedia : recv.foldlM (fec_dec_push_media_packet c) (fec_dec_create N (K' + 1)) =
      some (fec_dec_with_media N (K' + 1) recv) := by
    rw [fec_dec_push_media_unbound c recv (fec_dec_create N (K' + 1)) rfl hsnd
      (by simp [fec_dec_create]) (by simp only [fec_dec_create]; omega)
      (by simp only [fec_dec_create]; omega)]
    simp [fec_dec_create, fec_dec_with_media]
  refine ⟨_, { fec_dec_cleanup (fec_dec_with_media N (K' + 1) recv) with
        cur_snbase := snbase
        blacklisted_snbase := snbase
        recovered_packets := [GST_BUFFER_DATA dropped] }, henc, ?_, ?_, rfl, rfl, rfl⟩
  · simp [fec_enc_block_packets_length]
  · rw [fec_dec_run_media_then_fec c _ _ _ _ hmedia]
    simp only []
    rw [hsplit, List.foldlM_cons,
      fec_dec_first_repair_recovers c N (K' + 1) L snbase pre post recv dropped _ hperm
        hN2 hN24 hK1 hK24
        hb0 hb hseq hL hsize (hsn _ (by rw [hsplit]; exact List.mem_cons_self _ _))
        (by rw [← fec_packet_index, new_fec_packet_index])
        (by rw [new_fec_packet_fec_data, List.drop_left' (fec_header_length _ _ _ _ _ _)])
        hcodec]
    simp only [Option.bind_eq_bind, Option.some_bind]
    apply fec_dec_push_fec_blacklisted
    intro f hf
    exact hsn f (List.mem_of_mem_tail hf)

/-- C1, amended, witness: `N = 9`, `K = 3`, sequence numbers `1000 .. 1008`, packet
`1008` dropped, the others pushed in block order, with the parity engine. -/
theorem fec_single_loss_round_trip_witness :
    ∃ enc dec,
      (block_1000 ++ packet_1008 :: []).foldlM (fec_enc_push_media_packet xor_codec)
          (fec_enc_create 9 3 99 500)
        = some enc ∧
      enc.fec_packets.length = 3 ∧
      fec_dec_run xor_codec (fec_dec_create 9 3)
          (block_1000.map fec_dec_op.push_media_packet
            ++ enc.fec_packets.map fec_dec_op.push_fec_packet)
        = some dec ∧
      dec.recovered_packets = [GST_BUFFER_DATA packet_1008] ∧
      (fec_dec_pop_recovered_packet dec).1 = some (GST_BUFFER_DATA packet_1008) ∧
      fec_dec_has_recovered_packets (fec_dec_pop_recovered_packet dec).2 = false :=
  fec_single_loss_round_trip xor_codec 9 3 99 500 1000 14 block_1000 [] block_1000 packet_1008
    (by decide) (by decide) (by decide) (by decide) (by decide) (by decide) (by decide) (by decide)
    (by decide) (by decide) (by decide)

/-- C1, counterexample. With the parity engine, which rebuilds the missing symbol from
the symbol table in both cases: (a) `N = 1`, `K = 1`, the one media packet `1008` is
dropped and the repair packet is pushed: the recovered queue stays empty; (b) `N = 2`,
`K = 1`, block `0, 1`, packet `1` is dropped, packet `0` and the repair packet are
pushed: the recovered queue stays empty. -/
theorem fec_single_loss_not_recovered :
    (single_loss_scenario xor_codec 1 1 99 500 [] [] packet_1008 = some [] ∧
      xor_codec.decode 1 1 14
          (single_loss_table xor_codec 1 1 14 ([packet_1008].map GST_BUFFER_DATA) 0)
        = [GST_BUFFER_DATA packet_1008]) ∧
    (single_loss_scenario xor_codec 2 1 99 500 [media_packet 0 [1, 2]] []
        (media_packet 1 [3, 4]) = some [] ∧
      xor_codec.decode 2 1 14
          (single_loss_table xor_codec 2 1 14
            ([media_packet 0 [1, 2], media_packet 1 [3, 4]].map GST_BUFFER_DATA) 1)
        = [GST_BUFFER_DATA (media_packet 1 [3, 4])]) := by
  decide

theorem fec_dec_push_fec_accepted (c : Codec) (dec : fec_dec) (packet : GstBuffer)
    (hbl : fec_packet_snbase packet ≠ dec.blacklisted_snbase)
    (hdup : gst_rtp_buffer_get_seq packet ∉ dec.fec_packet_set) :
    fec_dec_push_fec_packet c dec packet =
      fec_dec_check_state c (fec_dec_fec_before_check dec packet) := by
  simp only [fec_dec_push_fec_packet, hbl, if_false, g_hash_table_lookup_extended, hdup,
    decide_False, Bool.false_eq_true, fec_dec_fec_before_check, fec_dec_fec_before_rescan]

theorem fec_dec_push_media_checked (c : Codec) (dec : fec_dec) (packet : GstBuffer)
    (hdup : gst_rtp_buffer_get_seq packet ∉ dec.media_packet_set)
    (hin : fec_dec_media_checked dec packet = true) :
    fec_dec_push_media_packet c dec packet =
      (fec_dec_check_state c (fec_dec_media_before_check dec packet)).map
        (fec_dec_overflow packet) := by
  simp only [fec_dec_media_checked, Bool.and_eq_true, Bool.not_eq_true', decide_eq_false_iff_not,
    decide_eq_true_eq] at hin
  obtain ⟨⟨⟨h1, h2⟩, h3⟩, h4⟩ := hin
  simp only [fec_dec_push_media_packet, g_hash_table_lookup_extended, hdup, decide_False,
    Bool.false_eq_true, if_false, h1, if_true, h2, h3, h4, and_self,
    fec_dec_media_before_check]
  cases fec_dec_check_state c _ <;> rfl

/-- C11. Blacklist rejection: a repair packet whose SN base is the blacklisted one is
dropped by `fec_dec_push_fec_packet`, which returns with the decoder unchanged in every
field. -/
theorem fec_dec_blacklist_rejection (c : Codec) (dec : fec_dec) (packet : GstBuffer)
    (h : fec_packet_snbase packet = dec.blacklisted_snbase) :
    fec_dec_push_fec_packet c dec packet = some dec := by
  simp [fec_dec_push_fec_packet, h]

/-- Witness for C11: a repair packet with SN base `10` pushed into a decoder that has
resolved the window `[10, 14)`. -/
theorem fec_dec_blacklist_rejection_witness :
    fec_packet_snbase (repair_packet 101 10 1) = resolved_window.blacklisted_snbase ∧
    fec_dec_push_fec_packet xor_codec resolved_window (repair_packet 101 10 1)
      = some resolved_window :=
  ⟨by decide, fec_dec_blacklist_rejection xor_codec resolved_window (repair_packet 101 10 1)
    (by decide)⟩

/-- C12. A decoder that `fec_dec_create` has just returned drops a repair packet whose
SN base is `0`: the push returns with the decoder as it was, without a window and with
an empty repair queue. -/
theorem fec_dec_fresh_drops_snbase_zero :
    fec_packet_snbase (repair_packet 100 0 0) = 0 ∧
    fec_dec_push_fec_packet xor_codec (fec_dec_create 4 2) (repair_packet 100 0 0)
      = some (fec_dec_create 4 2) ∧
    (fec_dec_create 4 2).has_snbase = false ∧ (fec_dec_create 4 2).fec_packets = [] ∧
    (fec_dec_create 4 2).num_received_fec_packets = 0 := by
  refine ⟨by decide, ?_, rfl, rfl, rfl⟩
  simp only [fec_dec_push_fec_packet]
  rw [if_pos (by decide)]

theorem fec_dec_fresh_push_fec_nonzero (c : Codec) (N K : Nat) (packet : GstBuffer)
    (hN : 1 ≤ N) (hb : fec_packet_snbase packet ≠ 0) :
    fec_dec_push_fec_packet c (fec_dec_create N K) packet =
      some { fec_dec_create N K with
        cur_snbase := fec_packet_snbase packet
        has_snbase := true
        fec_packets := [packet]
        fec_packet_set := [gst_rtp_buffer_get_seq packet]
        num_received_fec_packets := 1 } := by
  have h2 : (1 : Nat) < 2 ^ N := Nat.one_lt_two_pow (by omega)
  have hb' : ¬ (0 = fec_packet_snbase packet) := fun h => hb h.symm
  simp [fec_dec_push_fec_packet, fec_dec_create, hb, hb', g_hash_table_lookup_extended,
    fec_dec_rescan, fec_dec_check_state, fec_dec_all_media_packets_present,
    fec_dec_can_recover_packets, custom_hash_table_add, u32, shl1, Nat.one_shiftLeft]
  omega

theorem fec_dec_rescan_aux (snbase : Nat) (p : GstBuffer → Bool) (pos : GstBuffer → Nat)
    (l pre : List GstBuffer) (dec : fec_dec) (hmp : dec.media_packets = pre ++ l)
    (hp : p = fec_dec_in_window dec snbase) (hpos : pos = fec_dec_position dec) :
    fec_dec_rescan snbase l pre.length dec =
      { dec with
        media_packets := pre ++ l.filter p
        media_packet_set :=
          (l.filter (fun mp => !p mp)).foldl
            (fun s mp => g_hash_table_remove s (gst_rtp_buffer_get_seq mp)) dec.media_packet_set
        max_packet_size :=
          (l.filter p).foldl (fun m mp => MAX m (GST_BUFFER_SIZE mp)) dec.max_packet_size
        received_media_packet_mask :=
          (l.filter p).foldl (fun m mp => u32 (m ||| shl1 (pos mp)))
            dec.received_media_packet_mask
        num_received_media_packets :=
          (l.filter p).foldl (fun n _ => u32 (n + 1)) dec.num_received_media_packets } := by
  induction l generalizing pre dec with
  | nil => simp [fec_dec_rescan, ← hmp]
  | cons mp rest ih =>
    rw [fec_dec_rescan]
    by_cases hk : p mp = true
    · have hk' := hk
      rw [hp] at hk'
      simp only [fec_dec_in_window, Bool.not_eq_true', Bool.or_eq_false_iff,
        decide_eq_false_iff_not] at hk'
      simp only [hk'.1, hk'.2, or_self, if_false]
      have hlen : pre.length + 1 = (pre ++ [mp]).length := by simp
      have key : ∀ d : fec_dec, d.media_packets = (pre ++ [mp]) ++ rest →
          d.cur_snbase = dec.cur_snbase → d.num_media_packets = dec.num_media_packets →
          fec_dec_rescan snbase rest (pre ++ [mp]).length d = _ := fun d h1 h2 h3 =>
        ih (pre ++ [mp]) d h1
          (hp.trans (funext fun x => (fec_dec_in_window_congr d dec h2 h3 snbase x).symm))
          (hpos.trans (funext fun x => (fec_dec_position_congr d dec h2 h3 x).symm))
      rw [hlen, key]
      · simp [List.filter_cons, hk, hpos, fec_dec_position]
      · simp [hmp]
      · rfl
      · rfl
    · have hkf : p mp = false := by simpa using hk
      have hk' := hkf
      rw [hp] at hk'
      simp only [fec_dec_in_window, Bool.not_eq_false', Bool.or_eq_true,
        decide_eq_true_eq] at hk'
      rw [if_pos hk']
      have key : ∀ d : fec_dec, d.media_packets = pre ++ rest →
          d.cur_snbase = dec.cur_snbase → d.num_media_packets = dec.num_media_packets →
          fec_dec_rescan snbase rest pre.length d = _ := fun d h1 h2 h3 =>
        ih pre d h1
          (hp.trans (funext fun x => (fec_dec_in_window_congr d dec h2 h3 snbase x).symm))
          (hpos.trans (funext fun x => (fec_dec_position_congr d dec h2 h3 x).symm))
      rw [key]
      · simp [List.filter_cons, hkf]
      · simp [hmp, List.eraseIdx_append_of_length_le]
      · rfl
      · rfl

theorem fec_dec_rescan_eq (snbase : Nat) (dec : fec_dec) :
    fec_dec_rescan snbase dec.media_packets 0 dec =
      { dec with
        media_packets := dec.media_packets.filter (fec_dec_in_window dec snbase)
        media_packet_set :=
          (dec.media_packets.filter (fun mp => !fec_dec_in_window dec snbase mp)).foldl
            (fun s mp => g_hash_table_remove s (gst_rtp_buffer_get_seq mp)) dec.media_packet_set
        max_packet_size :=
          (dec.media_packets.filter (fec_dec_in_window dec snbase)).foldl
            (fun m mp => MAX m (GST_BUFFER_SIZE mp)) dec.max_packet_size
        received_media_packet_mask :=
          (dec.media_packets.filter (fec_dec_in_window dec snbase)).foldl
            (fun m mp => u32 (m ||| shl1 (fec_dec_position dec mp)))
            dec.received_media_packet_mask
        num_received_media_packets :=
          (dec.media_packets.filter (fec_dec_in_window dec snbase)).foldl
            (fun n _ => u32 (n + 1)) dec.num_received_media_packets } := by
  have h := fec_dec_rescan_aux snbase (fec_dec_in_window dec snbase) (fec_dec_position dec)
    dec.media_packets [] dec rfl rfl rfl
  simpa using h

theorem fec_dec_fec_before_check_eq (dec : fec_dec) (packet : GstBuffer) :
    fec_dec_fec_before_check dec packet =
      { fec_dec_fec_before_rescan dec packet with
        media_packets := dec.media_packets.filter
          (fec_dec_in_window (fec_dec_fec_before_rescan dec packet) (fec_packet_snbase packet))
        media_packet_set :=
          (dec.media_packets.filter (fun mp =>
            !fec_dec_in_window (fec_dec_fec_before_rescan dec packet)
              (fec_packet_snbase packet) mp)).foldl
            (fun s mp => g_hash_table_remove s (gst_rtp_buffer_get_seq mp)) dec.media_packet_set
        max_packet_size :=
          (dec.media_packets.filter
            (fec_dec_in_window (fec_dec_fec_before_rescan dec packet)
              (fec_packet_snbase packet))).foldl
            (fun m mp => MAX m (GST_BUFFER_SIZE mp)) 0
        received_media_packet_mask :=
          (dec.media_packets.filter
            (fec_dec_in_window (fec_dec_fec_before_rescan dec packet)
              (fec_packet_snbase packet))).foldl
            (fun m mp => u32 (m ||| shl1 (fec_dec_position (fec_dec_fec_before_rescan dec packet) mp)))
            0
        num_received_media_packets :=
          (dec.media_packets.filter
            (fec_dec_in_window (fec_dec_fec_before_rescan dec packet)
              (fec_packet_snbase packet))).foldl
            (fun n _ => u32 (n + 1)) 0 } := by
  have hm : (fec_dec_fec_before_rescan dec packet).media_packets = dec.media_packets := by
    simp only [fec_dec_fec_before_rescan]; split_ifs <;> rfl
  have hs : (fec_dec_fec_before_rescan dec packet).media_packet_set = dec.media_packet_set := by
    simp only [fec_dec_fec_before_rescan]; split_ifs <;> rfl
  have h0 : (fec_dec_fec_before_rescan dec packet).max_packet_size = 0 := rfl
  have h1 : (fec_dec_fec_before_rescan dec packet).received_media_packet_mask = 0 := rfl
  have h2 : (fec_dec_fec_before_rescan dec packet).num_received_media_packets = 0 := rfl
  rw [fec_dec_fec_before_check, fec_dec_rescan_eq, hm, hs, h0, h1, h2]

/-- C13. New-window adoption: a repair packet that passes the blacklist test and the
duplicate test reaches the completion check in the state `fec_dec_fec_before_check`.
If its SN base differs from the current one, that state holds the packet alone in the
repair queue and its key alone in the repair key set, with received-repair count `1`; if
the SN base is the current one, the packet is appended to the repair queue and the
count is one more than before (the count being below the guint maximum). In both cases
the current snbase is the SN base of the packet and the window is bound. -/
theorem fec_dec_new_window_adoption (c : Codec) (dec : fec_dec) (packet : GstBuffer)
    (hbl : fec_packet_snbase packet ≠ dec.blacklisted_snbase)
    (hdup : gst_rtp_buffer_get_seq packet ∉ dec.fec_packet_set)
    (hcnt : dec.num_received_fec_packets + 1 < 4294967296) :
    fec_dec_push_fec_packet c dec packet
      = fec_dec_check_state c (fec_dec_fec_before_check dec packet) ∧
    (fec_packet_snbase packet ≠ dec.cur_snbase →
      (fec_dec_fec_before_check dec packet).fec_packets = [packet] ∧
      (fec_dec_fec_before_check dec packet).fec_packet_set = [gst_rtp_buffer_get_seq packet] ∧
      (fec_dec_fec_before_check dec packet).num_received_fec_packets = 1 ∧
      (fec_dec_fec_before_check dec packet).cur_snbase = fec_packet_snbase packet ∧
      (fec_dec_fec_before_check dec packet).has_snbase = true) ∧
    (fec_packet_snbase packet = dec.cur_snbase →
      (fec_dec_fec_before_check dec packet).fec_packets = dec.fec_packets ++ [packet] ∧
      (fec_dec_fec_before_check dec packet).fec_packet_set
        = dec.fec_packet_set ++ [gst_rtp_buffer_get_seq packet] ∧
      (fec_dec_fec_before_check dec packet).num_received_fec_packets
        = dec.num_received_fec_packets + 1 ∧
      (fec_dec_fec_before_check dec packet).cur_snbase = fec_packet_snbase packet ∧
      (fec_dec_fec_before_check dec packet).has_snbase = true) := by
  refine ⟨fec_dec_push_fec_accepted c dec packet hbl hdup, ?_, ?_⟩
  · intro hne
    have hne' : dec.cur_snbase ≠ fec_packet_snbase packet := fun h => hne h.symm
    rw [fec_dec_fec_before_check_eq]
    simp [fec_dec_fec_before_rescan, hne', custom_hash_table_add, u32]
  · intro heq
    rw [fec_dec_fec_before_check_eq]
    have hu : u32 (dec.num_received_fec_packets + 1) = dec.num_received_fec_packets + 1 :=
      Nat.mod_eq_of_lt hcnt
    simp [fec_dec_fec_before_rescan, heq, custom_hash_table_add, hdup, hu]

/-- Witness for C13: into the window `[10, 14)` with one repair packet, a repair packet
with SN base `20` and a repair packet with SN base `10`. -/
theorem fec_dec_new_window_adoption_witness :
    ((fec_dec_fec_before_check open_window (repair_packet 102 20 0)).fec_packets
        = [repair_packet 102 20 0] ∧
      (fec_dec_fec_before_check open_window (repair_packet 102 20 0)).fec_packet_set = [102] ∧
      (fec_dec_fec_before_check open_window (repair_packet 102 20 0)).num_received_fec_packets
        = 1 ∧
      (fec_dec_fec_before_check open_window (repair_packet 102 20 0)).cur_snbase = 20 ∧
      (fec_dec_fec_before_check open_window (repair_packet 102 20 0)).has_snbase = true) ∧
    ((fec_dec_fec_before_check open_window (repair_packet 101 10 1)).fec_packets
        = [repair_packet 100 10 0, repair_packet 101 10 1] ∧
      (fec_dec_fec_before_check open_window (repair_packet 101 10 1)).fec_packet_set
        = [100, 101] ∧
      (fec_dec_fec_before_check open_window (repair_packet 101 10 1)).num_received_fec_packets
        = 2 ∧
      (fec_dec_fec_before_check open_window (repair_packet 101 10 1)).cur_snbase = 10 ∧
      (fec_dec_fec_before_check open_window (repair_packet 101 10 1)).has_snbase = true) :=
  ⟨(fec_dec_new_window_adoption xor_codec open_window (repair_packet 102 20 0)
      (by decide) (by decide) (by decide)).2.1 (by decide),
   (fec_dec_new_window_adoption xor_codec open_window (repair_packet 101 10 1)
      (by decide) (by decide) (by decide)).2.2 (by decide)⟩

theorem fec_packet_snbase_lt (packet : GstBuffer) : fec_packet_snbase packet < 65536 := by
  unfold fec_packet_snbase byte_at
  have h1 : (fec_data_of packet).getD 0 0 % 256 < 2 ^ 8 := Nat.mod_lt _ (by decide)
  have h2 : (fec_data_of packet).getD 1 0 % 256 < 2 ^ 8 := Nat.mod_lt _ (by decide)
  have h3 : ((fec_data_of packet).getD 0 0 % 256) <<< 8 < 2 ^ 16 := by
    rw [Nat.shiftLeft_eq]; omega
  have h4 : ((fec_data_of packet).getD 1 0 % 256) <<< 0 < 2 ^ 16 := by
    rw [Nat.shiftLeft_eq]; omega
  exact Nat.or_lt_two_pow h3 h4

theorem remove_fold_mem (l : List GstBuffer) (set : List Nat) (k : Nat) :
    k ∈ l.foldl (fun s mp => g_hash_table_remove s (gst_rtp_buffer_get_seq mp)) set ↔
      k ∈ set ∧ ∀ mp ∈ l, gst_rtp_buffer_get_seq mp ≠ k := by
  induction l generalizing set with
  | nil => simp
  | cons a l ih =>
    rw [List.foldl_cons, ih]
    simp only [g_hash_table_remove, List.mem_filter, decide_eq_true_eq, List.mem_cons,
      forall_eq_or_imp]
    constructor
    · rintro ⟨⟨h1, h2⟩, h3⟩
      exact ⟨h1, fun h => h2 h.symm, h3⟩
    · rintro ⟨h1, h2, h3⟩
      exact ⟨⟨h1, fun h => h2 h.symm⟩, h3⟩

theorem mask_fold_no_wrap (l : List Nat) (m0 : Nat) (hm : m0 < 4294967296)
    (hl : ∀ d ∈ l, d < 32) :
    l.foldl (fun m d => u32 (m ||| shl1 d)) m0 = l.foldl (fun m d => m ||| 1 <<< d) m0 ∧
    l.foldl (fun m d => m ||| 1 <<< d) m0 < 4294967296 := by
  induction l generalizing m0 with
  | nil => exact ⟨rfl, hm⟩
  | cons d rest ih =>
    have hd : d < 32 := hl d (List.mem_cons_self _ _)
    have h1 : (1 : Nat) <<< d < 2 ^ 32 := by
      rw [Nat.one_shiftLeft]; exact Nat.pow_lt_pow_right (by decide) hd
    have h2 : m0 ||| 1 <<< d < 2 ^ 32 := Nat.or_lt_two_pow (by omega) h1
    have h3 : u32 (m0 ||| shl1 d) = m0 ||| 1 <<< d := by
      unfold u32 shl1; exact Nat.mod_eq_of_lt (by omega)
    simp only [List.foldl_cons, h3]
    exact ih _ (by omega) (fun x hx => hl x (List.mem_cons_of_mem _ hx))

theorem max_fold_spec (l : List GstBuffer) (m0 : Nat) :
    m0 ≤ l.foldl (fun m mp => MAX m (GST_BUFFER_SIZE mp)) m0 ∧
    (∀ mp ∈ l, GST_BUFFER_SIZE mp ≤ l.foldl (fun m mp => MAX m (GST_BUFFER_SIZE mp)) m0) ∧
    (l.foldl (fun m mp => MAX m (GST_BUFFER_SIZE mp)) m0 = m0 ∨
      ∃ mp ∈ l, GST_BUFFER_SIZE mp = l.foldl (fun m mp => MAX m (GST_BUFFER_SIZE mp)) m0) := by
  induction l generalizing m0 with
  | nil => simp
  | cons a l ih =>
    obtain ⟨h1, h2, h3⟩ := ih (MAX m0 (GST_BUFFER_SIZE a))
    have hM : m0 ≤ MAX m0 (GST_BUFFER_SIZE a) ∧ GST_BUFFER_SIZE a ≤ MAX m0 (GST_BUFFER_SIZE a) ∧
        (MAX m0 (GST_BUFFER_SIZE a) = m0 ∨ MAX m0 (GST_BUFFER_SIZE a) = GST_BUFFER_SIZE a) := by
      unfold MAX; split_ifs <;> omega
    simp only [List.foldl_cons, List.mem_cons, forall_eq_or_imp, exists_eq_or_imp]
    refine ⟨by omega, ⟨by omega, h2⟩, ?_⟩
    rcases h3 with h3 | ⟨mp, hmp, h3⟩
    · rcases hM.2.2 with h4 | h4
      · left; omega
      · right; left; omega
    · right; right; exact ⟨mp, hmp, h3⟩

theorem fec_dec_in_window_spec (dec d : fec_dec) (b : Nat) (mp : GstBuffer)
    (hc : d.cur_snbase = b) (hn : d.num_media_packets = dec.num_media_packets)
    (hN1 : 1 ≤ dec.num_media_packets) (hN : dec.num_media_packets ≤ 32) (hb : b < 65536) :
    fec_dec_in_window d b mp =
      decide (b ≤ fec_dec_corrected_in dec b mp ∧
        fec_dec_corrected_in dec b mp < b + dec.num_media_packets) ∧
    (fec_dec_in_window d b mp = true →
      fec_dec_position d mp = fec_dec_corrected_in dec b mp - b ∧
      fec_dec_corrected_in dec b mp - b < 32) := by
  have e : fec_dec_correct_seqnum d (gst_rtp_buffer_get_seq mp) = fec_dec_corrected_in dec b mp :=
    fec_dec_correct_seqnum_congr d { dec with cur_snbase := b } hc hn _
  have hlt : fec_dec_corrected_in dec b mp < 131072 := by
    unfold fec_dec_corrected_in fec_dec_correct_seqnum u32
    simp only
    split_ifs <;> omega
  unfold fec_dec_in_window fec_dec_position
  rw [e, hc, hn]
  generalize fec_dec_corrected_in dec b mp = x at hlt ⊢
  have h1 : u32_sub (u32 (b + dec.num_media_packets)) 1 = b + dec.num_media_packets - 1 := by
    unfold u32_sub u32; omega
  have h2 : b ≤ x → u32_sub x b = x - b := by
    intro h; unfold u32_sub u32; omega
  rw [h1]
  constructor
  · rw [Bool.eq_iff_iff]
    simp only [Bool.not_eq_true', Bool.or_eq_false_iff, decide_eq_false_iff_not,
      decide_eq_true_eq]
    omega
  · intro h
    simp only [Bool.not_eq_true', Bool.or_eq_false_iff, decide_eq_false_iff_not] at h
    rw [h2 (by omega)]
    exact ⟨rfl, by omega⟩

theorem fec_dec_before_check_survivors (dec : fec_dec) (packet : GstBuffer)
    (hN1 : 1 ≤ dec.num_media_packets) (hN : dec.num_media_packets ≤ 32) :
    dec.media_packets.filter
        (fec_dec_in_window (fec_dec_fec_before_rescan dec packet) (fec_packet_snbase packet))
      = fec_dec_window_survivors dec (fec_packet_snbase packet) := by
  have hn : (fec_dec_fec_before_rescan dec packet).num_media_packets = dec.num_media_packets := by
    simp only [fec_dec_fec_before_rescan]; split_ifs <;> rfl
  unfold fec_dec_window_survivors
  apply List.filter_congr
  intro mp _
  exact (fec_dec_in_window_spec dec _ _ mp rfl hn hN1 hN (fec_packet_snbase_lt packet)).1

/-- C14. Re-scan on repair arrival, for `1 ≤ N ≤ 32` and a media queue whose length fits
a guint: an accepted repair packet with SN base `b` reaches the completion check in the
state `fec_dec_fec_before_check`, in which the media queue is the previous queue
filtered, in order, to the packets with corrected sequence number in `[b, b + N)`; the
sequence numbers of the removed packets are not in the media key set; the mask is the or
of the bits `1 << (corrected - b)` of the survivors; the received-media count is the
number of survivors; the maximum size is the largest size of a survivor, `0` if there
is none. -/
theorem fec_dec_rescan_on_repair (c : Codec) (dec : fec_dec) (packet : GstBuffer)
    (hN1 : 1 ≤ dec.num_media_packets) (hN : dec.num_media_packets ≤ 32)
    (hbl : fec_packet_snbase packet ≠ dec.blacklisted_snbase)
    (hdup : gst_rtp_buffer_get_seq packet ∉ dec.fec_packet_set)
    (hlen : dec.media_packets.length < 4294967296) :
    fec_dec_push_fec_packet c dec packet
      = fec_dec_check_state c (fec_dec_fec_before_check dec packet) ∧
    (fec_dec_fec_before_check dec packet).media_packets
      = fec_dec_window_survivors dec (fec_packet_snbase packet) ∧
    (∀ mp ∈ dec.media_packets, mp ∉ fec_dec_window_survivors dec (fec_packet_snbase packet) →
      gst_rtp_buffer_get_seq mp ∉ (fec_dec_fec_before_check dec packet).media_packet_set) ∧
    (fec_dec_fec_before_check dec packet).received_media_packet_mask
      = fec_dec_window_bits dec (fec_packet_snbase packet)
          (fec_dec_window_survivors dec (fec_packet_snbase packet)) ∧
    (fec_dec_fec_before_check dec packet).num_received_media_packets
      = (fec_dec_window_survivors dec (fec_packet_snbase packet)).length ∧
    (∀ mp ∈ fec_dec_window_survivors dec (fec_packet_snbase packet),
      GST_BUFFER_SIZE mp ≤ (fec_dec_fec_before_check dec packet).max_packet_size) ∧
    (fec_dec_window_survivors dec (fec_packet_snbase packet) = [] →
      (fec_dec_fec_before_check dec packet).max_packet_size = 0) ∧
    (fec_dec_window_survivors dec (fec_packet_snbase packet) ≠ [] →
      ∃ mp ∈ fec_dec_window_survivors dec (fec_packet_snbase packet),
        GST_BUFFER_SIZE mp = (fec_dec_fec_before_check dec packet).max_packet_size) := by
  have hn : (fec_dec_fec_before_rescan dec packet).num_media_packets = dec.num_media_packets := by
    simp only [fec_dec_fec_before_rescan]; split_ifs <;> rfl
  have hsurv := fec_dec_before_check_survivors dec packet hN1 hN
  have hspec := fun mp => fec_dec_in_window_spec dec (fec_dec_fec_before_rescan dec packet)
    (fec_packet_snbase packet) mp rfl hn hN1 hN (fec_packet_snbase_lt packet)
  have hmem : ∀ mp, mp ∈ fec_dec_window_survivors dec (fec_packet_snbase packet) ↔
      mp ∈ dec.media_packets ∧
        fec_dec_in_window (fec_dec_fec_before_rescan dec packet) (fec_packet_snbase packet) mp
          = true := by
    intro mp; rw [← hsurv, List.mem_filter]
  refine ⟨fec_dec_push_fec_accepted c dec packet hbl hdup, ?_, ?_, ?_, ?_, ?_⟩
  · rw [fec_dec_fec_before_check_eq]; exact hsurv
  · intro mp hmp hout
    rw [fec_dec_fec_before_check_eq]
    simp only [remove_fold_mem, not_and, not_forall, Classical.not_imp, not_not]
    intro _
    refine ⟨mp, ?_, rfl⟩
    rw [List.mem_filter]
    refine ⟨hmp, ?_⟩
    cases hw : fec_dec_in_window (fec_dec_fec_before_rescan dec packet)
      (fec_packet_snbase packet) mp
    · rfl
    · exact absurd ((hmem mp).2 ⟨hmp, hw⟩) hout
  · rw [fec_dec_fec_before_check_eq]
    simp only [hsurv, fec_dec_window_bits]
    have h1 : ∀ m, ∀ mp ∈ fec_dec_window_survivors dec (fec_packet_snbase packet),
        u32 (m ||| shl1 (fec_dec_position (fec_dec_fec_before_rescan dec packet) mp))
          = u32 (m ||| shl1 (fec_dec_corrected_in dec (fec_packet_snbase packet) mp
              - fec_packet_snbase packet)) := by
      intro m mp hmp
      rw [((hspec mp).2 ((hmem mp).1 hmp).2).1]
    rw [List.foldl_ext _ _ _ h1]
    have h2 := mask_fold_no_wrap
      ((fec_dec_window_survivors dec (fec_packet_snbase packet)).map
        (fun mp => fec_dec_corrected_in dec (fec_packet_snbase packet) mp
          - fec_packet_snbase packet)) 0 (by decide)
      (by
        intro d hd
        rw [List.mem_map] at hd
        obtain ⟨mp, hmp, rfl⟩ := hd
        exact ((hspec mp).2 ((hmem mp).1 hmp).2).2)
    rw [List.foldl_map, List.foldl_map] at h2
    exact h2.1
  · rw [fec_dec_fec_before_check_eq]
    simp only [hsurv]
    have hle : (fec_dec_window_survivors dec (fec_packet_snbase packet)).length
        ≤ dec.media_packets.length := by
      rw [← hsurv]; exact List.length_filter_le _ _
    rw [count_fold _ 0 (by omega)]
    omega
  · rw [fec_dec_fec_before_check_eq]
    simp only [hsurv]
    obtain ⟨_, h2, h3⟩ := max_fold_spec
      (fec_dec_window_survivors dec (fec_packet_snbase packet)) 0
    refine ⟨h2, ?_, ?_⟩
    · intro he; rw [he]; rfl
    · intro hne
      rcases h3 with h3 | h3
      · obtain ⟨mp, rest, hl⟩ := List.exists_cons_of_ne_nil hne
        have hmp : mp ∈ fec_dec_window_survivors dec (fec_packet_snbase packet) := by
          rw [hl]; exact List.mem_cons_self _ _
        refine ⟨mp, hmp, ?_⟩
        have := h2 mp hmp
        omega
      · exact h3

/-- Witness for C14: the repair packet with SN base `10` arrives at a decoder with
`N = 4` that holds the media packets `9, 10, 12, 14`; the packets `10` and `12` stay. -/
theorem fec_dec_rescan_on_repair_witness :
    fec_dec_window_survivors unbound_queue 10 = [media_packet 10 [2, 2], media_packet 12 [3]] ∧
    (fec_dec_fec_before_check unbound_queue (repair_packet 100 10 0)).media_packets
      = [media_packet 10 [2, 2], media_packet 12 [3]] ∧
    (fec_dec_fec_before_check unbound_queue (repair_packet 100 10 0)).received_media_packet_mask
      = 5 ∧
    (fec_dec_fec_before_check unbound_queue (repair_packet 100 10 0)).num_received_media_packets
      = 2 ∧
    9 ∉ (fec_dec_fec_before_check unbound_queue (repair_packet 100 10 0)).media_packet_set :=
  have h := fec_dec_rescan_on_repair xor_codec unbound_queue (repair_packet 100 10 0)
    (by decide) (by decide) (by decide) (by decide) (by decide)
  ⟨by decide, h.2.1.trans (by decide), h.2.2.2.1.trans (by decide),
    h.2.2.2.2.1.trans (by decide),
    h.2.2.1 (media_packet 9 [1, 1, 1, 1]) (by decide) (by decide)⟩

/-- C14, counterexample for `N = 33`: the media packet `42` stays in the window
`[10, 43)` at position `32`, the or of the bits of the survivors is `2 ^ 32`, and the
mask before the completion check is `0`. -/
theorem fec_dec_rescan_wide_window_mask :
    wide_window.num_media_packets = 33 ∧
    fec_packet_snbase (repair_packet 100 10 0) = 10 ∧
    fec_packet_snbase (repair_packet 100 10 0) ≠ wide_window.blacklisted_snbase ∧
    gst_rtp_buffer_get_seq (repair_packet 100 10 0) ∉ wide_window.fec_packet_set ∧
    fec_dec_window_survivors wide_window 10 = [media_packet 42 [1, 1]] ∧
    (fec_dec_fec_before_check wide_window (repair_packet 100 10 0)).media_packets
      = [media_packet 42 [1, 1]] ∧
    fec_dec_window_bits wide_window 10 [media_packet 42 [1, 1]] = 4294967296 ∧
    (fec_dec_fec_before_check wide_window (repair_packet 100 10 0)).received_media_packet_mask
      = 0 := by
  decide

theorem fec_dec_source_fold (l : List (List Nat)) (dec : fec_dec) :
    l.foldl fec_dec_source_packet_cb dec =
      { dec with recovered_packets := dec.recovered_packets ++ l } := by
  induction l generalizing dec with
  | nil => simp
  | cons a l ih => rw [List.foldl_cons, ih]; simp [fec_dec_source_packet_cb]

theorem fec_dec_recover_packets_frame (c : Codec) (dec d : fec_dec)
    (h : fec_dec_recover_packets c dec = some d) :
    ∃ l, d = { dec with recovered_packets := dec.recovered_packets ++ l } := by
  unfold fec_dec_recover_packets at h
  split_ifs at h
  simp only at h
  split at h
  · exact absurd h (by simp)
  · split at h
    · exact absurd h (by simp)
    · rw [fec_dec_source_fold] at h
      exact ⟨_, (Option.some.inj h).symm⟩

theorem fec_dec_check_state_frame (c : Codec) (dec d : fec_dec)
    (h : fec_dec_check_state c dec = some d) :
    ∃ l, (d = { dec with recovered_packets := dec.recovered_packets ++ l } ∧
        fec_dec_all_media_packets_present dec = false ∧
        fec_dec_can_recover_packets dec = false) ∨
      (d = fec_dec_cleanup { dec with recovered_packets := dec.recovered_packets ++ l } ∧
        (fec_dec_all_media_packets_present dec = true ∨
          fec_dec_can_recover_packets dec = true)) := by
  unfold fec_dec_check_state at h
  split_ifs at h with h1 h2
  · exact ⟨[], Or.inr ⟨by simpa using (Option.some.inj h).symm, Or.inl h1⟩⟩
  · split at h
    · exact absurd h (by simp)
    · rename_i d1 hd1
      obtain ⟨l, hl⟩ := fec_dec_recover_packets_frame c dec d1 hd1
      exact ⟨l, Or.inr ⟨by rw [← hl]; exact (Option.some.inj h).symm, Or.inr h2⟩⟩
  · exact ⟨[], Or.inl ⟨by simpa using (Option.some.inj h).symm, by simpa using h1,
      by simpa using h2⟩⟩

theorem fec_dec_overflow_cleanup (packet : GstBuffer) (dec : fec_dec) :
    fec_dec_overflow packet (fec_dec_cleanup dec) = fec_dec_cleanup dec := by
  simp [fec_dec_overflow, fec_dec_cleanup]

theorem fec_dec_cleanup_resolved (dec : fec_dec) :
    fec_dec_resolved (fec_dec_cleanup dec) dec.cur_snbase := by
  simp [fec_dec_resolved, fec_dec_cleanup]

theorem fec_dec_checked_state_apply (c : Codec) (dec s : fec_dec) (op : fec_dec_op)
    (hs : fec_dec_checked_state dec op = some s) :
    (∃ p, op = .push_fec_packet p ∧ fec_dec_apply c dec op = fec_dec_check_state c s) ∨
    (∃ p, op = .push_media_packet p ∧
      fec_dec_apply c dec op = (fec_dec_check_state c s).map (fec_dec_overflow p)) := by
  cases op with
  | push_media_packet p =>
    simp only [fec_dec_checked_state] at hs
    split_ifs at hs with h
    cases Option.some.inj hs
    exact Or.inr ⟨p, rfl, fec_dec_push_media_checked c dec p h.1 h.2⟩
  | push_fec_packet p =>
    simp only [fec_dec_checked_state] at hs
    split_ifs at hs with h
    cases Option.some.inj hs
    exact Or.inl ⟨p, rfl, fec_dec_push_fec_accepted c dec p h.1 h.2⟩
  | pop_recovered_packet => simp [fec_dec_checked_state] at hs
  | flush_recovered_packets => simp [fec_dec_checked_state] at hs
  | reset => simp [fec_dec_checked_state] at hs
  | set_num_media_packets n => simp [fec_dec_checked_state] at hs
  | set_num_fec_packets n => simp [fec_dec_checked_state] at hs

/-- C15. Window resolution postcondition: let a push of a media packet or of a repair
packet reach the completion check in state `s`, and let the check find all media
packets present or the block recoverable. If all media packets are present the push
returns; and whenever the push returns, the decoder is unbound, the blacklisted snbase
is the snbase of `s`, both queues and both key sets are empty and the mask, both counts
and the maximum size are zero. -/
theorem fec_dec_window_resolution (c : Codec) (dec s : fec_dec) (op : fec_dec_op)
    (hs : fec_dec_checked_state dec op = some s)
    (hc : fec_dec_all_media_packets_present s = true ∨ fec_dec_can_recover_packets s = true) :
    (fec_dec_all_media_packets_present s = true → (fec_dec_apply c dec op).isSome = true) ∧
    ∀ dec', fec_dec_apply c dec op = some dec' → fec_dec_resolved dec' s.cur_snbase := by
  have hres : ∀ d, fec_dec_check_state c s = some d → ∃ l,
      d = fec_dec_cleanup { s with recovered_packets := s.recovered_packets ++ l } := by
    intro d hd
    obtain ⟨l, h | h⟩ := fec_dec_check_state_frame c s d hd
    · rcases hc with hc | hc
      · rw [h.2.1] at hc; exact absurd hc (by simp)
      · rw [h.2.2] at hc; exact absurd hc (by simp)
    · exact ⟨l, h.1⟩
  have hall : fec_dec_all_media_packets_present s = true →
      fec_dec_check_state c s = some (fec_dec_cleanup s) := by
    intro h; simp [fec_dec_check_state, h]
  rcases fec_dec_checked_state_apply c dec s op hs with ⟨p, _, hp⟩ | ⟨p, _, hp⟩
  · rw [hp]
    refine ⟨fun h => by rw [hall h]; rfl, ?_⟩
    intro dec' hd
    obtain ⟨l, rfl⟩ := hres dec' hd
    exact fec_dec_cleanup_resolved _
  · rw [hp]
    refine ⟨fun h => by rw [hall h]; rfl, ?_⟩
    intro dec' hd
    rw [Option.map_eq_some'] at hd
    obtain ⟨d, hd1, hd2⟩ := hd
    obtain ⟨l, rfl⟩ := hres d hd1
    rw [fec_dec_overflow_cleanup] at hd2
    rw [← hd2]
    exact fec_dec_cleanup_resolved _

/-- Witness for C15: the media packet `13` completes three of the four packets of the
window `[10, 14)`, which holds one repair packet. -/
theorem fec_dec_window_resolution_witness :
    fec_dec_can_recover_packets
      (fec_dec_media_before_check partial_window (media_packet 13 [4, 4])) = true ∧
    fec_dec_resolved
      { fec_dec_create 4 2 with
        cur_snbase := 10
        blacklisted_snbase := 10
        recovered_packets := [[128, 96, 0, 12, 0, 1, 95, 144, 0, 0, 0, 5, 7, 7]] } 10 :=
  ⟨by decide,
   (fec_dec_window_resolution xor_codec partial_window
      (fec_dec_media_before_check partial_window (media_packet 13 [4, 4]))
      (.push_media_packet (media_packet 13 [4, 4])) (by decide) (Or.inr (by decide))).2 _
      (by decide)⟩

theorem fec_dec_push_fec_recovered (c : Codec) (dec dec' : fec_dec) (p : GstBuffer)
    (h : fec_dec_push_fec_packet c dec p = some dec') :
    ∃ l, dec'.recovered_packets = dec.recovered_packets ++ l := by
  by_cases hbl : fec_packet_snbase p = dec.blacklisted_snbase
  · have : fec_dec_push_fec_packet c dec p = some dec := by
      simp [fec_dec_push_fec_packet, hbl]
    rw [this] at h
    exact ⟨[], by rw [← Option.some.inj h]; simp⟩
  · by_cases hdup : gst_rtp_buffer_get_seq p ∈ dec.fec_packet_set
    · have : fec_dec_push_fec_packet c dec p = some dec := by
        simp [fec_dec_push_fec_packet, hbl, g_hash_table_lookup_extended, hdup]
      rw [this] at h
      exact ⟨[], by rw [← Option.some.inj h]; simp⟩
    · rw [fec_dec_push_fec_accepted c dec p hbl hdup] at h
      have hr : (fec_dec_fec_before_check dec p).recovered_packets = dec.recovered_packets := by
        rw [fec_dec_fec_before_check_eq]
        simp only [fec_dec_fec_before_rescan]; split_ifs <;> rfl
      obtain ⟨l, h1 | h1⟩ := fec_dec_check_state_frame c _ dec' h
      · exact ⟨l, by rw [h1.1, ← hr]⟩
      · exact ⟨l, by rw [h1.1, ← hr]; rfl⟩

theorem fec_dec_push_media_recovered (c : Codec) (dec dec' : fec_dec) (p : GstBuffer)
    (h : fec_dec_push_media_packet c dec p = some dec') :
    ∃ l, dec'.recovered_packets = dec.recovered_packets ++ l := by
  have hov : ∀ d, (fec_dec_overflow p d).recovered_packets = d.recovered_packets := fun d =>
    (fec_dec_overflow_fields p d).2.2.2.2.2.2.2.1
  by_cases hdup : gst_rtp_buffer_get_seq p ∈ dec.media_packet_set
  · have : fec_dec_push_media_packet c dec p = some dec := by
      simp [fec_dec_push_media_packet, g_hash_table_lookup_extended, hdup]
    rw [this] at h
    exact ⟨[], by rw [← Option.some.inj h]; simp⟩
  · by_cases hin : fec_dec_media_checked dec p = true
    · rw [fec_dec_push_media_checked c dec p hdup hin, Option.map_eq_some'] at h
      obtain ⟨d, hd1, hd2⟩ := h
      have hr : (fec_dec_media_before_check dec p).recovered_packets
          = dec.recovered_packets := rfl
      obtain ⟨l, h1 | h1⟩ := fec_dec_check_state_frame c _ d hd1
      · exact ⟨l, by rw [← hd2, hov, h1.1, ← hr]⟩
      · exact ⟨l, by rw [← hd2, hov, h1.1, ← hr]; rfl⟩
    · refine ⟨[], ?_⟩
      simp only [fec_dec_media_checked, Bool.and_eq_true, Bool.not_eq_true',
        decide_eq_false_iff_not, decide_eq_true_eq] at hin
      simp only [fec_dec_push_media_packet, g_hash_table_lookup_extended, hdup, decide_False,
        Bool.false_eq_true, if_false] at h
      split_ifs at h <;>
        first
        | (exfalso; apply hin; simp_all; done)
        | (simp only [Option.some.injEq] at h
           rw [← h, hov]
           simp [fec_dec_buffer_media])

/-- C17. The recovered queue under the other public operations: a push of a media packet
or of a repair packet that returns, window resolution included, keeps the queue it
found as a prefix of the queue it leaves; `fec_dec_reset`, `fec_dec_set_num_media_packets`
and `fec_dec_set_num_fec_packets` leave the queue empty. -/
theorem fec_dec_recovered_queue_frame (c : Codec) (dec dec' : fec_dec) (op : fec_dec_op)
    (h : fec_dec_apply c dec op = some dec') :
    ((∃ p, op = .push_media_packet p ∨ op = .push_fec_packet p) →
      ∃ l, dec'.recovered_packets = dec.recovered_packets ++ l) ∧
    ((op = .reset ∨ ∃ n, op = .set_num_media_packets n ∨ op = .set_num_fec_packets n) →
      dec'.recovered_packets = []) := by
  constructor
  · rintro ⟨p, rfl | rfl⟩
    · exact fec_dec_push_media_recovered c dec dec' p h
    · exact fec_dec_push_fec_recovered c dec dec' p h
  · rintro (rfl | ⟨n, rfl | rfl⟩) <;>
      · simp only [fec_dec_apply, Option.some.injEq] at h
        rw [← h]; rfl

/-- Witness for C17: the media packet `13` pushed into the window `[10, 14)` of a
decoder whose recovered queue holds one packet starts a recovery; the packet that was
in the queue stays at its head. A reset of the same decoder empties the queue. -/
theorem fec_dec_recovered_queue_frame_witness :
    (∃ l, [[1, 2], [128, 96, 0, 12, 0, 1, 95, 144, 0, 0, 0, 5, 7, 7]] = [[1, 2]] ++ l) ∧
    (fec_dec_reset resolved_window).recovered_packets = [] :=
  ⟨(fec_dec_recovered_queue_frame xor_codec
      { partial_window with recovered_packets := [[1, 2]] }
      { fec_dec_create 4 2 with
        cur_snbase := 10
        blacklisted_snbase := 10
        recovered_packets := [[1, 2], [128, 96, 0, 12, 0, 1, 95, 144, 0, 0, 0, 5, 7, 7]] }
      (.push_media_packet (media_packet 13 [4, 4])) (by decide)).1 ⟨_, Or.inl rfl⟩,
   (fec_dec_recovered_queue_frame xor_codec resolved_window (fec_dec_reset resolved_window)
      .reset (by decide)).2 (Or.inl rfl)⟩

/-- C17, counterexample: `fec_dec_reset`, `fec_dec_set_num_media_packets` and
`fec_dec_set_num_fec_packets` each empty a recovered queue that holds one packet. -/
theorem fec_dec_reset_flushes_recovered :
    resolved_window.recovered_packets = [[1, 2]] ∧
    (fec_dec_apply xor_codec resolved_window .reset).map (fun d => d.recovered_packets)
      = some [] ∧
    (fec_dec_apply xor_codec resolved_window (.set_num_media_packets 4)).map
      (fun d => d.recovered_packets) = some [] ∧
    (fec_dec_apply xor_codec resolved_window (.set_num_fec_packets 2)).map
      (fun d => d.recovered_packets) = some [] := by
  decide

/-- C19. A fresh decoder with `N = 2` that is given the media packets `1, 2, 3` and
then `3` once more holds the packet `3` twice in its media queue, and its media key set
holds `1` and `2`: the key set is not the set of the sequence numbers of the queued
packets, and two queued packets have the same sequence number. -/
theorem fec_dec_unique_keying_violated :
    (fec_dec_run xor_codec (fec_dec_create 2 1) repeated_push_ops).map
        (fun d => (d.media_packets.map gst_rtp_buffer_get_seq, d.media_packet_set))
      = some ([3, 3], [1, 2]) := by
  decide

theorem nodup_keys_length (l : List Nat) (hn : l.Nodup) (hlt : ∀ k ∈ l, k < 65536) :
    l.length ≤ 65536 := by
  have hs : l ⊆ List.range 65536 := fun k hk => List.mem_range.2 (hlt k hk)
  have := (List.subperm_of_subset hn hs).length_le
  simpa using this

theorem remove_key_length (set : List Nat) (k : Nat) (hn : set.Nodup) :
    set.length ≤ (g_hash_table_remove set k).length + 1 ∧
    (k ∈ set → (g_hash_table_remove set k).length + 1 = set.length) := by
  induction set with
  | nil => simp [g_hash_table_remove]
  | cons a l ih =>
    rw [List.nodup_cons] at hn
    obtain ⟨h1, h2⟩ := ih hn.2
    unfold g_hash_table_remove at h1 h2 ⊢
    by_cases hak : a = k
    · subst hak
      have hf' : ∀ x ∈ l, ¬ x = a := fun x hx h => hn.1 (h ▸ hx)
      have hf : l.filter (fun x => !decide (x = a)) = l := by
        rw [List.filter_eq_self]
        intro x hx
        simp [hf' x hx]
      simp [List.filter_cons, hf]
    · have hka : ¬ k = a := fun h => hak h.symm
      simp only [List.filter_cons, ne_eq, hak, not_false_eq_true, decide_True, if_true,
        List.length_cons, List.mem_cons, hka, false_or]
      simp only [ne_eq] at h1 h2
      exact ⟨by omega, fun h => by rw [h2 h]⟩

theorem remove_key_inv (set : List Nat) (k : Nat) (hn : set.Nodup)
    (hlt : ∀ x ∈ set, x < 65536) :
    (g_hash_table_remove set k).Nodup ∧ ∀ x ∈ g_hash_table_remove set k, x < 65536 := by
  unfold g_hash_table_remove
  exact ⟨hn.filter _, fun x hx => hlt x (List.mem_of_mem_filter hx)⟩

theorem remove_fold_inv (l : List GstBuffer) (set : List Nat) (hn : set.Nodup)
    (hlt : ∀ x ∈ set, x < 65536) :
    (l.foldl (fun s mp => g_hash_table_remove s (gst_rtp_buffer_get_seq mp)) set).Nodup ∧
    (∀ x ∈ l.foldl (fun s mp => g_hash_table_remove s (gst_rtp_buffer_get_seq mp)) set,
      x < 65536) ∧
    set.length ≤
      (l.foldl (fun s mp => g_hash_table_remove s (gst_rtp_buffer_get_seq mp)) set).length
        + l.length := by
  induction l generalizing set with
  | nil => exact ⟨hn, hlt, by simp⟩
  | cons a l ih =>
    obtain ⟨h1, h2⟩ := remove_key_inv set (gst_rtp_buffer_get_seq a) hn hlt
    obtain ⟨h3, h4, h5⟩ := ih _ h1 h2
    have h6 := (remove_key_length set (gst_rtp_buffer_get_seq a) hn).1
    simp only [List.foldl_cons, List.length_cons]
    exact ⟨h3, h4, by omega⟩

theorem add_key_inv (set : List Nat) (p : GstBuffer) (hn : set.Nodup)
    (hlt : ∀ x ∈ set, x < 65536) (hk : gst_rtp_buffer_get_seq p ∉ set) :
    custom_hash_table_add set (gst_rtp_buffer_get_seq p) = set ++ [gst_rtp_buffer_get_seq p] ∧
    (set ++ [gst_rtp_buffer_get_seq p]).Nodup ∧
    ∀ x ∈ set ++ [gst_rtp_buffer_get_seq p], x < 65536 := by
  refine ⟨by simp [custom_hash_table_add, hk], ?_, ?_⟩
  · rw [List.nodup_append]
    refine ⟨hn, List.nodup_singleton _, ?_⟩
    intro a ha hb
    rw [List.mem_singleton] at hb
    exact hk (hb ▸ ha)
  · intro x hx
    rw [List.mem_append, List.mem_singleton] at hx
    rcases hx with hx | rfl
    · exact hlt x hx
    · exact Nat.mod_lt _ (by decide)

theorem fec_dec_inv_fec_le (dec : fec_dec) (h : fec_dec_inv dec) :
    dec.num_received_fec_packets ≤ 65536 := by
  rw [h.fec_count]
  have h1 : dec.fec_packet_set.length = dec.fec_packets.length := by
    rw [h.fec_keys, List.length_map]
  rw [← h1]
  apply nodup_keys_length _ h.fec_nodup
  intro k hk
  rw [h.fec_keys, List.mem_map] at hk
  obtain ⟨p, _, rfl⟩ := hk
  exact Nat.mod_lt _ (by decide)

theorem fec_dec_inv_media_le (dec : fec_dec) (h : fec_dec_inv dec) :
    dec.media_packets.length ≤ 65536 :=
  Nat.le_trans h.keys_len (nodup_keys_length _ h.keys_nodup h.keys_lt)

theorem fec_dec_overflow_noop (p : GstBuffer) (dec : fec_dec)
    (h : dec.num_received_media_packets ≤ dec.num_media_packets) :
    fec_dec_overflow p dec = dec := by
  unfold fec_dec_overflow
  rw [if_neg (by omega)]

theorem fec_dec_inv_congr (d1 d2 : fec_dec) (h : fec_dec_inv d1)
    (h1 : d2.num_media_packets = d1.num_media_packets)
    (h2 : d2.num_received_media_packets = d1.num_received_media_packets)
    (h3 : d2.media_packets = d1.media_packets)
    (h4 : d2.num_received_fec_packets = d1.num_received_fec_packets)
    (h5 : d2.fec_packets = d1.fec_packets)
    (h6 : d2.fec_packet_set = d1.fec_packet_set)
    (h7 : d2.cur_snbase = d1.cur_snbase)
    (h8 : d2.has_snbase = d1.has_snbase)
    (h9 : d2.received_media_packet_mask = d1.received_media_packet_mask)
    (h10 : d2.media_packet_set = d1.media_packet_set) :
    fec_dec_inv d2 := by
  have hc : ∀ s, fec_dec_correct_seqnum d2 s = fec_dec_correct_seqnum d1 s :=
    fec_dec_correct_seqnum_congr d2 d1 h7 h1
  constructor
  · rw [h2, h3]; exact h.count_eq
  · rw [h1, h2]; exact h.count_le
  · rw [h10]; exact h.keys_nodup
  · rw [h10]; exact h.keys_lt
  · rw [h10, h3]; exact h.keys_len
  · rw [h4, h5]; exact h.fec_count
  · rw [h6, h5]; exact h.fec_keys
  · rw [h6]; exact h.fec_nodup
  · rw [h7]; exact h.snbase_lt
  · rw [h8, h1, h3, h7]; simp only [hc]; exact h.in_window
  · rw [h8, h1, h3, h7, h9]; simp only [hc]; exact h.mask_bits

theorem fec_dec_inv_unbound (dec : fec_dec)
    (h1 : dec.num_received_media_packets = dec.media_packets.length)
    (h2 : dec.num_received_media_packets ≤ dec.num_media_packets)
    (hk1 : dec.media_packet_set.Nodup) (hk2 : ∀ k ∈ dec.media_packet_set, k < 65536)
    (hk3 : dec.media_packets.length ≤ dec.media_packet_set.length)
    (h3 : dec.num_received_fec_packets = dec.fec_packets.length)
    (h4 : dec.fec_packet_set = dec.fec_packets.map gst_rtp_buffer_get_seq)
    (h5 : dec.fec_packet_set.Nodup) (h6 : dec.cur_snbase < 65536)
    (h7 : dec.has_snbase = false) :
    fec_dec_inv dec ∧ fec_dec_open_inv dec := by
  refine ⟨⟨h1, h2, hk1, hk2, hk3, h3, h4, h5, h6, ?_, ?_⟩, ?_⟩
  · intro h; rw [h7] at h; exact absurd h (by simp)
  · intro h; rw [h7] at h; exact absurd h (by simp)
  · intro h; rw [h7] at h; exact absurd h (by simp)

theorem fec_dec_inv_create (N K : Nat) :
    fec_dec_inv (fec_dec_create N K) ∧ fec_dec_open_inv (fec_dec_create N K) := by
  apply fec_dec_inv_unbound <;> simp [fec_dec_create]

theorem fec_dec_inv_cleanup (dec : fec_dec) (h : dec.cur_snbase < 65536) :
    fec_dec_inv (fec_dec_cleanup dec) ∧ fec_dec_open_inv (fec_dec_cleanup dec) := by
  apply fec_dec_inv_unbound <;> simp [fec_dec_cleanup, h]

theorem fec_dec_check_state_inv (c : Codec) (s d : fec_dec) (h : fec_dec_inv s)
    (hd : fec_dec_check_state c s = some d) : fec_dec_inv d ∧ fec_dec_open_inv d := by
  obtain ⟨l, ⟨rfl, h1, h2⟩ | ⟨rfl, _⟩⟩ := fec_dec_check_state_frame c s d hd
  · refine ⟨fec_dec_inv_congr s _ h rfl rfl rfl rfl rfl rfl rfl rfl rfl rfl, ?_⟩
    intro hb hN1
    replace hN1 : 1 ≤ s.num_media_packets := hN1
    show s.num_received_media_packets < s.num_media_packets
    have hfec := fec_dec_inv_fec_le s h
    have hmed := fec_dec_inv_media_le s h
    have hcnt := h.count_eq
    simp only [fec_dec_can_recover_packets, Bool.and_eq_false_iff, decide_eq_false_iff_not,
      u32] at h2
    omega
  · exact fec_dec_inv_cleanup _ h.snbase_lt

theorem fec_dec_fec_before_rescan_fec (dec : fec_dec) (p : GstBuffer) (h : fec_dec_inv dec)
    (hdup : gst_rtp_buffer_get_seq p ∉ dec.fec_packet_set) :
    (fec_dec_fec_before_rescan dec p).num_received_fec_packets
      = (fec_dec_fec_before_rescan dec p).fec_packets.length ∧
    (fec_dec_fec_before_rescan dec p).fec_packet_set
      = (fec_dec_fec_before_rescan dec p).fec_packets.map gst_rtp_buffer_get_seq ∧
    (fec_dec_fec_before_rescan dec p).fec_packet_set.Nodup := by
  have hle := fec_dec_inv_fec_le dec h
  by_cases hnew : dec.cur_snbase ≠ fec_packet_snbase p
  · simp [fec_dec_fec_before_rescan, hnew, custom_hash_table_add, u32]
  · have hu : u32 (dec.num_received_fec_packets + 1) = dec.num_received_fec_packets + 1 := by
      unfold u32; omega
    simp only [fec_dec_fec_before_rescan, hnew, if_false, custom_hash_table_add, hdup, hu,
      List.length_append, List.length_singleton, List.map_append, List.map_singleton]
    refine ⟨by rw [h.fec_count], by rw [h.fec_keys], ?_⟩
    rw [List.nodup_append]
    refine ⟨h.fec_nodup, List.nodup_singleton _, ?_⟩
    intro a ha hb
    rw [List.mem_singleton] at hb
    exact hdup (hb ▸ ha)

theorem fec_dec_fec_before_check_inv (dec : fec_dec) (p : GstBuffer) (h : fec_dec_inv dec)
    (hdup : gst_rtp_buffer_get_seq p ∉ dec.fec_packet_set) :
    fec_dec_inv (fec_dec_fec_before_check dec p) := by
  have hn : (fec_dec_fec_before_rescan dec p).num_media_packets = dec.num_media_packets := by
    simp only [fec_dec_fec_before_rescan]; split_ifs <;> rfl
  obtain ⟨hf1, hf2, hf3⟩ := fec_dec_fec_before_rescan_fec dec p h hdup
  have hb := fec_packet_snbase_lt p
  have sN : (fec_dec_fec_before_check dec p).num_media_packets = dec.num_media_packets := by
    rw [fec_dec_fec_before_check_eq]; exact hn
  have sb : (fec_dec_fec_before_check dec p).cur_snbase = fec_packet_snbase p := by
    rw [fec_dec_fec_before_check_eq]; rfl
  have sq : (fec_dec_fec_before_check dec p).media_packets = dec.media_packets.filter
      (fec_dec_in_window (fec_dec_fec_before_rescan dec p) (fec_packet_snbase p)) := by
    rw [fec_dec_fec_before_check_eq]
  have sm : (fec_dec_fec_before_check dec p).received_media_packet_mask =
      (dec.media_packets.filter
        (fec_dec_in_window (fec_dec_fec_before_rescan dec p) (fec_packet_snbase p))).foldl
        (fun m mp => u32 (m ||| shl1 (fec_dec_position (fec_dec_fec_before_rescan dec p) mp)))
        0 := by
    rw [fec_dec_fec_before_check_eq]
  have sc : (fec_dec_fec_before_check dec p).num_received_media_packets =
      (dec.media_packets.filter
        (fec_dec_in_window (fec_dec_fec_before_rescan dec p) (fec_packet_snbase p))).foldl
        (fun n _ => u32 (n + 1)) 0 := by
    rw [fec_dec_fec_before_check_eq]
  have sf1 : (fec_dec_fec_before_check dec p).num_received_fec_packets
      = (fec_dec_fec_before_rescan dec p).num_received_fec_packets := by
    rw [fec_dec_fec_before_check_eq]
  have sf2 : (fec_dec_fec_before_check dec p).fec_packets
      = (fec_dec_fec_before_rescan dec p).fec_packets := by
    rw [fec_dec_fec_before_check_eq]
  have sf3 : (fec_dec_fec_before_check dec p).fec_packet_set
      = (fec_dec_fec_before_rescan dec p).fec_packet_set := by
    rw [fec_dec_fec_before_check_eq]
  have hcor : ∀ mp, fec_dec_correct_seqnum (fec_dec_fec_before_check dec p)
      (gst_rtp_buffer_get_seq mp) = fec_dec_corrected_in dec (fec_packet_snbase p) mp :=
    fun mp => fec_dec_correct_seqnum_congr _ { dec with cur_snbase := fec_packet_snbase p }
      sb sN _
  have hlen : (dec.media_packets.filter (fec_dec_in_window (fec_dec_fec_before_rescan dec p)
      (fec_packet_snbase p))).length ≤ dec.media_packets.length := List.length_filter_le _ _
  have hsurv : ∀ mp, mp ∈ dec.media_packets.filter
      (fec_dec_in_window (fec_dec_fec_before_rescan dec p) (fec_packet_snbase p)) →
      1 ≤ dec.num_media_packets → dec.num_media_packets ≤ 32 →
      fec_dec_position (fec_dec_fec_before_rescan dec p) mp
        = fec_dec_corrected_in dec (fec_packet_snbase p) mp - fec_packet_snbase p ∧
      fec_packet_snbase p ≤ fec_dec_corrected_in dec (fec_packet_snbase p) mp ∧
      fec_dec_corrected_in dec (fec_packet_snbase p) mp
        < fec_packet_snbase p + dec.num_media_packets := by
    intro mp hmp hN1 hN
    rw [List.mem_filter] at hmp
    obtain ⟨hs, hp⟩ := fec_dec_in_window_spec dec (fec_dec_fec_before_rescan dec p)
      (fec_packet_snbase p) mp rfl hn hN1 hN hb
    rw [hmp.2] at hs
    exact ⟨(hp hmp.2).1, of_decide_eq_true hs.symm⟩
  have hmed := fec_dec_inv_media_le dec h
  have ss : (fec_dec_fec_before_check dec p).media_packet_set =
      (dec.media_packets.filter (fun mp =>
        !fec_dec_in_window (fec_dec_fec_before_rescan dec p) (fec_packet_snbase p) mp)).foldl
        (fun s mp => g_hash_table_remove s (gst_rtp_buffer_get_seq mp)) dec.media_packet_set := by
    rw [fec_dec_fec_before_check_eq]
  obtain ⟨hk1, hk2, hk3⟩ := remove_fold_inv
    (dec.media_packets.filter (fun mp =>
      !fec_dec_in_window (fec_dec_fec_before_rescan dec p) (fec_packet_snbase p) mp))
    dec.media_packet_set h.keys_nodup h.keys_lt
  have hsplit := List.length_eq_length_filter_add (l := dec.media_packets)
    (fec_dec_in_window (fec_dec_fec_before_rescan dec p) (fec_packet_snbase p))
  constructor
  · rw [sc, sq, count_fold _ 0 (by omega)]
    omega
  · rw [sN, sc, count_fold _ 0 (by omega)]
    have := h.count_eq
    have := h.count_le
    omega
  · rw [ss]; exact hk1
  · rw [ss]; exact hk2
  · rw [ss, sq]
    have := h.keys_len
    omega
  · rw [sf1, sf2]; exact hf1
  · rw [sf3, sf2]; exact hf2
  · rw [sf3]; exact hf3
  · rw [sb]; exact hb
  · rw [sN, sb, sq]
    intro _ hN1 hN mp hmp
    rw [hcor]
    exact (hsurv mp hmp hN1 hN).2
  · rw [sN, sb, sq, sm]
    intro _ hN1 hN i
    simp only [hcor]
    have hfold := mask_fold_testBit
      ((dec.media_packets.filter (fec_dec_in_window (fec_dec_fec_before_rescan dec p)
        (fec_packet_snbase p))).map (fec_dec_position (fec_dec_fec_before_rescan dec p))) 0
      (by decide)
      (by
        intro d hd
        rw [List.mem_map] at hd
        obtain ⟨mp, hmp, rfl⟩ := hd
        obtain ⟨e1, e2, e3⟩ := hsurv mp hmp hN1 hN
        omega) i
    rw [List.foldl_map] at hfold
    rw [hfold]
    simp only [Nat.zero_testBit, Bool.false_or, decide_eq_true_eq, List.mem_map]
    constructor
    · rintro ⟨mp, hmp, rfl⟩
      obtain ⟨e1, e2, e3⟩ := hsurv mp hmp hN1 hN
      exact ⟨mp, hmp, by omega⟩
    · rintro ⟨mp, hmp, he⟩
      obtain ⟨e1, e2, e3⟩ := hsurv mp hmp hN1 hN
      exact ⟨mp, hmp, by omega⟩

theorem fec_dec_push_fec_inv (c : Codec) (dec d : fec_dec) (p : GstBuffer)
    (h : fec_dec_inv dec) (ho : fec_dec_open_inv dec)
    (hd : fec_dec_push_fec_packet c dec p = some d) : fec_dec_inv d ∧ fec_dec_open_inv d := by
  by_cases hbl : fec_packet_snbase p = dec.blacklisted_snbase
  · have : fec_dec_push_fec_packet c dec p = some dec := by
      simp [fec_dec_push_fec_packet, hbl]
    rw [this] at hd
    cases Option.some.inj hd
    exact ⟨h, ho⟩
  · by_cases hdup : gst_rtp_buffer_get_seq p ∈ dec.fec_packet_set
    · have : fec_dec_push_fec_packet c dec p = some dec := by
        simp [fec_dec_push_fec_packet, hbl, g_hash_table_lookup_extended, hdup]
      rw [this] at hd
      cases Option.some.inj hd
      exact ⟨h, ho⟩
    · rw [fec_dec_push_fec_accepted c dec p hbl hdup] at hd
      exact fec_dec_check_state_inv c _ d (fec_dec_fec_before_check_inv dec p h hdup) hd

theorem fec_dec_overflow_buffer (dec : fec_dec) (p : GstBuffer)
    (h1 : dec.num_received_media_packets = dec.media_packets.length)
    (h2 : dec.num_received_media_packets ≤ dec.num_media_packets)
    (h3 : dec.media_packets.length ≤ 65536)
    (hk : gst_rtp_buffer_get_seq p ∉ dec.media_packet_set) :
    fec_dec_overflow p (fec_dec_buffer_media dec p) =
      if dec.num_received_media_packets + 1 > dec.num_media_packets then
        { dec with media_packets := (dec.media_packets ++ [p]).tail }
      else
        { dec with
          media_packets := dec.media_packets ++ [p]
          media_packet_set := dec.media_packet_set ++ [gst_rtp_buffer_get_seq p]
          num_received_media_packets := dec.num_received_media_packets + 1 } := by
  have hu : u32 (dec.num_received_media_packets + 1) = dec.num_received_media_packets + 1 := by
    unfold u32; omega
  have hrem : g_hash_table_remove (dec.media_packet_set ++ [gst_rtp_buffer_get_seq p])
      (gst_rtp_buffer_get_seq p) = dec.media_packet_set := by
    unfold g_hash_table_remove
    rw [List.filter_append, List.filter_eq_self.2, List.filter_eq_nil_iff.2]
    · simp
    · intro a ha; rw [List.mem_singleton] at ha; simp [ha]
    · intro a ha
      have : a ≠ gst_rtp_buffer_get_seq p := fun e => hk (e ▸ ha)
      simp [this]
  simp only [fec_dec_overflow, fec_dec_buffer_media, hu, custom_hash_table_add, hk, if_false]
  split_ifs with hov
  · have h1' : dec.num_received_media_packets + 1 - dec.num_media_packets = 1 := by omega
    have h2' : dec.num_received_media_packets = dec.num_media_packets := by omega
    rw [h1']
    simp only [fec_dec_evict, hrem]
    rw [← h2']
  · rfl

theorem mask_or_testBit (m d i : Nat) :
    (u32 (m ||| shl1 d)).testBit i = (decide (i < 32) && (m.testBit i || decide (d = i))) := by
  have h32 : (4294967296 : Nat) = 2 ^ 32 := by norm_num
  rw [u32, h32, Nat.testBit_mod_two_pow, Nat.testBit_or, shl1, Nat.one_shiftLeft,
    Nat.testBit_two_pow]

theorem fec_dec_media_before_check_inv (dec : fec_dec) (p : GstBuffer) (h : fec_dec_inv dec)
    (ho : fec_dec_open_inv dec) (hdup : gst_rtp_buffer_get_seq p ∉ dec.media_packet_set)
    (hin : fec_dec_media_checked dec p = true) :
    fec_dec_inv (fec_dec_media_before_check dec p) := by
  simp only [fec_dec_media_checked, Bool.and_eq_true, Bool.not_eq_true', decide_eq_false_iff_not,
    decide_eq_true_eq] at hin
  obtain ⟨⟨⟨hb, hw1⟩, hw2⟩, hw3⟩ := hin
  have hN1 : 1 ≤ dec.num_media_packets := by omega
  have hcnt := ho hb hN1
  have hmed := fec_dec_inv_media_le dec h
  have hceq := h.count_eq
  have hu : u32 (dec.num_received_media_packets + 1) = dec.num_received_media_packets + 1 := by
    unfold u32; omega
  obtain ⟨ha1, ha2, ha3⟩ := add_key_inv dec.media_packet_set p h.keys_nodup h.keys_lt hdup
  have hsb := h.snbase_lt
  have hcor : ∀ s, fec_dec_correct_seqnum (fec_dec_media_before_check dec p) s
      = fec_dec_correct_seqnum dec s := fun s => fec_dec_correct_seqnum_congr _ dec rfl rfl s
  have hlt := fec_dec_correct_seqnum_lt dec (gst_rtp_buffer_get_seq p)
  have hpw : dec.num_media_packets ≤ 32 →
      dec.cur_snbase ≤ fec_dec_correct_seqnum dec (gst_rtp_buffer_get_seq p) ∧
      fec_dec_correct_seqnum dec (gst_rtp_buffer_get_seq p)
        < dec.cur_snbase + dec.num_media_packets ∧
      u32_sub (fec_dec_correct_seqnum dec (gst_rtp_buffer_get_seq p)) dec.cur_snbase
        = fec_dec_correct_seqnum dec (gst_rtp_buffer_get_seq p) - dec.cur_snbase := by
    intro hN
    generalize fec_dec_correct_seqnum dec (gst_rtp_buffer_get_seq p) = x at hw1 hw2 hw3 hlt ⊢
    unfold u32_sub u32 at hw1 hw3 ⊢
    unfold u32 at hw2
    omega
  constructor
  · show u32 (dec.num_received_media_packets + 1) = (dec.media_packets ++ [p]).length
    rw [hu, List.length_append, List.length_singleton, hceq]
  · show u32 (dec.num_received_media_packets + 1) ≤ dec.num_media_packets
    rw [hu]; omega
  · show (custom_hash_table_add dec.media_packet_set (gst_rtp_buffer_get_seq p)).Nodup
    rw [ha1]; exact ha2
  · show ∀ k ∈ custom_hash_table_add dec.media_packet_set (gst_rtp_buffer_get_seq p), k < 65536
    rw [ha1]; exact ha3
  · show (dec.media_packets ++ [p]).length
      ≤ (custom_hash_table_add dec.media_packet_set (gst_rtp_buffer_get_seq p)).length
    rw [ha1, List.length_append, List.length_append, List.length_singleton,
      List.length_singleton]
    have := h.keys_len
    omega
  · exact h.fec_count
  · exact h.fec_keys
  · exact h.fec_nodup
  · exact h.snbase_lt
  · intro _ _ hN mp hmp
    rw [hcor]
    replace hN : dec.num_media_packets ≤ 32 := hN
    replace hmp : mp ∈ dec.media_packets ++ [p] := hmp
    show dec.cur_snbase ≤ _ ∧ _ < dec.cur_snbase + dec.num_media_packets
    rw [List.mem_append, List.mem_singleton] at hmp
    rcases hmp with hmp | rfl
    · exact h.in_window hb hN1 hN mp hmp
    · exact ⟨(hpw hN).1, (hpw hN).2.1⟩
  · intro _ _ hN i
    simp only [hcor]
    replace hN : dec.num_media_packets ≤ 32 := hN
    obtain ⟨hp1, hp2, hp3⟩ := hpw hN
    show (u32 (dec.received_media_packet_mask ||| shl1 (u32_sub
        (fec_dec_correct_seqnum dec (gst_rtp_buffer_get_seq p)) dec.cur_snbase))).testBit i
        = true ↔
      ∃ mp ∈ dec.media_packets ++ [p],
        fec_dec_correct_seqnum dec (gst_rtp_buffer_get_seq mp) = dec.cur_snbase + i
    rw [mask_or_testBit, hp3]
    have hold := h.mask_bits hb hN1 hN i
    have hwin := h.in_window hb hN1 hN
    simp only [Bool.and_eq_true, decide_eq_true_eq, Bool.or_eq_true, hold, List.mem_append,
      List.mem_singleton]
    clear hold
    constructor
    · rintro ⟨hi, ⟨mp, hmp, he⟩ | he⟩
      · exact ⟨mp, Or.inl hmp, he⟩
      · exact ⟨p, Or.inr rfl, by omega⟩
    · rintro ⟨mp, hmp | rfl, he⟩
      · have hw := hwin mp hmp
        have hi : i < 32 := by clear hwin; omega
        exact ⟨hi, Or.inl ⟨mp, hmp, he⟩⟩
      · clear hwin
        exact ⟨by omega, Or.inr (by omega)⟩

theorem fec_dec_buffer_inv (dec : fec_dec) (p : GstBuffer) (h : fec_dec_inv dec)
    (hu : dec.has_snbase = false) (hk : gst_rtp_buffer_get_seq p ∉ dec.media_packet_set) :
    fec_dec_inv (fec_dec_overflow p (fec_dec_buffer_media dec p)) ∧
    fec_dec_open_inv (fec_dec_overflow p (fec_dec_buffer_media dec p)) := by
  have hmed := fec_dec_inv_media_le dec h
  have hceq := h.count_eq
  have hcle := h.count_le
  have hkl := h.keys_len
  obtain ⟨_, ha2, ha3⟩ := add_key_inv dec.media_packet_set p h.keys_nodup h.keys_lt hk
  rw [fec_dec_overflow_buffer dec p hceq hcle hmed hk]
  split_ifs with hov
  · apply fec_dec_inv_unbound
    · show dec.num_received_media_packets = (dec.media_packets ++ [p]).tail.length
      rw [List.length_tail, List.length_append, List.length_singleton]; omega
    · exact hcle
    · exact h.keys_nodup
    · exact h.keys_lt
    · show (dec.media_packets ++ [p]).tail.length ≤ dec.media_packet_set.length
      rw [List.length_tail, List.length_append, List.length_singleton]; omega
    · exact h.fec_count
    · exact h.fec_keys
    · exact h.fec_nodup
    · exact h.snbase_lt
    · exact hu
  · apply fec_dec_inv_unbound
    · show dec.num_received_media_packets + 1 = (dec.media_packets ++ [p]).length
      rw [List.length_append, List.length_singleton]; omega
    · show dec.num_received_media_packets + 1 ≤ dec.num_media_packets
      omega
    · exact ha2
    · exact ha3
    · show (dec.media_packets ++ [p]).length
        ≤ (dec.media_packet_set ++ [gst_rtp_buffer_get_seq p]).length
      rw [List.length_append, List.length_append, List.length_singleton,
        List.length_singleton]; omega
    · exact h.fec_count
    · exact h.fec_keys
    · exact h.fec_nodup
    · exact h.snbase_lt
    · exact hu

theorem fec_dec_push_media_inv (c : Codec) (dec d : fec_dec) (p : GstBuffer)
    (h : fec_dec_inv dec) (ho : fec_dec_open_inv dec)
    (hd : fec_dec_push_media_packet c dec p = some d) : fec_dec_inv d ∧ fec_dec_open_inv d := by
  by_cases hdup : gst_rtp_buffer_get_seq p ∈ dec.media_packet_set
  · have : fec_dec_push_media_packet c dec p = some dec := by
      simp [fec_dec_push_media_packet, g_hash_table_lookup_extended, hdup]
    rw [this] at hd
    cases Option.some.inj hd
    exact ⟨h, ho⟩
  · by_cases hin : fec_dec_media_checked dec p = true
    · rw [fec_dec_push_media_checked c dec p hdup hin, Option.map_eq_some'] at hd
      obtain ⟨d1, hd1, hd2⟩ := hd
      have hi := fec_dec_check_state_inv c _ d1
        (fec_dec_media_before_check_inv dec p h ho hdup hin) hd1
      rw [fec_dec_overflow_noop p d1 hi.1.count_le] at hd2
      rw [← hd2]; exact hi
    · simp only [fec_dec_media_checked, Bool.and_eq_true, Bool.not_eq_true',
        decide_eq_false_iff_not, decide_eq_true_eq] at hin
      simp only [fec_dec_push_media_packet, g_hash_table_lookup_extended, hdup, decide_False,
        Bool.false_eq_true, if_false] at hd
      by_cases hb : dec.has_snbase = true
      · simp only [hb, if_true] at hd
        by_cases hab : u32_sub (fec_dec_correct_seqnum dec (gst_rtp_buffer_get_seq p))
            dec.cur_snbase ≥ dec.num_media_packets
        · simp only [hab, if_true, Option.some.injEq] at hd
          rw [← hd]
          apply fec_dec_buffer_inv
          · refine (fec_dec_inv_unbound _ ?_ ?_ ?_ ?_ ?_ ?_ ?_ ?_ ?_ ?_).1
            · exact h.count_eq
            · exact h.count_le
            · exact h.keys_nodup
            · exact h.keys_lt
            · exact h.keys_len
            · rfl
            · rfl
            · exact List.nodup_nil
            · exact h.snbase_lt
            · rfl
          · rfl
          · exact hdup
        · have hnw : ¬ (fec_dec_correct_seqnum dec (gst_rtp_buffer_get_seq p)
                ≥ u32 dec.cur_snbase ∧
              fec_dec_correct_seqnum dec (gst_rtp_buffer_get_seq p)
                ≤ u32_sub (u32 dec.cur_snbase + u32 dec.num_media_packets) 1) := by
            rintro ⟨h1, h2⟩
            exact hin ⟨⟨⟨hb, hab⟩, h1⟩, h2⟩
          simp only [hab, if_false, hnw, Option.some.injEq] at hd
          rw [fec_dec_overflow_noop p dec h.count_le] at hd
          rw [← hd]; exact ⟨h, ho⟩
      · have hb' : dec.has_snbase = false := by simpa using hb
        simp only [hb', Bool.false_eq_true, if_false, Option.some.injEq] at hd
        rw [← hd]
        exact fec_dec_buffer_inv dec p h hb' hdup

theorem fec_dec_apply_inv (c : Codec) (dec d : fec_dec) (op : fec_dec_op)
    (h : fec_dec_inv dec) (ho : fec_dec_open_inv dec)
    (hd : fec_dec_apply c dec op = some d) : fec_dec_inv d ∧ fec_dec_open_inv d := by
  cases op with
  | push_media_packet p => exact fec_dec_push_media_inv c dec d p h ho hd
  | push_fec_packet p => exact fec_dec_push_fec_inv c dec d p h ho hd
  | pop_recovered_packet =>
    cases Option.some.inj hd
    exact ⟨fec_dec_inv_congr dec _ h rfl rfl rfl rfl rfl rfl rfl rfl rfl rfl, ho⟩
  | flush_recovered_packets =>
    cases Option.some.inj hd
    exact ⟨fec_dec_inv_congr dec _ h rfl rfl rfl rfl rfl rfl rfl rfl rfl rfl, ho⟩
  | reset =>
    cases Option.some.inj hd
    apply fec_dec_inv_unbound <;>
      simp [fec_dec_reset, fec_dec_flush_recovered_packets, fec_dec_cleanup, h.snbase_lt]
  | set_num_media_packets n =>
    cases Option.some.inj hd
    apply fec_dec_inv_unbound <;>
      simp [fec_dec_set_num_media_packets, fec_dec_reset, fec_dec_flush_recovered_packets,
        fec_dec_cleanup, h.snbase_lt]
  | set_num_fec_packets n =>
    cases Option.some.inj hd
    apply fec_dec_inv_unbound <;>
      simp [fec_dec_set_num_fec_packets, fec_dec_reset, fec_dec_flush_recovered_packets,
        fec_dec_cleanup, h.snbase_lt]

theorem fec_dec_run_inv (c : Codec) (ops : List fec_dec_op) (dec d : fec_dec)
    (h : fec_dec_inv dec) (ho : fec_dec_open_inv dec)
    (hd : fec_dec_run c dec ops = some d) : fec_dec_inv d ∧ fec_dec_open_inv d := by
  induction ops generalizing dec with
  | nil =>
    simp only [fec_dec_run, List.foldlM_nil] at hd
    cases Option.some.inj hd
    exact ⟨h, ho⟩
  | cons op ops ih =>
    simp only [fec_dec_run, List.foldlM_cons] at hd
    cases h1 : fec_dec_apply c dec op with
    | none => rw [h1] at hd; exact absurd hd (by simp)
    | some d1 =>
      rw [h1] at hd
      obtain ⟨hi, hoi⟩ := fec_dec_apply_inv c dec d1 op h ho h1
      exact ih d1 hi hoi hd

/-- C18. Overflow eviction: in every state that public operations reach from
`fec_dec_create`, for every `N`, the received-media count is at most `N`. And when, for
`N ≥ 1`, a media packet with a new key arrives while `N` packets are counted, the push
returns with the oldest packet of the queue removed: the queue is the old queue with
the new packet at its tail and without its head, it holds `N` packets, and the count
is `N`. -/
theorem fec_dec_overflow_eviction (c : Codec) (N K : Nat) (ops : List fec_dec_op)
    (dec : fec_dec) (hrun : fec_dec_run c (fec_dec_create N K) ops = some dec) :
    dec.num_received_media_packets ≤ dec.num_media_packets ∧
    ∀ p, 1 ≤ dec.num_media_packets → gst_rtp_buffer_get_seq p ∉ dec.media_packet_set →
      dec.num_received_media_packets + 1 > dec.num_media_packets →
      ∃ dec', fec_dec_push_media_packet c dec p = some dec' ∧
        dec'.media_packets = (dec.media_packets ++ [p]).drop 1 ∧
        dec'.media_packets.length = dec.num_media_packets ∧
        dec'.num_received_media_packets = dec.num_media_packets := by
  obtain ⟨h, ho⟩ := fec_dec_run_inv c ops _ dec (fec_dec_inv_create N K).1
    (fec_dec_inv_create N K).2 hrun
  refine ⟨h.count_le, ?_⟩
  intro p hN1 hk hov
  have hceq := h.count_eq
  have hcle := h.count_le
  have hb : dec.has_snbase = false := by
    cases hb : dec.has_snbase
    · rfl
    · have := ho hb hN1
      omega
  have hpush : fec_dec_push_media_packet c dec p
      = some (fec_dec_overflow p (fec_dec_buffer_media dec p)) := by
    simp [fec_dec_push_media_packet, g_hash_table_lookup_extended, hk, hb]
  rw [hpush, fec_dec_overflow_buffer dec p hceq hcle (fec_dec_inv_media_le dec h) hk,
    if_pos hov]
  refine ⟨_, rfl, ?_, ?_, ?_⟩
  · show (dec.media_packets ++ [p]).tail = _
    rw [List.drop_one]
  · show (dec.media_packets ++ [p]).tail.length = _
    rw [List.length_tail, List.length_append, List.length_singleton]
    omega
  · show dec.num_received_media_packets = _
    omega

/-- Witness for C18: a decoder with `N = 2` that holds the media packets `1` and `2`
is given the media packet `3`. -/
theorem fec_dec_overflow_eviction_witness :
    ∃ dec', fec_dec_push_media_packet xor_codec
        (fec_dec_with_media 2 1 [media_packet 1 [1, 1], media_packet 2 [2, 2]])
        (media_packet 3 [3, 3]) = some dec' ∧
      dec'.media_packets = [media_packet 2 [2, 2], media_packet 3 [3, 3]] ∧
      dec'.media_packets.length = 2 ∧
      dec'.num_received_media_packets = 2 :=
  (fec_dec_overflow_eviction xor_codec 2 1
    [.push_media_packet (media_packet 1 [1, 1]), .push_media_packet (media_packet 2 [2, 2])]
    (fec_dec_with_media 2 1 [media_packet 1 [1, 1], media_packet 2 [2, 2]])
    (by decide)).2 (media_packet 3 [3, 3]) (by decide) (by decide) (by decide)

/-- C20. Reception-mask invariant: in every state that public operations reach from
`fec_dec_create` and in which a window is bound, for `1 ≤ N ≤ 32` (the range
`1 ≤ N ≤ 24` included), bit `i < N` of the mask is set exactly when the media queue
holds a packet whose corrected sequence number is `snbase + i`, and no bit at a
position `i ≥ N` is set. -/
theorem fec_dec_reception_mask (c : Codec) (N K : Nat) (ops : List fec_dec_op)
    (dec : fec_dec) (hrun : fec_dec_run c (fec_dec_create N K) ops = some dec)
    (hb : dec.has_snbase = true) (hN1 : 1 ≤ dec.num_media_packets)
    (hN : dec.num_media_packets ≤ 32) :
    (∀ i, i < dec.num_media_packets →
      (dec.received_media_packet_mask.testBit i = true ↔
        ∃ mp ∈ dec.media_packets,
          fec_dec_correct_seqnum dec (gst_rtp_buffer_get_seq mp) = dec.cur_snbase + i)) ∧
    (∀ i, dec.num_media_packets ≤ i → dec.received_media_packet_mask.testBit i = false) := by
  obtain ⟨h, _⟩ := fec_dec_run_inv c ops _ dec (fec_dec_inv_create N K).1
    (fec_dec_inv_create N K).2 hrun
  refine ⟨fun i _ => h.mask_bits hb hN1 hN i, ?_⟩
  intro i hi
  cases ht : dec.received_media_packet_mask.testBit i
  · rfl
  · obtain ⟨mp, hmp, he⟩ := (h.mask_bits hb hN1 hN i).1 ht
    have := h.in_window hb hN1 hN mp hmp
    omega

/-- Witness for C20: a fresh decoder with `N = 4` after a repair packet with SN base
`10` and the media packets `10` and `12`; the mask is `5`. -/
theorem fec_dec_reception_mask_witness :
    (two_of_four.received_media_packet_mask.testBit 2 = true ↔
      ∃ mp ∈ two_of_four.media_packets,
        fec_dec_correct_seqnum two_of_four (gst_rtp_buffer_get_seq mp)
          = two_of_four.cur_snbase + 2) ∧
    two_of_four.received_media_packet_mask.testBit 4 = false :=
  have h := fec_dec_reception_mask xor_codec 4 2 open_then_media_ops two_of_four
    (by decide) (by decide) (by decide) (by decide)
  ⟨h.1 2 (by decide), h.2 4 (by decide)⟩

/-- C25. Count and buffer agreement: in every state that public operations reach from
`fec_dec_create`, the received-media count is the length of the media queue and the
received-repair count is the length of the repair queue. -/
theorem fec_dec_count_buffer_agreement (c : Codec) (N K : Nat) (ops : List fec_dec_op)
    (dec : fec_dec) (hrun : fec_dec_run c (fec_dec_create N K) ops = some dec) :
    dec.num_received_media_packets = dec.media_packets.length ∧
    dec.num_received_fec_packets = dec.fec_packets.length := by
  obtain ⟨h, _⟩ := fec_dec_run_inv c ops _ dec (fec_dec_inv_create N K).1
    (fec_dec_inv_create N K).2 hrun
  exact ⟨h.count_eq, h.fec_count⟩

/-- Witness for C25: a fresh decoder with `N = 4` after a repair packet with SN base
`10` and the media packets `10` and `12`. -/
theorem fec_dec_count_buffer_agreement_witness :
    two_of_four.num_received_media_packets = two_of_four.media_packets.length ∧
    two_of_four.num_received_fec_packets = two_of_four.fec_packets.length :=
  fec_dec_count_buffer_agreement xor_codec 4 2 open_then_media_ops two_of_four (by decide)

theorem fec_dec_bound_inv_congr (d1 d2 : fec_dec) (h : fec_dec_bound_inv d1)
    (h1 : d2.has_snbase = d1.has_snbase) (h2 : d2.cur_snbase = d1.cur_snbase)
    (h3 : d2.blacklisted_snbase = d1.blacklisted_snbase) : fec_dec_bound_inv d2 := by
  unfold fec_dec_bound_inv at h ⊢
  rw [h1, h2, h3]; exact h

theorem fec_dec_bound_inv_unbound (dec : fec_dec) (h1 : dec.has_snbase = false)
    (h2 : dec.blacklisted_snbase = dec.cur_snbase) : fec_dec_bound_inv dec := by
  unfold fec_dec_bound_inv
  rw [h1, h2]; simp

theorem fec_dec_check_state_bound (c : Codec) (s d : fec_dec) (h : fec_dec_bound_inv s)
    (hd : fec_dec_check_state c s = some d) : fec_dec_bound_inv d := by
  obtain ⟨l, ⟨rfl, _, _⟩ | ⟨rfl, _⟩⟩ := fec_dec_check_state_frame c s d hd
  · exact fec_dec_bound_inv_congr s _ h rfl rfl rfl
  · exact fec_dec_bound_inv_unbound _ rfl rfl

theorem fec_dec_overflow_bound (p : GstBuffer) (d : fec_dec) (h : fec_dec_bound_inv d) :
    fec_dec_bound_inv (fec_dec_overflow p d) := by
  obtain ⟨_, _, h3, h4, h5, _⟩ := fec_dec_overflow_fields p d
  exact fec_dec_bound_inv_congr d _ h h3 h5 h4

theorem fec_dec_push_fec_bound (c : Codec) (dec d : fec_dec) (p : GstBuffer)
    (h : fec_dec_bound_inv dec) (hd : fec_dec_push_fec_packet c dec p = some d) :
    fec_dec_bound_inv d := by
  by_cases hbl : fec_packet_snbase p = dec.blacklisted_snbase
  · have : fec_dec_push_fec_packet c dec p = some dec := by
      simp [fec_dec_push_fec_packet, hbl]
    rw [this] at hd
    cases Option.some.inj hd
    exact h
  · by_cases hdup : gst_rtp_buffer_get_seq p ∈ dec.fec_packet_set
    · have : fec_dec_push_fec_packet c dec p = some dec := by
        simp [fec_dec_push_fec_packet, hbl, g_hash_table_lookup_extended, hdup]
      rw [this] at hd
      cases Option.some.inj hd
      exact h
    · rw [fec_dec_push_fec_accepted c dec p hbl hdup] at hd
      apply fec_dec_check_state_bound c _ d _ hd
      have h1 : (fec_dec_fec_before_check dec p).has_snbase = true := by
        rw [fec_dec_fec_before_check_eq]; rfl
      have h2 : (fec_dec_fec_before_check dec p).cur_snbase = fec_packet_snbase p := by
        rw [fec_dec_fec_before_check_eq]; rfl
      have h3 : (fec_dec_fec_before_check dec p).blacklisted_snbase
          = dec.blacklisted_snbase := by
        rw [fec_dec_fec_before_check_eq]
        simp only [fec_dec_fec_before_rescan]; split_ifs <;> rfl
      unfold fec_dec_bound_inv
      rw [h1, h2, h3]
      simp [hbl]

theorem fec_dec_push_media_bound (c : Codec) (dec d : fec_dec) (p : GstBuffer)
    (h : fec_dec_bound_inv dec) (hd : fec_dec_push_media_packet c dec p = some d) :
    fec_dec_bound_inv d := by
  by_cases hdup : gst_rtp_buffer_get_seq p ∈ dec.media_packet_set
  · have : fec_dec_push_media_packet c dec p = some dec := by
      simp [fec_dec_push_media_packet, g_hash_table_lookup_extended, hdup]
    rw [this] at hd
    cases Option.some.inj hd
    exact h
  · by_cases hin : fec_dec_media_checked dec p = true
    · rw [fec_dec_push_media_checked c dec p hdup hin, Option.map_eq_some'] at hd
      obtain ⟨d1, hd1, hd2⟩ := hd
      rw [← hd2]
      apply fec_dec_overflow_bound
      exact fec_dec_check_state_bound c (fec_dec_media_before_check dec p) d1
        (fec_dec_bound_inv_congr dec _ h rfl rfl rfl) hd1
    · simp only [fec_dec_media_checked, Bool.and_eq_true, Bool.not_eq_true',
        decide_eq_false_iff_not, decide_eq_true_eq] at hin
      simp only [fec_dec_push_media_packet, g_hash_table_lookup_extended, hdup, decide_False,
        Bool.false_eq_true, if_false] at hd
      split_ifs at hd with hb hab hw
      · simp only [Option.some.injEq] at hd
        rw [← hd]
        apply fec_dec_overflow_bound
        exact fec_dec_bound_inv_unbound _ rfl rfl
      · exact absurd ⟨⟨⟨hb, hab⟩, hw.1⟩, hw.2⟩ hin
      · simp only [Option.some.injEq] at hd
        rw [← hd]
        exact fec_dec_overflow_bound p dec h
      · simp only [Option.some.injEq] at hd
        rw [← hd]
        apply fec_dec_overflow_bound
        exact fec_dec_bound_inv_congr dec _ h rfl rfl rfl

theorem fec_dec_apply_bound (c : Codec) (dec d : fec_dec) (op : fec_dec_op)
    (h : fec_dec_bound_inv dec) (hd : fec_dec_apply c dec op = some d) :
    fec_dec_bound_inv d := by
  cases op with
  | push_media_packet p => exact fec_dec_push_media_bound c dec d p h hd
  | push_fec_packet p => exact fec_dec_push_fec_bound c dec d p h hd
  | pop_recovered_packet =>
    cases Option.some.inj hd
    exact fec_dec_bound_inv_congr dec _ h rfl rfl rfl
  | flush_recovered_packets =>
    cases Option.some.inj hd
    exact fec_dec_bound_inv_congr dec _ h rfl rfl rfl
  | reset =>
    cases Option.some.inj hd
    exact fec_dec_bound_inv_unbound _ rfl rfl
  | set_num_media_packets n =>
    cases Option.some.inj hd
    exact fec_dec_bound_inv_unbound _ rfl rfl
  | set_num_fec_packets n =>
    cases Option.some.inj hd
    exact fec_dec_bound_inv_unbound _ rfl rfl

theorem fec_dec_run_bound (c : Codec) (ops : List fec_dec_op) (dec d : fec_dec)
    (h : fec_dec_bound_inv dec) (hd : fec_dec_run c dec ops = some d) :
    fec_dec_bound_inv d := by
  induction ops generalizing dec with
  | nil =>
    simp only [fec_dec_run, List.foldlM_nil] at hd
    cases Option.some.inj hd
    exact h
  | cons op ops ih =>
    simp only [fec_dec_run, List.foldlM_cons] at hd
    cases h1 : fec_dec_apply c dec op with
    | none => rw [h1] at hd; exact absurd hd (by simp)
    | some d1 =>
      rw [h1] at hd
      exact ih d1 (fec_dec_apply_bound c dec d1 op h h1) hd

/-- C26. Bound flag and blacklist: in every state that public operations reach from
`fec_dec_create`, a window is bound exactly when the current snbase differs from the
blacklisted snbase. In particular, while no window is bound the two are equal, and a
repair packet whose SN base is the current snbase is dropped with the decoder
unchanged. -/
theorem fec_dec_bound_flag_blacklist (c : Codec) (N K : Nat) (ops : List fec_dec_op)
    (dec : fec_dec) (hrun : fec_dec_run c (fec_dec_create N K) ops = some dec) :
    (dec.has_snbase = true ↔ dec.cur_snbase ≠ dec.blacklisted_snbase) ∧
    (dec.has_snbase = false → dec.cur_snbase = dec.blacklisted_snbase ∧
      ∀ p, fec_packet_snbase p = dec.cur_snbase →
        fec_dec_push_fec_packet c dec p = some dec) := by
  have h : fec_dec_bound_inv dec :=
    fec_dec_run_bound c ops _ dec (fec_dec_bound_inv_unbound _ rfl rfl) hrun
  refine ⟨h, ?_⟩
  intro hu
  have he : dec.cur_snbase = dec.blacklisted_snbase := by
    by_contra hne
    have := h.2 hne
    rw [hu] at this
    exact absurd this (by simp)
  refine ⟨he, ?_⟩
  intro p hp
  simp [fec_dec_push_fec_packet, hp, he]

/-- Witness for C26: the decoder that has resolved the window `[10, 14)`, reached by the
media packets `10, 11, 12, 13` and a repair packet with SN base `10`. -/
theorem fec_dec_bound_flag_blacklist_witness :
    (fec_dec_cleanup open_window).has_snbase = false ∧
    (fec_dec_cleanup open_window).cur_snbase
      = (fec_dec_cleanup open_window).blacklisted_snbase ∧
    fec_dec_push_fec_packet xor_codec (fec_dec_cleanup open_window) (repair_packet 101 10 1)
      = some (fec_dec_cleanup open_window) :=
  have h := (fec_dec_bound_flag_blacklist xor_codec 4 2
    [.push_media_packet (media_packet 10 [1, 1]), .push_media_packet (media_packet 11 [2, 2]),
     .push_media_packet (media_packet 12 [3, 3]), .push_media_packet (media_packet 13 [4, 4]),
     .push_fec_packet (repair_packet 100 10 0)]
    (fec_dec_cleanup open_window) (by decide)).2 (by decide)
  ⟨by decide, h.1, h.2 (repair_packet 101 10 1) (by decide)⟩

theorem fec_dec_push_media_abandon (c : Codec) (dec : fec_dec) (p : GstBuffer)
    (hopen : dec.has_snbase = true)
    (hnew : gst_rtp_buffer_get_seq p ∉ dec.media_packet_set)
    (hdist : u32_sub (fec_dec_correct_seqnum dec (gst_rtp_buffer_get_seq p)) dec.cur_snbase
      ≥ dec.num_media_packets) :
    fec_dec_push_media_packet c dec p
      = some (fec_dec_overflow p (fec_dec_buffer_media (fec_dec_abandon_window dec) p)) := by
  simp only [fec_dec_push_media_packet, g_hash_table_lookup_extended, hnew, decide_False,
    Bool.false_eq_true, if_false, hopen, if_true, hdist, fec_dec_abandon_window]

theorem fec_dec_abandon_fields (dec : fec_dec) (p : GstBuffer) :
    (fec_dec_overflow p (fec_dec_buffer_media (fec_dec_abandon_window dec) p)).has_snbase
      = false ∧
    (fec_dec_overflow p (fec_dec_buffer_media (fec_dec_abandon_window dec) p)).blacklisted_snbase
      = dec.cur_snbase ∧
    (fec_dec_overflow p (fec_dec_buffer_media (fec_dec_abandon_window dec) p)).fec_packets
      = [] ∧
    (fec_dec_overflow p (fec_dec_buffer_media (fec_dec_abandon_window dec) p)).fec_packet_set
      = [] ∧
    (fec_dec_overflow p
      (fec_dec_buffer_media (fec_dec_abandon_window dec) p)).num_received_fec_packets = 0 := by
  obtain ⟨_, h2, h3, h4, _, h6, h7, _⟩ := fec_dec_overflow_fields p
    (fec_dec_buffer_media (fec_dec_abandon_window dec) p)
  rw [h2, h3, h4, h6, h7]
  exact ⟨rfl, rfl, rfl, rfl, rfl⟩

/-- The last `else` branch of `fec_dec_push_media_packet` is not reached: for
`N ≤ 65536`, a bound window whose snbase fits sixteen bits and a media packet whose key
is not in the media key set, the test of that branch is false. A packet whose corrected
sequence number lies in `[snbase, snbase + N)` is appended to the media queue and goes
to the completion check; every other packet, a packet behind the window included,
takes the branch that gives up the window: the push returns with no window bound, the
old snbase on the blacklist, and the repair queue, its key set and the repair count
cleared. -/
theorem fec_dec_silent_drop_unreachable (c : Codec) (dec : fec_dec) (p : GstBuffer)
    (hN : dec.num_media_packets ≤ 65536) (hopen : dec.has_snbase = true)
    (hb : dec.cur_snbase < 65536)
    (hnew : gst_rtp_buffer_get_seq p ∉ dec.media_packet_set) :
    fec_dec_media_dropped dec p = false ∧
    (dec.cur_snbase ≤ fec_dec_correct_seqnum dec (gst_rtp_buffer_get_seq p) ∧
        fec_dec_correct_seqnum dec (gst_rtp_buffer_get_seq p)
          < dec.cur_snbase + dec.num_media_packets →
      fec_dec_push_media_packet c dec p
        = (fec_dec_check_state c (fec_dec_media_before_check dec p)).map
            (fec_dec_overflow p) ∧
      (fec_dec_media_before_check dec p).media_packets = dec.media_packets ++ [p]) ∧
    (fec_dec_correct_seqnum dec (gst_rtp_buffer_get_seq p) < dec.cur_snbase ∨
        dec.cur_snbase + dec.num_media_packets
          ≤ fec_dec_correct_seqnum dec (gst_rtp_buffer_get_seq p) →
      ∃ dec', fec_dec_push_media_packet c dec p = some dec' ∧
        dec'.has_snbase = false ∧ dec'.blacklisted_snbase = dec.cur_snbase ∧
        dec'.fec_packets = [] ∧ dec'.fec_packet_set = [] ∧
        dec'.num_received_fec_packets = 0) := by
  have hlt := fec_dec_correct_seqnum_lt dec (gst_rtp_buffer_get_seq p)
  have harith :
      (dec.cur_snbase ≤ fec_dec_correct_seqnum dec (gst_rtp_buffer_get_seq p) ∧
        fec_dec_correct_seqnum dec (gst_rtp_buffer_get_seq p)
          < dec.cur_snbase + dec.num_media_packets →
        ¬ (u32_sub (fec_dec_correct_seqnum dec (gst_rtp_buffer_get_seq p)) dec.cur_snbase
            ≥ dec.num_media_packets) ∧
        fec_dec_correct_seqnum dec (gst_rtp_buffer_get_seq p) ≥ u32 dec.cur_snbase ∧
        fec_dec_correct_seqnum dec (gst_rtp_buffer_get_seq p)
          ≤ u32_sub (u32 dec.cur_snbase + u32 dec.num_media_packets) 1) ∧
      (fec_dec_correct_seqnum dec (gst_rtp_buffer_get_seq p) < dec.cur_snbase ∨
        dec.cur_snbase + dec.num_media_packets
          ≤ fec_dec_correct_seqnum dec (gst_rtp_buffer_get_seq p) →
        u32_sub (fec_dec_correct_seqnum dec (gst_rtp_buffer_get_seq p)) dec.cur_snbase
          ≥ dec.num_media_packets) := by
    generalize fec_dec_correct_seqnum dec (gst_rtp_buffer_get_seq p) = x at hlt ⊢
    unfold u32_sub u32
    constructor
    · intro h; omega
    · intro h; omega
  refine ⟨?_, ?_, ?_⟩
  · by_cases hin : dec.cur_snbase ≤ fec_dec_correct_seqnum dec (gst_rtp_buffer_get_seq p) ∧
        fec_dec_correct_seqnum dec (gst_rtp_buffer_get_seq p)
          < dec.cur_snbase + dec.num_media_packets
    · obtain ⟨_, h2, h3⟩ := harith.1 hin
      simp [fec_dec_media_dropped, h2, h3]
    · have h1 := harith.2 (by omega)
      simp [fec_dec_media_dropped, h1]
  · intro hin
    obtain ⟨h1, h2, h3⟩ := harith.1 hin
    refine ⟨fec_dec_push_media_checked c dec p hnew ?_, rfl⟩
    simp [fec_dec_media_checked, hopen, h1, h2, h3]
  · intro hout
    have h1 := harith.2 hout
    refine ⟨_, fec_dec_push_media_abandon c dec p hopen hnew h1, ?_⟩
    exact fec_dec_abandon_fields dec p

/-- The media packet `7`, behind the window `[10, 14)`, passes the duplicate test and
gives up the window. -/
theorem fec_dec_silent_drop_unreachable_witness :
    ∃ dec', fec_dec_push_media_packet xor_codec open_window (media_packet 7 [1, 1]) = some dec' ∧
      dec'.has_snbase = false ∧ dec'.blacklisted_snbase = open_window.cur_snbase ∧
      dec'.fec_packets = [] ∧ dec'.fec_packet_set = [] ∧
      dec'.num_received_fec_packets = 0 :=
  (fec_dec_silent_drop_unreachable xor_codec open_window (media_packet 7 [1, 1])
    (by decide) (by decide) (by decide) (by decide)).2.2 (Or.inl (by decide))

/-- Stale-window abandonment behind the duplicate test: in every state that public
operations reach from
`fec_dec_create` with a window bound and `N ≥ 1`, the push of a media packet whose key
is not in the media key set and whose corrected sequence number is at `snbase + N` or
beyond returns with the repair queue and its key set empty, the received-repair count
`0`, no window bound, the old snbase on the blacklist, and the media queue the old
queue with the new packet at its tail. -/
theorem fec_dec_stale_window_abandonment (c : Codec) (N K : Nat) (ops : List fec_dec_op)
    (dec : fec_dec) (p : GstBuffer)
    (hrun : fec_dec_run c (fec_dec_create N K) ops = some dec)
    (hN1 : 1 ≤ dec.num_media_packets) (hopen : dec.has_snbase = true)
    (hnew : gst_rtp_buffer_get_seq p ∉ dec.media_packet_set)
    (hfar : dec.cur_snbase + dec.num_media_packets
      ≤ fec_dec_correct_seqnum dec (gst_rtp_buffer_get_seq p)) :
    ∃ dec', fec_dec_push_media_packet c dec p = some dec' ∧
      dec'.fec_packets = [] ∧ dec'.fec_packet_set = [] ∧
      dec'.num_received_fec_packets = 0 ∧ dec'.has_snbase = false ∧
      dec'.blacklisted_snbase = dec.cur_snbase ∧
      dec'.media_packets = dec.media_packets ++ [p] := by
  obtain ⟨h, ho⟩ := fec_dec_run_inv c ops _ dec (fec_dec_inv_create N K).1
    (fec_dec_inv_create N K).2 hrun
  have hcnt := ho hopen hN1
  have hlt := fec_dec_correct_seqnum_lt dec (gst_rtp_buffer_get_seq p)
  have hsb := h.snbase_lt
  have hdist : u32_sub (fec_dec_correct_seqnum dec (gst_rtp_buffer_get_seq p))
      dec.cur_snbase ≥ dec.num_media_packets := by
    unfold u32_sub u32
    omega
  obtain ⟨f1, f2, f3, f4, f5⟩ := fec_dec_abandon_fields dec p
  refine ⟨_, fec_dec_push_media_abandon c dec p hopen hnew hdist, f3, f4, f5, f1, f2, ?_⟩
  rw [fec_dec_overflow_buffer (fec_dec_abandon_window dec) p h.count_eq h.count_le
    (fec_dec_inv_media_le dec h) hnew]
  have hno : ¬ ((fec_dec_abandon_window dec).num_received_media_packets + 1
      > (fec_dec_abandon_window dec).num_media_packets) := by
    show ¬ (dec.num_received_media_packets + 1 > dec.num_media_packets)
    omega
  rw [if_neg hno]
  rfl

/-- The media packet `20`, whose key is new, arrives at the window `[10, 14)`, which holds
one repair packet and the media packets `10` and `12`. -/
theorem fec_dec_stale_window_abandonment_witness :
    ∃ dec', fec_dec_push_media_packet xor_codec two_of_four (media_packet 20 [1, 1]) = some dec' ∧
      dec'.fec_packets = [] ∧ dec'.fec_packet_set = [] ∧
      dec'.num_received_fec_packets = 0 ∧ dec'.has_snbase = false ∧
      dec'.blacklisted_snbase = 10 ∧
      dec'.media_packets
        = [media_packet 10 [1, 1], media_packet 12 [3, 3], media_packet 20 [1, 1]] :=
  fec_dec_stale_window_abandonment xor_codec 4 2 open_then_media_ops two_of_four
    (media_packet 20 [1, 1]) (by decide) (by decide) (by decide) (by decide) (by decide)

/-- C22. Malformed repair packets are not rejected. A fresh decoder with `N = 4` and
`K = 2` queues the repair packet with FEC index `7` and opens the window of its SN
base; the recovery that the third media packet of that window starts then stores
outside the table of `N + K` entries, so that the run does not return. The same
decoder queues a repair packet with a payload of two bytes and opens its window. -/
theorem fec_dec_malformed_repair_accepted :
    fec_packet_index (repair_packet 100 10 7) = 7 ∧
    (fec_dec_create 4 2).num_fec_packets = 2 ∧
    fec_dec_push_fec_packet xor_codec (fec_dec_create 4 2) (repair_packet 100 10 7)
      = some { fec_dec_create 4 2 with
          cur_snbase := 10
          has_snbase := true
          fec_packets := [repair_packet 100 10 7]
          fec_packet_set := [100]
          num_received_fec_packets := 1 } ∧
    fec_dec_run xor_codec (fec_dec_create 4 2) bad_index_ops = none ∧
    (fec_data_of short_repair_packet).length = 2 ∧
    fec_dec_push_fec_packet xor_codec (fec_dec_create 4 2) short_repair_packet
      = some { fec_dec_create 4 2 with
          cur_snbase := 10
          has_snbase := true
          fec_packets := [short_repair_packet]
          fec_packet_set := [101]
          num_received_fec_packets := 1 } := by
  decide

/-- C23, counterexample: an encoder with `N = 2` and payload type `99` takes the
first media packet of a block, then `fec_enc_set_payload_type` with `100`, then the
second media packet. The repair packet of that block carries `100`, in its RTP header
and in byte `4` of its FEC header. -/
theorem fec_enc_payload_type_in_flight :
    (fec_enc_create 2 1 99 7).payload_type = 99 ∧
    (fec_enc_run xor_codec (fec_enc_create 2 1 99 7) payload_type_ops).map
        (fun e => e.fec_packets.map
          (fun q => (q.payload_type, byte_at (GST_BUFFER_DATA q) 1, byte_at (fec_data_of q) 4)))
      = some [(100, 100, 100)] := by
  decide

/-- C23. Changes of the configuration of the encoder. `fec_enc_set_payload_type` takes
effect at once: when it is called while a block is in flight and the media packets
`ps` and then `packet` complete that block, each of the `K` repair packets of the block
carries the new payload type, as a `guint8` below `0x80` in its RTP header and cut to
seven bits in byte `4` of its FEC header. `fec_enc_set_num_media_packets` and
`fec_enc_set_num_fec_packets` leave the accumulator and the repair queue empty, the
fill count `0` and the running maximum `0`, with the new value in place. -/
theorem fec_enc_configuration_changes (c : Codec) (enc : fec_enc) (pt n : Nat)
    (ps : List GstBuffer) (packet first : GstBuffer) (rest : List GstBuffer)
    (hq : enc.fec_packets = []) (hN32 : enc.num_media_packets < 4294967296)
    (hcur : enc.cur_num_media_packets + ps.length + 1 = enc.num_media_packets)
    (hmp : enc.media_packets ++ ps ++ [packet] = first :: rest) :
    (∃ enc', (ps ++ [packet]).foldlM (fec_enc_push_media_packet c)
        (fec_enc_set_payload_type enc pt) = some enc' ∧
      enc'.fec_packets.length = enc.num_fec_packets ∧
      ∀ q ∈ enc'.fec_packets,
        q.payload_type = (if pt % 256 < 128 then pt % 256 else 0) ∧
        byte_at (fec_data_of q) 4 = pt % 128) ∧
    fec_enc_set_num_media_packets enc n =
      { enc with media_packets := [], fec_packets := [], max_packet_size := 0,
                 cur_num_media_packets := 0, num_media_packets := n } ∧
    fec_enc_set_num_fec_packets enc n =
      { enc with media_packets := [], fec_packets := [], max_packet_size := 0,
                 cur_num_media_packets := 0, num_fec_packets := n } := by
  refine ⟨?_, rfl, rfl⟩
  rw [List.foldlM_append,
    fec_enc_push_accumulate c ps (fec_enc_set_payload_type enc pt) hq hN32
      (by show enc.cur_num_media_packets + ps.length < enc.num_media_packets; omega)]
  simp only [Option.bind_eq_bind, Option.some_bind, List.foldlM_cons, List.foldlM_nil]
  have key := fun e h1 h2 h3 h4 => fec_enc_push_completes c e packet first rest h1 h2 h3 h4
  rw [key]
  · simp only [Option.some_bind, Option.pure_def]
    refine ⟨_, rfl, ?_, ?_⟩
    · simp only [fec_enc_block_packets_length]
      rfl
    · intro q hq'
      simp only [fec_enc_block_packets, List.mem_map, List.mem_range] at hq'
      obtain ⟨k, _, rfl⟩ := hq'
      refine ⟨rfl, ?_⟩
      rw [new_fec_packet_fec_data]
      simp only [fec_header, byte_at, List.cons_append, List.getD_cons_zero,
        List.getD_cons_succ, and_127, fec_enc_set_payload_type]
      omega
  · exact hq
  · exact hN32
  · exact hcur
  · exact hmp

/-- Witness for C23: an encoder with `N = 3` that holds the first media packet of a
block is given the payload type `100` and then the other two media packets. -/
theorem fec_enc_configuration_changes_witness :
    ∃ enc', ([media_packet 1001 [3, 4]] ++ [media_packet 1002 [5, 6]]).foldlM
        (fec_enc_push_media_packet xor_codec)
        (fec_enc_set_payload_type
          { fec_enc_create 3 2 99 7 with
            media_packets := [media_packet 1000 [1, 2]]
            max_packet_size := 14
            cur_num_media_packets := 1 } 100) = some enc' ∧
      enc'.fec_packets.length = 2 ∧
      ∀ q ∈ enc'.fec_packets,
        q.payload_type = (if 100 % 256 < 128 then 100 % 256 else 0) ∧
        byte_at (fec_data_of q) 4 = 100 % 128 :=
  (fec_enc_configuration_changes xor_codec
    { fec_enc_create 3 2 99 7 with
      media_packets := [media_packet 1000 [1, 2]]
      max_packet_size := 14
      cur_num_media_packets := 1 } 100 0
    [media_packet 1001 [3, 4]] (media_packet 1002 [5, 6]) (media_packet 1000 [1, 2])
    [media_packet 1001 [3, 4], media_packet 1002 [5, 6]]
    rfl (by decide) rfl rfl).1

theorem tab_store_all_spec (l : List (Nat × List Nat)) (tab tab' : List (Option (List Nat)))
    (h : tab_store_all l tab = some tab') :
    tab'.length = tab.length ∧
    (∀ e ∈ l, e.1 < tab.length) ∧
    (∀ e ∈ l, ∃ e' ∈ l, e'.1 = e.1 ∧ tab'[e.1]? = some (some e'.2)) ∧
    (∀ i, (∀ e ∈ l, e.1 ≠ i) → tab'[i]? = tab[i]?) := by
  induction l generalizing tab with
  | nil =>
    simp only [tab_store_all, Option.some.injEq] at h
    subst h
    simp
  | cons e rest ih =>
    obtain ⟨i, v⟩ := e
    simp only [tab_store_all, tab_store] at h
    by_cases hi : i < tab.length
    · simp only [hi, if_true] at h
      obtain ⟨h1, h2, h3, h4⟩ := ih _ h
      rw [List.length_set] at h1 h2
      refine ⟨h1, ?_, ?_, ?_⟩
      · intro e he
        rcases List.mem_cons.mp he with rfl | he
        · exact hi
        · exact h2 e he
      · intro e he
        rcases List.mem_cons.mp he with rfl | he
        · by_cases hex : ∃ e' ∈ rest, e'.1 = i
          · obtain ⟨e', he', hei⟩ := hex
            obtain ⟨e'', he'', h5, h6⟩ := h3 e' he'
            exact ⟨e'', List.mem_cons_of_mem _ he'', by rw [h5, hei], by
              show tab'[i]? = _
              rw [← hei]; exact h6⟩
          · refine ⟨(i, v), List.mem_cons_self _ _, rfl, ?_⟩
            show tab'[i]? = _
            rw [h4 i (fun e' he' hc => hex ⟨e', he', hc⟩), List.getElem?_set_self hi]
        · obtain ⟨e', he', h5, h6⟩ := h3 e he
          exact ⟨e', List.mem_cons_of_mem _ he', h5, h6⟩
      · intro j hj
        have hji : i ≠ j := hj (i, v) (List.mem_cons_self _ _)
        rw [h4 j (fun e he => hj e (List.mem_cons_of_mem _ he)), List.getElem?_set_ne hji]
    · simp [hi] at h

theorem tab_store_all_total (l : List (Nat × List Nat)) (tab : List (Option (List Nat)))
    (h : ∀ e ∈ l, e.1 < tab.length) : ∃ tab', tab_store_all l tab = some tab' := by
  induction l generalizing tab with
  | nil => exact ⟨tab, rfl⟩
  | cons e rest ih =>
    obtain ⟨i, v⟩ := e
    have hi : i < tab.length := h (i, v) (List.mem_cons_self _ _)
    simp only [tab_store_all, tab_store, hi, if_true]
    apply ih
    intro e he
    rw [List.length_set]
    exact h e (List.mem_cons_of_mem _ he)

theorem fec_dec_tab_media_eq (dec : fec_dec) (l : List GstBuffer)
    (tab : List (Option (List Nat))) :
    fec_dec_tab_media dec l tab =
      tab_store_all (l.map (fun mp => (fec_dec_position dec mp, GST_BUFFER_DATA mp))) tab := by
  induction l generalizing tab with
  | nil => rfl
  | cons mp rest ih =>
    simp only [fec_dec_tab_media, List.map_cons, tab_store_all, fec_dec_position]
    cases tab_store tab _ (GST_BUFFER_DATA mp) with
    | none => rfl
    | some tab1 => exact ih tab1

theorem fec_dec_tab_fec_eq (dec : fec_dec) (l : List GstBuffer)
    (tab : List (Option (List Nat))) :
    fec_dec_tab_fec dec l tab =
      tab_store_all (l.map (fun fp =>
        (u32 (fec_packet_index fp + dec.num_media_packets), (fec_data_of fp).drop 13))) tab := by
  induction l generalizing tab with
  | nil => rfl
  | cons fp rest ih =>
    simp only [fec_dec_tab_fec, List.map_cons, tab_store_all, fec_packet_index]
    cases tab_store tab _ ((fec_data_of fp).drop 13) with
    | none => rfl
    | some tab1 => exact ih tab1

theorem fec_dec_recover_packets_eq (c : Codec) (dec : fec_dec) :
    fec_dec_recover_packets c dec =
      if dec.has_snbase = true ∧ dec.max_packet_size > 0 then
        (fec_dec_symbol_table dec).map (fun tab =>
          (c.decode dec.num_media_packets dec.num_fec_packets dec.max_packet_size tab).foldl
            fec_dec_source_packet_cb dec)
      else none := by
  unfold fec_dec_recover_packets fec_dec_symbol_table
  split_ifs
  · simp only
    cases fec_dec_tab_media dec dec.media_packets _ with
    | none => rfl
    | some tab1 =>
      simp only
      cases fec_dec_tab_fec dec dec.fec_packets tab1 <;> rfl
  · rfl

theorem fec_dec_max_inv_unbound (dec : fec_dec) (h : dec.has_snbase = false) :
    fec_dec_max_inv dec := by
  intro hb; rw [h] at hb; exact absurd hb (by simp)

theorem fec_dec_max_inv_congr (d1 d2 : fec_dec) (h : fec_dec_max_inv d1)
    (h1 : d2.has_snbase = d1.has_snbase) (h2 : d2.max_packet_size = d1.max_packet_size)
    (h3 : d2.media_packets = d1.media_packets) : fec_dec_max_inv d2 := by
  unfold fec_dec_max_inv at h ⊢
  rw [h1, h2, h3]; exact h

theorem fec_dec_checked_state_inv (dec s : fec_dec) (op : fec_dec_op)
    (h : fec_dec_inv dec) (ho : fec_dec_open_inv dec) (hm : fec_dec_max_inv dec)
    (hs : fec_dec_checked_state dec op = some s) :
    fec_dec_inv s ∧ fec_dec_max_inv s ∧ s.has_snbase = true ∧
    (∀ mp ∈ s.media_packets, mp ∈ dec.media_packets ∨ op = .push_media_packet mp) := by
  cases op with
  | push_media_packet p =>
    simp only [fec_dec_checked_state] at hs
    split_ifs at hs with hc
    cases Option.some.inj hs
    have hb : dec.has_snbase = true := by
      have := hc.2
      simp only [fec_dec_media_checked, Bool.and_eq_true] at this
      exact this.1.1.1
    refine ⟨fec_dec_media_before_check_inv dec p h ho hc.1 hc.2, ?_, hb, ?_⟩
    · intro _
      show MAX dec.max_packet_size (GST_BUFFER_SIZE p)
        = (dec.media_packets ++ [p]).foldl (fun m mp => MAX m (GST_BUFFER_SIZE mp)) 0
      rw [List.foldl_append, ← hm hb]
      rfl
    · intro mp hmp
      replace hmp : mp ∈ dec.media_packets ++ [p] := hmp
      rw [List.mem_append, List.mem_singleton] at hmp
      rcases hmp with hmp | rfl
      · exact Or.inl hmp
      · exact Or.inr rfl
  | push_fec_packet p =>
    simp only [fec_dec_checked_state] at hs
    split_ifs at hs with hc
    cases Option.some.inj hs
    refine ⟨fec_dec_fec_before_check_inv dec p h hc.2, ?_, ?_, ?_⟩
    · intro _
      rw [fec_dec_fec_before_check_eq]
    · rw [fec_dec_fec_before_check_eq]; rfl
    · intro mp hmp
      rw [fec_dec_fec_before_check_eq] at hmp
      exact Or.inl (List.mem_of_mem_filter hmp)
  | pop_recovered_packet => simp [fec_dec_checked_state] at hs
  | flush_recovered_packets => simp [fec_dec_checked_state] at hs
  | reset => simp [fec_dec_checked_state] at hs
  | set_num_media_packets n => simp [fec_dec_checked_state] at hs
  | set_num_fec_packets n => simp [fec_dec_checked_state] at hs

theorem fec_dec_check_state_max (c : Codec) (s d : fec_dec) (h : fec_dec_max_inv s)
    (hd : fec_dec_check_state c s = some d) : fec_dec_max_inv d := by
  obtain ⟨l, ⟨rfl, _, _⟩ | ⟨rfl, _⟩⟩ := fec_dec_check_state_frame c s d hd
  · exact fec_dec_max_inv_congr s _ h rfl rfl rfl
  · exact fec_dec_max_inv_unbound _ rfl

theorem fec_dec_apply_unchecked (c : Codec) (dec d : fec_dec) (op : fec_dec_op)
    (h : fec_dec_inv dec) (hs : fec_dec_checked_state dec op = none)
    (hd : fec_dec_apply c dec op = some d) :
    (d.has_snbase = false ∧
      ∀ mp ∈ d.media_packets, mp ∈ dec.media_packets ∨ op = .push_media_packet mp) ∨
    (d.has_snbase = dec.has_snbase ∧ d.max_packet_size = dec.max_packet_size ∧
      d.media_packets = dec.media_packets) := by
  have hsub : ∀ (p mp : GstBuffer) (d0 : fec_dec), d0.media_packets = dec.media_packets →
      mp ∈ (fec_dec_overflow p (fec_dec_buffer_media d0 p)).media_packets →
      mp ∈ dec.media_packets ∨ fec_dec_op.push_media_packet p = .push_media_packet mp := by
    intro p mp d0 h0 hmp
    rw [(fec_dec_overflow_fields p _).2.2.2.2.2.2.2.2.2.1] at hmp
    have h1 := List.mem_of_mem_drop hmp
    replace h1 : mp ∈ d0.media_packets ++ [p] := h1
    rw [h0, List.mem_append, List.mem_singleton] at h1
    rcases h1 with h1 | rfl
    · exact Or.inl h1
    · exact Or.inr rfl
  cases op with
  | push_media_packet p =>
    by_cases hdup : gst_rtp_buffer_get_seq p ∈ dec.media_packet_set
    · have : fec_dec_push_media_packet c dec p = some dec := by
        simp [fec_dec_push_media_packet, g_hash_table_lookup_extended, hdup]
      simp only [fec_dec_apply] at hd
      rw [this] at hd
      cases Option.some.inj hd
      exact Or.inr ⟨rfl, rfl, rfl⟩
    · have hin : ¬ fec_dec_media_checked dec p = true := by
        intro hin
        simp [fec_dec_checked_state, hdup, hin] at hs
      simp only [fec_dec_media_checked, Bool.and_eq_true, Bool.not_eq_true',
        decide_eq_false_iff_not, decide_eq_true_eq] at hin
      simp only [fec_dec_apply, fec_dec_push_media_packet, g_hash_table_lookup_extended, hdup,
        decide_False, Bool.false_eq_true, if_false] at hd
      split_ifs at hd with hb hab hw
      · simp only [Option.some.injEq] at hd
        rw [← hd]
        refine Or.inl ⟨(fec_dec_overflow_fields p _).2.2.1, ?_⟩
        intro mp hmp
        refine hsub p mp _ ?_ hmp
        rfl
      · exact absurd ⟨⟨⟨hb, hab⟩, hw.1⟩, hw.2⟩ hin
      · simp only [Option.some.injEq] at hd
        rw [fec_dec_overflow_noop p dec h.count_le] at hd
        rw [← hd]
        exact Or.inr ⟨rfl, rfl, rfl⟩
      · simp only [Option.some.injEq] at hd
        rw [← hd]
        refine Or.inl ⟨?_, ?_⟩
        · rw [(fec_dec_overflow_fields p _).2.2.1]
          simpa using hb
        · intro mp hmp
          exact hsub p mp dec rfl hmp
  | push_fec_packet p =>
    simp only [fec_dec_apply] at hd
    by_cases hbl : fec_packet_snbase p = dec.blacklisted_snbase
    · have : fec_dec_push_fec_packet c dec p = some dec := by
        simp [fec_dec_push_fec_packet, hbl]
      rw [this] at hd
      cases Option.some.inj hd
      exact Or.inr ⟨rfl, rfl, rfl⟩
    · by_cases hdup : gst_rtp_buffer_get_seq p ∈ dec.fec_packet_set
      · have : fec_dec_push_fec_packet c dec p = some dec := by
          simp [fec_dec_push_fec_packet, hbl, g_hash_table_lookup_extended, hdup]
        rw [this] at hd
        cases Option.some.inj hd
        exact Or.inr ⟨rfl, rfl, rfl⟩
      · simp [fec_dec_checked_state, hbl, hdup] at hs
  | pop_recovered_packet =>
    cases Option.some.inj hd
    exact Or.inr ⟨rfl, rfl, rfl⟩
  | flush_recovered_packets =>
    cases Option.some.inj hd
    exact Or.inr ⟨rfl, rfl, rfl⟩
  | reset =>
    cases Option.some.inj hd
    exact Or.inl ⟨rfl, fun mp hmp => absurd hmp (List.not_mem_nil _)⟩
  | set_num_media_packets n =>
    cases Option.some.inj hd
    exact Or.inl ⟨rfl, fun mp hmp => absurd hmp (List.not_mem_nil _)⟩
  | set_num_fec_packets n =>
    cases Option.some.inj hd
    exact Or.inl ⟨rfl, fun mp hmp => absurd hmp (List.not_mem_nil _)⟩

theorem fec_dec_apply_checked (c : Codec) (dec s d : fec_dec) (op : fec_dec_op)
    (hi : fec_dec_inv s) (hs : fec_dec_checked_state dec op = some s)
    (hd : fec_dec_apply c dec op = some d) :
    ∃ l, d = { s with recovered_packets := s.recovered_packets ++ l } ∨
      d = fec_dec_cleanup { s with recovered_packets := s.recovered_packets ++ l } := by
  rcases fec_dec_checked_state_apply c dec s op hs with ⟨p, _, hp⟩ | ⟨p, _, hp⟩
  · rw [hp] at hd
    obtain ⟨l, h1 | h1⟩ := fec_dec_check_state_frame c s d hd
    · exact ⟨l, Or.inl h1.1⟩
    · exact ⟨l, Or.inr h1.1⟩
  · rw [hp, Option.map_eq_some'] at hd
    obtain ⟨d1, hd1, hd2⟩ := hd
    have hle := (fec_dec_check_state_inv c s d1 hi hd1).1.count_le
    rw [fec_dec_overflow_noop p d1 hle] at hd2
    subst hd2
    obtain ⟨l, h1 | h1⟩ := fec_dec_check_state_frame c s d1 hd1
    · exact ⟨l, Or.inl h1.1⟩
    · exact ⟨l, Or.inr h1.1⟩

theorem fec_dec_apply_max (c : Codec) (dec d : fec_dec) (op : fec_dec_op)
    (h : fec_dec_inv dec) (ho : fec_dec_open_inv dec) (hm : fec_dec_max_inv dec)
    (hd : fec_dec_apply c dec op = some d) : fec_dec_max_inv d := by
  cases hs : fec_dec_checked_state dec op with
  | none =>
    rcases fec_dec_apply_unchecked c dec d op h hs hd with h1 | ⟨h1, h2, h3⟩
    · exact fec_dec_max_inv_unbound d h1.1
    · exact fec_dec_max_inv_congr dec d hm h1 h2 h3
  | some s =>
    obtain ⟨hi, hms, _, _⟩ := fec_dec_checked_state_inv dec s op h ho hm hs
    obtain ⟨l, rfl | rfl⟩ := fec_dec_apply_checked c dec s d op hi hs hd
    · exact fec_dec_max_inv_congr s _ hms rfl rfl rfl
    · exact fec_dec_max_inv_unbound _ rfl

theorem fec_dec_apply_media_subset (c : Codec) (dec d : fec_dec) (op : fec_dec_op)
    (h : fec_dec_inv dec) (ho : fec_dec_open_inv dec) (hm : fec_dec_max_inv dec)
    (hd : fec_dec_apply c dec op = some d) :
    ∀ mp ∈ d.media_packets, mp ∈ dec.media_packets ∨ op = .push_media_packet mp := by
  cases hs : fec_dec_checked_state dec op with
  | none =>
    rcases fec_dec_apply_unchecked c dec d op h hs hd with h1 | ⟨_, _, h3⟩
    · exact h1.2
    · intro mp hmp; rw [h3] at hmp; exact Or.inl hmp
  | some s =>
    obtain ⟨hi, _, _, hsub⟩ := fec_dec_checked_state_inv dec s op h ho hm hs
    obtain ⟨l, rfl | rfl⟩ := fec_dec_apply_checked c dec s d op hi hs hd
    · exact hsub
    · intro mp hmp; exact absurd hmp (List.not_mem_nil _)

theorem fec_dec_run_max (c : Codec) (P : GstBuffer → Prop) (ops : List fec_dec_op)
    (dec d : fec_dec)
    (h : fec_dec_inv dec) (ho : fec_dec_open_inv dec) (hm : fec_dec_max_inv dec)
    (hsz : ∀ mp ∈ dec.media_packets, P mp)
    (hops : ∀ p, fec_dec_op.push_media_packet p ∈ ops → P p)
    (hd : fec_dec_run c dec ops = some d) :
    fec_dec_max_inv d ∧ ∀ mp ∈ d.media_packets, P mp := by
  induction ops generalizing dec with
  | nil =>
    simp only [fec_dec_run, List.foldlM_nil] at hd
    cases Option.some.inj hd
    exact ⟨hm, hsz⟩
  | cons op ops ih =>
    simp only [fec_dec_run, List.foldlM_cons] at hd
    cases h1 : fec_dec_apply c dec op with
    | none => rw [h1] at hd; exact absurd hd (by simp)
    | some d1 =>
      rw [h1] at hd
      obtain ⟨hi, hoi⟩ := fec_dec_apply_inv c dec d1 op h ho h1
      have hm1 := fec_dec_apply_max c dec d1 op h ho hm h1
      have hsub := fec_dec_apply_media_subset c dec d1 op h ho hm h1
      refine ih d1 hi hoi hm1 ?_ (fun p hp => hops p (List.mem_cons_of_mem _ hp)) hd
      intro mp hmp
      rcases hsub mp hmp with h2 | h2
      · exact hsz mp h2
      · exact hops mp (h2 ▸ List.mem_cons_self _ _)

theorem fec_dec_create_max_inv (N K : Nat) : fec_dec_max_inv (fec_dec_create N K) :=
  fec_dec_max_inv_unbound _ rfl

theorem fec_packet_index_lt (fp : GstBuffer) : fec_packet_index fp < 256 := by
  unfold fec_packet_index byte_at
  exact Nat.mod_lt _ (by decide)

theorem fec_dec_symbol_table_spec (s : fec_dec) (tab : List (Option (List Nat)))
    (hN : s.num_media_packets ≤ 32)
    (hpos : ∀ mp ∈ s.media_packets, fec_dec_position s mp < s.num_media_packets)
    (h : fec_dec_symbol_table s = some tab) :
    (∀ mp ∈ s.media_packets, ∃ mp' ∈ s.media_packets,
      fec_dec_position s mp' = fec_dec_position s mp ∧
      tab[fec_dec_position s mp]? = some (some (GST_BUFFER_DATA mp'))) ∧
    (∀ i, i < s.num_media_packets →
      ((∃ v, tab[i]? = some (some v)) ↔ ∃ mp ∈ s.media_packets, fec_dec_position s mp = i)) ∧
    (∀ fp ∈ s.fec_packets, ∃ fp' ∈ s.fec_packets,
      fec_packet_index fp' = fec_packet_index fp ∧
      tab[s.num_media_packets + fec_packet_index fp]?
        = some (some ((fec_data_of fp').drop 13))) := by
  unfold fec_dec_symbol_table at h
  split at h
  · exact absurd h (by simp)
  · rename_i tab1 h1
    rw [fec_dec_tab_media_eq] at h1
    rw [fec_dec_tab_fec_eq] at h
    obtain ⟨_, _, m3, m4⟩ := tab_store_all_spec _ _ _ h1
    obtain ⟨_, _, f3, f4⟩ := tab_store_all_spec _ _ _ h
    have hidx : ∀ fp : GstBuffer, u32 (fec_packet_index fp + s.num_media_packets)
        = s.num_media_packets + fec_packet_index fp := by
      intro fp
      have := fec_packet_index_lt fp
      unfold u32; omega
    have hlow : ∀ i, i < s.num_media_packets → tab[i]? = tab1[i]? := by
      intro i hi
      apply f4
      intro e he
      rw [List.mem_map] at he
      obtain ⟨fp, _, rfl⟩ := he
      show u32 (fec_packet_index fp + s.num_media_packets) ≠ i
      rw [hidx]; omega
    refine ⟨?_, ?_, ?_⟩
    · intro mp hmp
      obtain ⟨e', he', h5, h6⟩ := m3 (fec_dec_position s mp, GST_BUFFER_DATA mp)
        (List.mem_map.2 ⟨mp, hmp, rfl⟩)
      rw [List.mem_map] at he'
      obtain ⟨mp', hmp', rfl⟩ := he'
      exact ⟨mp', hmp', h5, by rw [hlow _ (hpos mp hmp)]; exact h6⟩
    · intro i hi
      rw [hlow i hi]
      constructor
      · rintro ⟨v, hv⟩
        by_contra hne
        have := m4 i (by
          intro e he hc
          rw [List.mem_map] at he
          obtain ⟨mp, hmp, rfl⟩ := he
          exact hne ⟨mp, hmp, hc⟩)
        rw [hv] at this
        by_cases hlen : i < (List.replicate (u32 (s.num_media_packets + s.num_fec_packets))
            (none : Option (List Nat))).length
        · rw [List.getElem?_eq_getElem hlen, List.getElem_replicate] at this
          exact absurd this (by simp)
        · rw [List.getElem?_eq_none (by omega)] at this
          exact absurd this (by simp)
      · rintro ⟨mp, hmp, rfl⟩
        obtain ⟨e', he', _, h6⟩ := m3 (fec_dec_position s mp, GST_BUFFER_DATA mp)
          (List.mem_map.2 ⟨mp, hmp, rfl⟩)
        exact ⟨_, h6⟩
    · intro fp hfp
      obtain ⟨e', he', h5, h6⟩ := f3
        (u32 (fec_packet_index fp + s.num_media_packets), (fec_data_of fp).drop 13)
        (List.mem_map.2 ⟨fp, hfp, rfl⟩)
      rw [List.mem_map] at he'
      obtain ⟨fp', hfp', rfl⟩ := he'
      replace h5 : u32 (fec_packet_index fp' + s.num_media_packets)
          = u32 (fec_packet_index fp + s.num_media_packets) := h5
      replace h6 : tab[u32 (fec_packet_index fp + s.num_media_packets)]?
          = some (some ((fec_data_of fp').drop 13)) := h6
      rw [hidx] at h6
      rw [hidx, hidx] at h5
      exact ⟨fp', hfp', by omega, h6⟩

theorem fec_dec_symbol_table_total (s : fec_dec)
    (hNK : s.num_media_packets + s.num_fec_packets < 4294967296)
    (hpos : ∀ mp ∈ s.media_packets, fec_dec_position s mp < s.num_media_packets)
    (hidx : ∀ fp ∈ s.fec_packets, fec_packet_index fp < s.num_fec_packets) :
    ∃ tab, fec_dec_symbol_table s = some tab := by
  have hu : u32 (s.num_media_packets + s.num_fec_packets)
      = s.num_media_packets + s.num_fec_packets := Nat.mod_eq_of_lt hNK
  obtain ⟨tab1, h1⟩ := tab_store_all_total
    (s.media_packets.map (fun mp => (fec_dec_position s mp, GST_BUFFER_DATA mp)))
    (List.replicate (u32 (s.num_media_packets + s.num_fec_packets)) none)
    (by
      intro e he
      rw [List.mem_map] at he
      obtain ⟨mp, hmp, rfl⟩ := he
      rw [List.length_replicate, hu]
      have := hpos mp hmp
      show fec_dec_position s mp < _
      omega)
  have hlen := (tab_store_all_spec _ _ _ h1).1
  rw [List.length_replicate, hu] at hlen
  obtain ⟨tab, h2⟩ := tab_store_all_total
    (s.fec_packets.map (fun fp =>
      (u32 (fec_packet_index fp + s.num_media_packets), (fec_data_of fp).drop 13))) tab1
    (by
      intro e he
      rw [List.mem_map] at he
      obtain ⟨fp, hfp, rfl⟩ := he
      have := hidx fp hfp
      show u32 (fec_packet_index fp + s.num_media_packets) < _
      rw [hlen]
      unfold u32; omega)
  refine ⟨tab, ?_⟩
  unfold fec_dec_symbol_table
  rw [fec_dec_tab_media_eq, h1]
  simp only
  rw [fec_dec_tab_fec_eq, h2]

/-- C24. Symbol-table placement: let a push in a state that public operations reach
from `fec_dec_create` arrive at the completion check in state `s`, with not all media
packets present and the block recoverable, for `1 ≤ N ≤ 32` (the range `1 ≤ N ≤ 24`
included). Then the check goes through `fec_dec_recover_packets`, which hands the
table `fec_dec_symbol_table s` and the symbol length `s.max_packet_size` to the engine.
Every queued media packet has the table index `corrected - snbase`, which is below `N`;
the mask has bit `i` set exactly when a queued media packet has index `i`; the symbol
length is the largest size of a queued media packet. In the table, each media packet
is found at its index, an entry below `N` is filled exactly when the bit of the mask
is set, and each repair packet is found at `N + fec_index`. The table is built
whenever every repair packet has an index below `K` and `N + K` fits a guint. -/
theorem fec_dec_symbol_table_placement (c : Codec) (N K : Nat) (ops : List fec_dec_op)
    (dec s : fec_dec) (op : fec_dec_op)
    (hrun : fec_dec_run c (fec_dec_create N K) ops = some dec)
    (hs : fec_dec_checked_state dec op = some s)
    (hall : fec_dec_all_media_packets_present s = false)
    (hcan : fec_dec_can_recover_packets s = true)
    (hN1 : 1 ≤ s.num_media_packets) (hN : s.num_media_packets ≤ 32) :
    fec_dec_check_state c s = (fec_dec_recover_packets c s).map fec_dec_cleanup ∧
    fec_dec_recover_packets c s =
      (if s.max_packet_size > 0 then
        (fec_dec_symbol_table s).map (fun tab =>
          (c.decode s.num_media_packets s.num_fec_packets s.max_packet_size tab).foldl
            fec_dec_source_packet_cb s)
      else none) ∧
    (∀ mp ∈ s.media_packets,
      s.cur_snbase ≤ fec_dec_correct_seqnum s (gst_rtp_buffer_get_seq mp) ∧
      fec_dec_position s mp
        = fec_dec_correct_seqnum s (gst_rtp_buffer_get_seq mp) - s.cur_snbase ∧
      fec_dec_position s mp < s.num_media_packets) ∧
    (∀ i, s.received_media_packet_mask.testBit i = true ↔
      ∃ mp ∈ s.media_packets, fec_dec_position s mp = i) ∧
    (∀ mp ∈ s.media_packets, GST_BUFFER_SIZE mp ≤ s.max_packet_size) ∧
    (∃ mp ∈ s.media_packets, GST_BUFFER_SIZE mp = s.max_packet_size) ∧
    (∀ tab, fec_dec_symbol_table s = some tab →
      (∀ mp ∈ s.media_packets, ∃ mp' ∈ s.media_packets,
        fec_dec_position s mp' = fec_dec_position s mp ∧
        tab[fec_dec_position s mp]? = some (some (GST_BUFFER_DATA mp'))) ∧
      (∀ i, i < s.num_media_packets →
        ((∃ v, tab[i]? = some (some v)) ↔ s.received_media_packet_mask.testBit i = true)) ∧
      (∀ fp ∈ s.fec_packets, ∃ fp' ∈ s.fec_packets,
        fec_packet_index fp' = fec_packet_index fp ∧
        tab[s.num_media_packets + fec_packet_index fp]?
          = some (some ((fec_data_of fp').drop 13)))) ∧
    ((∀ fp ∈ s.fec_packets, fec_packet_index fp < s.num_fec_packets) →
      s.num_media_packets + s.num_fec_packets < 4294967296 →
      ∃ tab, fec_dec_symbol_table s = some tab) := by
  obtain ⟨h, ho⟩ := fec_dec_run_inv c ops _ dec (fec_dec_inv_create N K).1
    (fec_dec_inv_create N K).2 hrun
  obtain ⟨hm, _⟩ := fec_dec_run_max c (fun _ => True) ops _ dec (fec_dec_inv_create N K).1
    (fec_dec_inv_create N K).2 (fec_dec_create_max_inv N K) (fun _ _ => trivial)
    (fun _ _ => trivial) hrun
  obtain ⟨hi, hms, hb, _⟩ := fec_dec_checked_state_inv dec s op h ho hm hs
  have hwin := hi.in_window hb hN1 hN
  have hbits := hi.mask_bits hb hN1 hN
  have hpos : ∀ mp ∈ s.media_packets,
      s.cur_snbase ≤ fec_dec_correct_seqnum s (gst_rtp_buffer_get_seq mp) ∧
      fec_dec_position s mp
        = fec_dec_correct_seqnum s (gst_rtp_buffer_get_seq mp) - s.cur_snbase ∧
      fec_dec_position s mp < s.num_media_packets := by
    intro mp hmp
    obtain ⟨h1, h2⟩ := hwin mp hmp
    have hlt := fec_dec_correct_seqnum_lt s (gst_rtp_buffer_get_seq mp)
    have hsb := hi.snbase_lt
    have he : fec_dec_position s mp
        = fec_dec_correct_seqnum s (gst_rtp_buffer_get_seq mp) - s.cur_snbase := by
      unfold fec_dec_position u32_sub u32
      omega
    exact ⟨h1, he, by omega⟩
  have hbits' : ∀ i, s.received_media_packet_mask.testBit i = true ↔
      ∃ mp ∈ s.media_packets, fec_dec_position s mp = i := by
    intro i
    rw [hbits i]
    constructor
    · rintro ⟨mp, hmp, he⟩
      obtain ⟨h1, h2, _⟩ := hpos mp hmp
      exact ⟨mp, hmp, by omega⟩
    · rintro ⟨mp, hmp, he⟩
      obtain ⟨h1, h2, _⟩ := hpos mp hmp
      exact ⟨mp, hmp, by omega⟩
  have hne : s.media_packets ≠ [] := by
    intro he
    have h1 := hi.count_eq
    rw [he] at h1
    simp [fec_dec_can_recover_packets, h1] at hcan
  obtain ⟨_, hmax2, hmax3⟩ := max_fold_spec s.media_packets 0
  rw [← hms hb] at hmax2 hmax3
  refine ⟨?_, ?_, hpos, hbits', hmax2, ?_, ?_, ?_⟩
  · simp only [fec_dec_check_state, hall, hcan, Bool.false_eq_true, if_false, if_true]
    cases fec_dec_recover_packets c s <;> rfl
  · rw [fec_dec_recover_packets_eq]
    simp [hb]
  · rcases hmax3 with h0 | h0
    · obtain ⟨mp, rest, hl⟩ := List.exists_cons_of_ne_nil hne
      have hmp : mp ∈ s.media_packets := by rw [hl]; exact List.mem_cons_self _ _
      have := hmax2 mp hmp
      exact ⟨mp, hmp, by omega⟩
    · exact h0
  · intro tab htab
    obtain ⟨t1, t2, t3⟩ := fec_dec_symbol_table_spec s tab hN (fun mp hmp => (hpos mp hmp).2.2)
      htab
    refine ⟨t1, ?_, t3⟩
    intro i hi'
    rw [t2 i hi', hbits' i]
  · intro hidx hNK
    exact fec_dec_symbol_table_total s hNK (fun mp hmp => (hpos mp hmp).2.2) hidx

/-- Witness for C24: the media packet `13` arrives at the window `[10, 14)`, which holds
one repair packet and the media packets `10` and `11`. -/
theorem fec_dec_symbol_table_placement_witness :
    (∀ mp ∈ (fec_dec_media_before_check partial_window (media_packet 13 [4, 4])).media_packets,
      GST_BUFFER_SIZE mp
        ≤ (fec_dec_media_before_check partial_window (media_packet 13 [4, 4])).max_packet_size) ∧
    ∃ tab, fec_dec_symbol_table
      (fec_dec_media_before_check partial_window (media_packet 13 [4, 4])) = some tab :=
  have h := fec_dec_symbol_table_placement xor_codec 4 2 open_then_two_ops partial_window
    (fec_dec_media_before_check partial_window (media_packet 13 [4, 4]))
    (.push_media_packet (media_packet 13 [4, 4]))
    (by decide) (by decide) (by decide) (by decide) (by decide) (by decide)
  ⟨h.2.2.2.2.1, h.2.2.2.2.2.2.2 (by decide) (by decide)⟩

theorem fec_enc_push_entry (c : Codec) (enc : fec_enc) (packet : GstBuffer) :
    fec_enc_push_media_packet c enc packet =
      if fec_enc_has_fec_packets enc then some enc
      else match fec_enc_calculate_entry enc packet with
        | some e =>
          (fec_enc_calculate_fec_packets c e).map (fun enc2 =>
            { enc2 with max_packet_size := 0, media_packets := [], cur_num_media_packets := 0 })
        | none =>
          some (if !fec_enc_is_media_packet_list_full enc then
            { enc with
              media_packets := enc.media_packets ++ [packet]
              max_packet_size := MAX enc.max_packet_size (GST_BUFFER_SIZE packet)
              cur_num_media_packets := u32 (enc.cur_num_media_packets + 1) }
          else enc) := by
  by_cases h1 : fec_enc_has_fec_packets enc = true
  · simp [fec_enc_push_media_packet, h1]
  · simp only [fec_enc_push_media_packet, fec_enc_calculate_entry, h1, if_false,
      Bool.false_eq_true]
    by_cases h2 : fec_enc_is_media_packet_list_full enc = true
    · simp only [h2, Bool.not_true, Bool.false_eq_true, if_false, if_true]
      cases fec_enc_calculate_fec_packets c enc <;> rfl
    · simp only [h2, Bool.not_eq_true, Bool.not_false, if_true]
      split_ifs with h3
      · simp only
        cases fec_enc_calculate_fec_packets c _ <;> rfl
      · rfl

theorem fec_enc_calculate_entry_fill (enc e : fec_enc) (packet : GstBuffer)
    (h : enc.cur_num_media_packets ≤ enc.num_media_packets)
    (he : fec_enc_calculate_entry enc packet = some e) :
    e.num_media_packets = e.cur_num_media_packets := by
  have hle : u32 (enc.cur_num_media_packets + 1) ≤ enc.cur_num_media_packets + 1 :=
    Nat.mod_le _ _
  by_cases h1 : fec_enc_has_fec_packets enc = true
  · simp [fec_enc_calculate_entry, h1] at he
  · simp only [fec_enc_calculate_entry, h1, if_false, Bool.false_eq_true] at he
    by_cases h2 : fec_enc_is_media_packet_list_full enc = true
    · simp only [h2, Bool.not_true, Bool.false_eq_true, if_false, if_true,
        Option.some.injEq] at he
      subst he
      simp only [fec_enc_is_media_packet_list_full, decide_eq_true_eq] at h2
      omega
    · simp only [h2, Bool.not_eq_true, Bool.not_false, if_true] at he
      split_ifs at he with h3
      cases Option.some.inj he
      simp only [fec_enc_is_media_packet_list_full, decide_eq_true_eq] at h2 h3
      replace h3 : u32 (enc.cur_num_media_packets + 1) ≥ enc.num_media_packets := h3
      show enc.num_media_packets = u32 (enc.cur_num_media_packets + 1)
      omega

theorem fec_enc_push_fill (c : Codec) (enc enc' : fec_enc) (packet : GstBuffer)
    (h : enc.cur_num_media_packets ≤ enc.num_media_packets)
    (hp : fec_enc_push_media_packet c enc packet = some enc') :
    enc'.cur_num_media_packets ≤ enc'.num_media_packets := by
  have hle : u32 (enc.cur_num_media_packets + 1) ≤ enc.cur_num_media_packets + 1 :=
    Nat.mod_le _ _
  rw [fec_enc_push_entry] at hp
  by_cases h1 : fec_enc_has_fec_packets enc = true
  · simp only [h1, if_true, Option.some.injEq] at hp
    subst hp; exact h
  · simp only [h1, if_false, Bool.false_eq_true] at hp
    cases he : fec_enc_calculate_entry enc packet with
    | some e =>
      rw [he] at hp
      simp only [Option.map_eq_some'] at hp
      obtain ⟨enc2, _, rfl⟩ := hp
      exact Nat.zero_le _
    | none =>
      rw [he] at hp
      simp only [Option.some.injEq] at hp
      subst hp
      by_cases h2 : fec_enc_is_media_packet_list_full enc = true
      · simp only [h2, Bool.not_true, Bool.false_eq_true, if_false]
        exact h
      · simp only [h2, Bool.not_eq_true, Bool.not_false, if_true]
        show u32 (enc.cur_num_media_packets + 1) ≤ enc.num_media_packets
        simp only [fec_enc_is_media_packet_list_full, decide_eq_true_eq] at h2
        omega

theorem fec_enc_apply_fill (c : Codec) (enc enc' : fec_enc) (op : fec_enc_op)
    (h : enc.cur_num_media_packets ≤ enc.num_media_packets)
    (hp : fec_enc_apply c enc op = some enc') :
    enc'.cur_num_media_packets ≤ enc'.num_media_packets := by
  cases op with
  | push_media_packet p => exact fec_enc_push_fill c enc enc' p h hp
  | pop_fec_packet => cases Option.some.inj hp; exact h
  | reset => cases Option.some.inj hp; exact Nat.zero_le _
  | set_num_media_packets n => cases Option.some.inj hp; exact Nat.zero_le _
  | set_num_fec_packets n => cases Option.some.inj hp; exact Nat.zero_le _
  | set_payload_type pt => cases Option.some.inj hp; exact h

theorem fec_enc_run_fill (c : Codec) (ops : List fec_enc_op) (enc enc' : fec_enc)
    (h : enc.cur_num_media_packets ≤ enc.num_media_packets)
    (hp : fec_enc_run c enc ops = some enc') :
    enc'.cur_num_media_packets ≤ enc'.num_media_packets := by
  induction ops generalizing enc with
  | nil =>
    simp only [fec_enc_run, List.foldlM_nil] at hp
    cases Option.some.inj hp
    exact h
  | cons op ops ih =>
    simp only [fec_enc_run, List.foldlM_cons] at hp
    cases h1 : fec_enc_apply c enc op with
    | none => rw [h1] at hp; exact absurd hp (by simp)
    | some e1 =>
      rw [h1] at hp
      exact ih e1 (fec_enc_apply_fill c enc e1 op h h1) hp

/-- C28. Assertion validity. Decoder: let public operations, whose media packets all
have a size above zero, lead from `fec_dec_create` to a push that arrives at the
completion check in state `s` with not all media packets present and the block
recoverable, so that `fec_dec_recover_packets` is entered with `s`; then a window is
bound in `s` and its running maximum is above zero. Encoder: let public operations lead
from `fec_enc_create` to a push that arrives at the call of
`fec_enc_calculate_fec_packets` with the encoder `e`; then the fill count of `e` is
`N`. -/
theorem fec_assertions_hold (c : Codec) :
    (∀ (N K : Nat) (ops : List fec_dec_op) (dec s : fec_dec) (op : fec_dec_op),
      (∀ p, fec_dec_op.push_media_packet p ∈ op :: ops → 0 < GST_BUFFER_SIZE p) →
      fec_dec_run c (fec_dec_create N K) ops = some dec →
      fec_dec_checked_state dec op = some s →
      fec_dec_all_media_packets_present s = false →
      fec_dec_can_recover_packets s = true →
      s.has_snbase = true ∧ s.max_packet_size > 0) ∧
    (∀ (N K pt off : Nat) (ops : List fec_enc_op) (enc e : fec_enc) (packet : GstBuffer),
      fec_enc_run c (fec_enc_create N K pt off) ops = some enc →
      fec_enc_calculate_entry enc packet = some e →
      e.num_media_packets = e.cur_num_media_packets) := by
  constructor
  · intro N K ops dec s op hsz hrun hs _ hcan
    obtain ⟨h, ho⟩ := fec_dec_run_inv c ops _ dec (fec_dec_inv_create N K).1
      (fec_dec_inv_create N K).2 hrun
    obtain ⟨hm, hsizes⟩ := fec_dec_run_max c (fun mp => 0 < GST_BUFFER_SIZE mp) ops _ dec
      (fec_dec_inv_create N K).1 (fec_dec_inv_create N K).2 (fec_dec_create_max_inv N K)
      (fun mp hmp => absurd hmp (List.not_mem_nil _))
      (fun p hp => hsz p (List.mem_cons_of_mem _ hp)) hrun
    obtain ⟨hi, hms, hb, hsub⟩ := fec_dec_checked_state_inv dec s op h ho hm hs
    refine ⟨hb, ?_⟩
    have hne : s.media_packets ≠ [] := by
      intro he
      have h1 := hi.count_eq
      rw [he] at h1
      simp [fec_dec_can_recover_packets, h1] at hcan
    obtain ⟨mp, rest, hl⟩ := List.exists_cons_of_ne_nil hne
    have hmp : mp ∈ s.media_packets := by rw [hl]; exact List.mem_cons_self _ _
    have hpos : 0 < GST_BUFFER_SIZE mp := by
      rcases hsub mp hmp with h1 | h1
      · exact hsizes mp h1
      · exact hsz mp (h1 ▸ List.mem_cons_self _ _)
    obtain ⟨_, hmax, _⟩ := max_fold_spec s.media_packets 0
    have := hmax mp hmp
    rw [← hms hb] at this
    omega
  · intro N K pt off ops enc e packet hrun he
    exact fec_enc_calculate_entry_fill enc e packet
      (fec_enc_run_fill c ops _ enc (Nat.zero_le _) hrun) he

/-- Witness for C28: the media packet `13` starts a recovery in the window `[10, 14)`
of a decoder with `N = 4`; the second media packet completes a block of an encoder with
`N = 2`, which enters `fec_enc_calculate_fec_packets` as `full_encoder`. -/
theorem fec_assertions_hold_witness :
    ((fec_dec_media_before_check partial_window (media_packet 13 [4, 4])).has_snbase = true ∧
      (fec_dec_media_before_check partial_window (media_packet 13 [4, 4])).max_packet_size
        > 0) ∧
    full_encoder.num_media_packets = full_encoder.cur_num_media_packets :=
  ⟨(fec_assertions_hold xor_codec).1 4 2 open_then_two_ops partial_window
      (fec_dec_media_before_check partial_window (media_packet 13 [4, 4]))
      (.push_media_packet (media_packet 13 [4, 4]))
      (by
        intro p hp
        simp only [open_then_two_ops, List.mem_cons, fec_dec_op.push_media_packet.injEq,
          List.mem_singleton, false_or, reduceCtorEq, List.not_mem_nil, or_false] at hp
        rcases hp with rfl | rfl | rfl <;> decide)
      (by decide) (by decide) (by decide) (by decide),
   (fec_assertions_hold xor_codec).2 2 3 99 7 [.push_media_packet (media_packet 1000 [1, 2])]
      { fec_enc_create 2 3 99 7 with
        media_packets := [media_packet 1000 [1, 2]]
        max_packet_size := 14
        cur_num_media_packets := 1 }
      full_encoder (media_packet 1001 [3, 4]) (by decide) (by decide)⟩

/-- C16. Recovery trigger, for counts whose sum fits a guint. When the mask differs from
`2 ^ N - 1`, the received-media count is positive and the two counts together reach
`N`, the completion check enters `fec_dec_recover_packets`; behind its two assertions
that function builds the symbol table and calls the engine `c.decode` on it with `N`,
`K` and the running maximum, so that, when the assertions hold and the table is built,
the check returns with the output of the engine appended to the recovered queue and
the window resolved. With a full mask the check resolves the window and its result
does not mention the engine; in the remaining case it returns the decoder unchanged,
the window still bound if it was. -/
theorem fec_dec_recovery_trigger (c : Codec) (dec : fec_dec)
    (hsum : dec.num_received_media_packets + dec.num_received_fec_packets < 4294967296) :
    (dec.received_media_packet_mask ≠ 2 ^ dec.num_media_packets - 1 ∧
        dec.num_received_media_packets > 0 ∧
        dec.num_received_media_packets + dec.num_received_fec_packets ≥ dec.num_media_packets →
      fec_dec_check_state c dec = (fec_dec_recover_packets c dec).map fec_dec_cleanup ∧
      fec_dec_recover_packets c dec =
        (if dec.has_snbase = true ∧ dec.max_packet_size > 0 then
          (fec_dec_symbol_table dec).map (fun tab =>
            (c.decode dec.num_media_packets dec.num_fec_packets dec.max_packet_size tab).foldl
              fec_dec_source_packet_cb dec)
        else none) ∧
      ∀ tab, dec.has_snbase = true → dec.max_packet_size > 0 →
        fec_dec_symbol_table dec = some tab →
        ∃ d, fec_dec_check_state c dec = some d ∧
          d.recovered_packets = dec.recovered_packets ++
            c.decode dec.num_media_packets dec.num_fec_packets dec.max_packet_size tab ∧
          d.has_snbase = false ∧ d.blacklisted_snbase = dec.cur_snbase) ∧
    (dec.received_media_packet_mask = 2 ^ dec.num_media_packets - 1 →
      fec_dec_check_state c dec = some (fec_dec_cleanup dec)) ∧
    (dec.received_media_packet_mask ≠ 2 ^ dec.num_media_packets - 1 →
      ¬ (dec.num_received_media_packets > 0 ∧
        dec.num_received_media_packets + dec.num_received_fec_packets
          ≥ dec.num_media_packets) →
      fec_dec_check_state c dec = some dec) := by
  have hu : u32 (dec.num_received_media_packets + dec.num_received_fec_packets)
      = dec.num_received_media_packets + dec.num_received_fec_packets := Nat.mod_eq_of_lt hsum
  have hall : fec_dec_all_media_packets_present dec
      = decide (dec.received_media_packet_mask = 2 ^ dec.num_media_packets - 1) := by
    simp [fec_dec_all_media_packets_present, shl1, Nat.one_shiftLeft]
  have hcan : fec_dec_can_recover_packets dec
      = decide (dec.num_received_media_packets > 0 ∧
        dec.num_received_media_packets + dec.num_received_fec_packets
          ≥ dec.num_media_packets) := by
    simp [fec_dec_can_recover_packets, hu]
  refine ⟨?_, ?_, ?_⟩
  · rintro ⟨h1, h2⟩
    have hcs : fec_dec_check_state c dec
        = (fec_dec_recover_packets c dec).map fec_dec_cleanup := by
      simp only [fec_dec_check_state, hall, hcan, h1, h2, decide_False, decide_True,
        Bool.false_eq_true, if_false, if_true]
      cases fec_dec_recover_packets c dec <;> rfl
    refine ⟨hcs, fec_dec_recover_packets_eq c dec, ?_⟩
    intro tab hb hmax htab
    rw [hcs, fec_dec_recover_packets_eq, if_pos ⟨hb, hmax⟩, htab]
    simp only [Option.map_some', fec_dec_source_fold]
    exact ⟨_, rfl, rfl, rfl, rfl⟩
  · intro h1
    simp [fec_dec_check_state, hall, h1]
  · intro h1 h2
    simp only [fec_dec_check_state, hall, hcan, h1, h2, decide_False, Bool.false_eq_true,
      if_false]

/-- Witness for C16: the window `[10, 14)` with one repair packet and the media
packets `10, 11, 13` goes to recovery, where the engine is called on the symbol table
with `N = 4`, `K = 2` and symbol length `14`; with the repair packet alone the window
stays as it is. -/
theorem fec_dec_recovery_trigger_witness :
    (fec_dec_check_state xor_codec
        (fec_dec_media_before_check partial_window (media_packet 13 [4, 4]))
      = (fec_dec_recover_packets xor_codec
          (fec_dec_media_before_check partial_window (media_packet 13 [4, 4]))).map
          fec_dec_cleanup ∧
      fec_dec_recover_packets xor_codec
          (fec_dec_media_before_check partial_window (media_packet 13 [4, 4]))
        = (fec_dec_symbol_table
            (fec_dec_media_before_check partial_window (media_packet 13 [4, 4]))).map
            (fun tab => (xor_codec.decode 4 2 14 tab).foldl fec_dec_source_packet_cb
              (fec_dec_media_before_check partial_window (media_packet 13 [4, 4])))) ∧
    fec_dec_check_state xor_codec open_window = some open_window :=
  have h := (fec_dec_recovery_trigger xor_codec
    (fec_dec_media_before_check partial_window (media_packet 13 [4, 4])) (by decide)).1
    (by decide)
  ⟨⟨h.1, h.2.1.trans (by decide)⟩,
   (fec_dec_recovery_trigger xor_codec open_window (by decide)).2.2 (by decide) (by decide)⟩

/-- C21. A fresh decoder with `N = 4` that is given the media packets `100, 1, 2, 3, 4`
and a repair packet with SN base `3` has the window `[3, 7)` open, holds the packets
`3` and `4` in its media queue and the keys `100` and `3` in its media key set. The
media packet `100` is not in the queue and its corrected sequence number `100` is
beyond `snbase + N = 7`; its push returns with the decoder unchanged: the window stays
bound, the repair packet stays queued, the packet is not appended. -/
theorem fec_dec_stale_key_no_abandonment :
    fec_dec_run xor_codec (fec_dec_create 4 2) stale_key_ops = some stale_key_window ∧
    stale_key_window.has_snbase = true ∧
    stale_key_window.media_packets.map gst_rtp_buffer_get_seq = [3, 4] ∧
    stale_key_window.media_packet_set = [100, 3] ∧
    stale_key_window.cur_snbase + stale_key_window.num_media_packets = 7 ∧
    fec_dec_correct_seqnum stale_key_window
      (gst_rtp_buffer_get_seq (media_packet 100 [9, 9])) = 100 ∧
    fec_dec_push_media_packet xor_codec stale_key_window (media_packet 100 [9, 9])
      = some stale_key_window ∧
    stale_key_window.fec_packets = [repair_packet 101 3 0] := by
  decide

/-- C27. A fresh decoder with `N = 4` that is given the media packets `5, 1, 2, 3, 4`
and a repair packet with SN base `3` has the window `[3, 7)` open, holds the packets
`3` and `4` in its media queue and the keys `5` and `3` in its media key set. The media
packet `5` is not in the queue and its corrected sequence number `5` lies in the
window; its push returns with the decoder unchanged: the packet is not queued, its
mask bit stays clear, and the window is not given up. The test of the last `else`
branch is false for it; the push returns at the duplicate test. -/
theorem fec_dec_stale_key_in_window_dropped :
    fec_dec_run xor_codec (fec_dec_create 4 2) stale_inside_ops = some stale_inside_window ∧
    stale_inside_window.has_snbase = true ∧
    stale_inside_window.media_packets.map gst_rtp_buffer_get_seq = [3, 4] ∧
    stale_inside_window.media_packet_set = [5, 3] ∧
    stale_inside_window.cur_snbase = 3 ∧ stale_inside_window.num_media_packets = 4 ∧
    fec_dec_correct_seqnum stale_inside_window
      (gst_rtp_buffer_get_seq (media_packet 5 [9, 9])) = 5 ∧
    fec_dec_media_dropped stale_inside_window (media_packet 5 [9, 9]) = false ∧
    fec_dec_push_media_packet xor_codec stale_inside_window (media_packet 5 [9, 9])
      = some stale_inside_window ∧
    stale_inside_window.received_media_packet_mask.testBit 2 = false := by
  decide

end RtpFec
